import Mathlib

/-!
# Envelope generators: `ADSR_Linear` and `ADSR_LogExp`

A shallow embedding of `src/linear/ADSR_Linear.{h,cpp}` and
`src/virtual_analog/ADSR_LogExp.{h,cpp}`.

Modelling conventions.

* The C++ `float` is an ordered field `F` with a floor function (exact
  arithmetic: `ℚ` for evaluation, `ℝ` for the exponential ramps).  Rounding
  error of IEEE-754 single precision is outside the model.
* The C++ `int` is `Int`; the arithmetic on lengths and on `phase` is not
  reduced modulo `2^32` (signed overflow is undefined in the source).
* An object is a record of its data members; a member function is a function
  from the record before the call to the record after it.  `render` also
  yields the returned sample.
* The constructors do not assign `phase`, `length`, `slope` (and the live-ramp
  members of `ADSR_LogExp`); the record `raw` passed to `construct` stands for
  the storage the object is built in.
* `powf` of `<math.h>` is a parameter of the functions that call it; over the
  reals it is instantiated with `Real.rpow`.
-/

set_option linter.unusedSectionVars false

namespace ADSR

/-- Envelope states: the anonymous `enum` of both classes. -/
inductive State where
  | kADSRStateIdle
  | kADSRStateAttack
  | kADSRStateDecay
  | kADSRStateSustain
  | kADSRStateRelease
  deriving DecidableEq, Repr

open State

section libm

variable {F : Type} [LinearOrderedField F] [FloorRing F]

/-- `floorf` of `<math.h>`: the largest integral value not above `q`. -/
def floorf (q : F) : F := ((⌊q⌋ : Int) : F)

/-- `ceilf` of `<math.h>`: the smallest integral value not below `q`. -/
def ceilf (q : F) : F := ((⌈q⌉ : Int) : F)

/-- `roundf` of `<math.h>`: the nearest integral value, halfway cases away
from zero. -/
def roundf (q : F) : F :=
  if 0 ≤ q then ((⌊q + 1 / 2⌋ : Int) : F) else ((⌈q - 1 / 2⌉ : Int) : F)

/-- Implicit conversion `float → int` at a call site: truncation toward
zero. -/
def float_to_int (q : F) : Int := if 0 ≤ q then ⌊q⌋ else ⌈q⌉

/-- The integer nearest to `q`, halfway cases away from zero: the value of
`roundf(q)` as an `int`. -/
def roundAway (q : F) : Int := if 0 ≤ q then ⌊q + 1 / 2⌋ else ⌈q - 1 / 2⌉

end libm

/-! ## `ADSR_Linear` -/

/-- Data members of `class ADSR_Linear`. -/
structure ADSR_Linear (F : Type) where
  sustain : Bool
  retrigger : Bool
  state : State
  phase : Int
  length : Int
  slope : F
  x : F
  atk_len : Int
  dec_len : Int
  rel_len : Int
  x_sus : F

namespace ADSR_Linear

variable {F : Type} [LinearOrderedField F] [FloorRing F]

/-- `get_output()`. -/
def get_output (s : ADSR_Linear F) : F := s.x

/-- `compute_slope(x0, x1, length)`. -/
def compute_slope (x0 x1 : F) (length : Int) : F := (x1 - x0) / (length : F)

/-- `begin_idle()`. -/
def begin_idle (s : ADSR_Linear F) : ADSR_Linear F :=
  { s with state := kADSRStateIdle, x := 0 }

/-- `begin_attack()`. -/
def begin_attack (s : ADSR_Linear F) : ADSR_Linear F :=
  { s with
    state := kADSRStateAttack
    slope := compute_slope s.x 1 s.atk_len
    length := s.atk_len
    phase := 0 }

/-- `begin_decay()`. -/
def begin_decay (s : ADSR_Linear F) : ADSR_Linear F :=
  { s with
    state := kADSRStateDecay
    slope := compute_slope s.x s.x_sus s.dec_len
    length := s.dec_len
    phase := 0 }

/-- `begin_sustain()`. -/
def begin_sustain (s : ADSR_Linear F) : ADSR_Linear F :=
  { s with state := kADSRStateSustain, x := s.x_sus }

/-- `begin_release()`. -/
def begin_release (s : ADSR_Linear F) : ADSR_Linear F :=
  { s with
    state := kADSRStateRelease
    slope := compute_slope s.x 0 s.rel_len
    length := s.rel_len
    phase := 0 }

/-- `next_state()`. -/
def next_state (s : ADSR_Linear F) : ADSR_Linear F :=
  match s.state with
  | kADSRStateAttack => begin_decay s
  | kADSRStateDecay => if s.sustain then begin_sustain s else begin_release s
  | kADSRStateRelease => if s.retrigger then begin_attack s else begin_idle s
  | _ => s

/-- The local `length -= phase; length = length > 1 ? length : 1;` of the
setters. -/
def remaining (length phase : Int) : Int :=
  if length - phase > 1 then length - phase else 1

/-- `set_attack_length(length)`. -/
def set_attack_length (s : ADSR_Linear F) (length : Int) : ADSR_Linear F :=
  let s1 := { s with atk_len := length }
  if s1.state = kADSRStateAttack then
    { s1 with
      slope := compute_slope s1.x 1 (remaining length s1.phase)
      length := s1.atk_len }
  else s1

/-- `set_decay_length(length)`. -/
def set_decay_length (s : ADSR_Linear F) (length : Int) : ADSR_Linear F :=
  let s1 := { s with dec_len := length }
  if s1.state = kADSRStateDecay then
    { s1 with
      slope := compute_slope s1.x s1.x_sus (remaining length s1.phase)
      length := s1.dec_len }
  else s1

/-- `set_sustain_level(level)`. -/
def set_sustain_level (s : ADSR_Linear F) (level : F) : ADSR_Linear F :=
  let s1 := { s with x_sus := level }
  if s1.state = kADSRStateDecay then
    { s1 with slope := compute_slope s1.x s1.x_sus (remaining s1.dec_len s1.phase) }
  else s1

/-- `set_release_length(length)`. -/
def set_release_length (s : ADSR_Linear F) (length : Int) : ADSR_Linear F :=
  let s1 := { s with rel_len := length }
  if s1.state = kADSRStateRelease then
    { s1 with
      slope := compute_slope s1.x 0 (remaining length s1.phase)
      length := s1.rel_len }
  else s1

/-- `set_period(period)`. -/
def set_period (s : ADSR_Linear F) (period : F) : ADSR_Linear F :=
  let period := period / 3
  let s1 := set_attack_length s (float_to_int (floorf period))
  let s2 := set_decay_length s1 (float_to_int (roundf period))
  set_release_length s2 (float_to_int (ceilf period))

/-- `gate(is_high)`. -/
def gate (s : ADSR_Linear F) (is_high : Bool) : ADSR_Linear F :=
  if is_high then begin_attack s else begin_release s

/-- `render()`: the object after the call and the returned sample. -/
def render (s : ADSR_Linear F) : ADSR_Linear F × F :=
  if s.state = kADSRStateIdle ∨ s.state = kADSRStateSustain then (s, s.x)
  else
    let s1 := { s with x := s.x + s.slope }
    let s2 := { s1 with phase := s1.phase + 1 }
    let s3 := if s2.phase ≥ s2.length then next_state s2 else s2
    (s3, s3.x)

/-- The constructor `ADSR_Linear(atk_len, dec_len, sus_level, rel_len)` run on
the storage `raw`. -/
def construct (raw : ADSR_Linear F) (atk_len dec_len : Int) (sus_level : F)
    (rel_len : Int) : ADSR_Linear F :=
  let s1 := { raw with x_sus := sus_level }
  let s2 := begin_idle s1
  let s3 := set_attack_length s2 atk_len
  let s4 := set_decay_length s3 dec_len
  let s5 := set_release_length s4 rel_len
  let s6 := { s5 with sustain := false }
  { s6 with retrigger := false }

/-- The public operations that mutate an `ADSR_Linear`. -/
inductive Op (F : Type) where
  | gate (is_high : Bool)
  | render
  | set_attack_length (length : Int)
  | set_decay_length (length : Int)
  | set_sustain_level (level : F)
  | set_release_length (length : Int)
  | set_period (period : F)
  | write_sustain (b : Bool)
  | write_retrigger (b : Bool)

/-- One public call. -/
def step (s : ADSR_Linear F) : Op F → ADSR_Linear F
  | .gate b => gate s b
  | .render => (render s).1
  | .set_attack_length n => set_attack_length s n
  | .set_decay_length n => set_decay_length s n
  | .set_sustain_level l => set_sustain_level s l
  | .set_release_length n => set_release_length s n
  | .set_period p => set_period s p
  | .write_sustain b => { s with sustain := b }
  | .write_retrigger b => { s with retrigger := b }

/-- A sequence of public calls, first call first. -/
def run (s : ADSR_Linear F) (ops : List (Op F)) : ADSR_Linear F :=
  ops.foldl step s

/-- The object after `n` consecutive `render()` calls. -/
def renders (s : ADSR_Linear F) : Nat → ADSR_Linear F
  | 0 => s
  | n + 1 => (render (renders s n)).1

/-- The sample returned by the `n`-th of `n` consecutive `render()` calls
(`n ≥ 1`). -/
def sample (s : ADSR_Linear F) (n : Nat) : F :=
  (render (renders s (n - 1))).2

/-- An operation is a `gate()` call. -/
def Op.isGate : Op F → Bool
  | .gate _ => true
  | _ => false

/-- A state whose `render()` advances a ramp. -/
def active (s : ADSR_Linear F) : Prop :=
  s.state ≠ kADSRStateIdle ∧ s.state ≠ kADSRStateSustain

end ADSR_Linear

/-! ## `ADSR_LogExp` -/

/-- Data members of `class ADSR_LogExp`. -/
structure ADSR_LogExp (F : Type) where
  sustain : Bool
  retrigger : Bool
  phase : Int
  length : Int
  coeff : F
  v_exp : F
  v_0 : F
  v_T : F
  v_c : F
  state : State
  atk_len : Int
  dec_len : Int
  rel_len : Int
  atk_coeff : F
  dec_coeff : F
  rel_coeff : F
  atk_eps : F
  dec_eps : F
  rel_eps : F
  v_sus : F

namespace ADSR_LogExp

variable {F : Type} [LinearOrderedField F] [FloorRing F]

/-- `get_output()`. -/
def get_output (s : ADSR_LogExp F) : F := s.v_c

/-- `attack_length()`. -/
def attack_length (s : ADSR_LogExp F) : Int := s.atk_len

/-- `decay_length()`. -/
def decay_length (s : ADSR_LogExp F) : Int := s.dec_len

/-- `release_length()`. -/
def release_length (s : ADSR_LogExp F) : Int := s.rel_len

/-- `attack_shape()`. -/
def attack_shape (s : ADSR_LogExp F) : F := s.atk_eps

/-- `decay_shape()`. -/
def decay_shape (s : ADSR_LogExp F) : F := s.dec_eps

/-- `release_shape()`. -/
def release_shape (s : ADSR_LogExp F) : F := s.rel_eps

/-- `compute_coeff(eps, length)`: `powf(eps/(1 + eps), 1/(float)length)`. -/
def compute_coeff (powf : F → F → F) (eps : F) (length : Int) : F :=
  powf (eps / (1 + eps)) (1 / (length : F))

/-- `init_ramp(v0, v1, eps, coeff, length)`. -/
def init_ramp (s : ADSR_LogExp F) (v0 v1 eps coeff : F) (length : Int) :
    ADSR_LogExp F :=
  { s with
    v_0 := v0
    v_T := v1 + (v1 - v0) * eps
    length := length
    coeff := coeff
    v_exp := 1 }

/-- `begin_idle()`. -/
def begin_idle (s : ADSR_LogExp F) : ADSR_LogExp F :=
  { s with state := kADSRStateIdle, v_c := 0 }

/-- `begin_attack()`. -/
def begin_attack (s : ADSR_LogExp F) : ADSR_LogExp F :=
  let s1 := { s with state := kADSRStateAttack }
  let s2 := init_ramp s1 s1.v_c 1 s1.atk_eps s1.atk_coeff s1.atk_len
  { s2 with phase := 0 }

/-- `begin_decay()`. -/
def begin_decay (s : ADSR_LogExp F) : ADSR_LogExp F :=
  let s1 := { s with state := kADSRStateDecay }
  let s2 := init_ramp s1 s1.v_c s1.v_sus s1.dec_eps s1.dec_coeff s1.dec_len
  { s2 with phase := 0 }

/-- `begin_sustain()`. -/
def begin_sustain (s : ADSR_LogExp F) : ADSR_LogExp F :=
  { s with state := kADSRStateSustain, v_c := s.v_sus }

/-- `begin_release()`. -/
def begin_release (s : ADSR_LogExp F) : ADSR_LogExp F :=
  let s1 := { s with state := kADSRStateRelease }
  let s2 := init_ramp s1 s1.v_c 0 s1.rel_eps s1.rel_coeff s1.rel_len
  { s2 with phase := 0 }

/-- `next_state()`. -/
def next_state (s : ADSR_LogExp F) : ADSR_LogExp F :=
  match s.state with
  | kADSRStateAttack => begin_decay s
  | kADSRStateDecay => if s.sustain then begin_sustain s else begin_release s
  | kADSRStateRelease => if s.retrigger then begin_attack s else begin_idle s
  | _ => s

/-- The local `length -= phase; length = length > 1 ? length : 1;` of the
setters. -/
def remaining (length phase : Int) : Int :=
  if length - phase > 1 then length - phase else 1

/-- `set_attack(eps, length)`. -/
def set_attack (powf : F → F → F) (s : ADSR_LogExp F) (eps : F) (length : Int) :
    ADSR_LogExp F :=
  let s1 := { s with
    atk_len := length
    atk_eps := eps
    atk_coeff := compute_coeff powf eps length }
  if s1.state = kADSRStateAttack then
    init_ramp s1 s1.v_c 1 eps (compute_coeff powf eps (remaining length s1.phase))
      s1.atk_len
  else s1

/-- `set_decay(eps, length)`. -/
def set_decay (powf : F → F → F) (s : ADSR_LogExp F) (eps : F) (length : Int) :
    ADSR_LogExp F :=
  let s1 := { s with
    dec_len := length
    dec_eps := eps
    dec_coeff := compute_coeff powf eps length }
  if s1.state = kADSRStateDecay then
    init_ramp s1 s1.v_c s1.v_sus eps
      (compute_coeff powf eps (remaining length s1.phase)) s1.dec_len
  else s1

/-- `set_sustain(level)`. -/
def set_sustain (powf : F → F → F) (s : ADSR_LogExp F) (level : F) :
    ADSR_LogExp F :=
  let s1 := { s with v_sus := level }
  if s1.state = kADSRStateDecay then
    init_ramp s1 s1.v_c s1.v_sus s1.dec_eps
      (compute_coeff powf s1.dec_eps (remaining s1.dec_len s1.phase)) s1.dec_len
  else s1

/-- `set_release(eps, length)`. -/
def set_release (powf : F → F → F) (s : ADSR_LogExp F) (eps : F) (length : Int) :
    ADSR_LogExp F :=
  let s1 := { s with
    rel_len := length
    rel_eps := eps
    rel_coeff := compute_coeff powf eps length }
  if s1.state = kADSRStateRelease then
    init_ramp s1 s1.v_c 0 eps (compute_coeff powf eps (remaining length s1.phase))
      s1.rel_len
  else s1

/-- `set_period(period)`. -/
def set_period (powf : F → F → F) (s : ADSR_LogExp F) (period : F) :
    ADSR_LogExp F :=
  let period := period / 3
  let s1 := set_attack powf s s.atk_eps (float_to_int (floorf period))
  let s2 := set_decay powf s1 s1.dec_eps (float_to_int (roundf period))
  set_release powf s2 s2.rel_eps (float_to_int (ceilf period))

/-- `set_shape(eps)`. -/
def set_shape (powf : F → F → F) (s : ADSR_LogExp F) (eps : F) : ADSR_LogExp F :=
  let s1 := set_attack powf s eps s.atk_len
  let s2 := set_decay powf s1 eps s1.dec_len
  set_release powf s2 eps s2.rel_len

/-- `gate(is_high)`. -/
def gate (s : ADSR_LogExp F) (is_high : Bool) : ADSR_LogExp F :=
  if is_high then begin_attack s else begin_release s

/-- `render()`: the object after the call and the returned sample. -/
def render (s : ADSR_LogExp F) : ADSR_LogExp F × F :=
  if s.state = kADSRStateIdle ∨ s.state = kADSRStateSustain then (s, s.v_c)
  else
    let s1 := { s with v_exp := s.v_exp * s.coeff }
    let s2 := { s1 with v_c := s1.v_T * (1 - s1.v_exp) + s1.v_0 * s1.v_exp }
    let s3 := { s2 with phase := s2.phase + 1 }
    let s4 := if s3.phase ≥ s3.length then next_state s3 else s3
    (s4, s4.v_c)

/-- The constructor `ADSR_LogExp(atk_len, dec_len, sus_level, rel_len, eps)` run
on the storage `raw`. -/
def construct (powf : F → F → F) (raw : ADSR_LogExp F) (atk_len dec_len : Int)
    (sus_level : F) (rel_len : Int) (eps : F) : ADSR_LogExp F :=
  let s1 := { raw with v_sus := sus_level }
  let s2 := begin_idle s1
  let s3 := set_attack powf s2 eps atk_len
  let s4 := set_decay powf s3 eps dec_len
  let s5 := set_release powf s4 eps rel_len
  let s6 := { s5 with sustain := false }
  { s6 with retrigger := false }

/-- The public operations that mutate an `ADSR_LogExp`. -/
inductive Op (F : Type) where
  | gate (is_high : Bool)
  | render
  | set_attack (eps : F) (length : Int)
  | set_decay (eps : F) (length : Int)
  | set_sustain (level : F)
  | set_release (eps : F) (length : Int)
  | set_period (period : F)
  | set_shape (eps : F)
  | write_sustain (b : Bool)
  | write_retrigger (b : Bool)

/-- One public call. -/
def step (powf : F → F → F) (s : ADSR_LogExp F) : Op F → ADSR_LogExp F
  | .gate b => gate s b
  | .render => (render s).1
  | .set_attack e n => set_attack powf s e n
  | .set_decay e n => set_decay powf s e n
  | .set_sustain l => set_sustain powf s l
  | .set_release e n => set_release powf s e n
  | .set_period p => set_period powf s p
  | .set_shape e => set_shape powf s e
  | .write_sustain b => { s with sustain := b }
  | .write_retrigger b => { s with retrigger := b }

/-- A sequence of public calls, first call first. -/
def run (powf : F → F → F) (s : ADSR_LogExp F) (ops : List (Op F)) :
    ADSR_LogExp F :=
  ops.foldl (step powf) s

/-- The object after `n` consecutive `render()` calls. -/
def renders (s : ADSR_LogExp F) : Nat → ADSR_LogExp F
  | 0 => s
  | n + 1 => (render (renders s n)).1

/-- The sample returned by the `n`-th of `n` consecutive `render()` calls
(`n ≥ 1`). -/
def sample (s : ADSR_LogExp F) (n : Nat) : F :=
  (render (renders s (n - 1))).2

/-- A state whose `render()` advances a ramp. -/
def active (s : ADSR_LogExp F) : Prop :=
  s.state ≠ kADSRStateIdle ∧ s.state ≠ kADSRStateSustain

/-- The stored coefficients are the ones `compute_coeff` gives for the stored
shapes and lengths. -/
def CoeffsConfigured (powf : F → F → F) (s : ADSR_LogExp F) : Prop :=
  s.atk_coeff = compute_coeff powf s.atk_eps s.atk_len ∧
  s.dec_coeff = compute_coeff powf s.dec_eps s.dec_len ∧
  s.rel_coeff = compute_coeff powf s.rel_eps s.rel_len

/-- The states a generator can be in: built by the constructor, then driven
by any sequence of public calls. -/
def Reachable (powf : F → F → F) (s : ADSR_LogExp F) : Prop :=
  ∃ (raw : ADSR_LogExp F) (atk_len dec_len : Int) (sus_level : F) (rel_len : Int)
    (eps : F) (ops : List (Op F)),
    s = run powf (construct powf raw atk_len dec_len sus_level rel_len eps) ops

end ADSR_LogExp


end ADSR

/-! ## Concrete generators used to instantiate the theorems -/

namespace ADSR

/-- A block of storage with arbitrary contents. -/
def rawLinear : ADSR_Linear ℚ :=
  { sustain := true, retrigger := true, state := State.kADSRStateDecay, phase := 7,
    length := 9, slope := 5, x := 3, atk_len := 0, dec_len := 0, rel_len := 0, x_sus := 0 }

/-- A linear generator holding in Sustain at level 1/2, lengths 3, 2, 4. -/
def heldLinear : ADSR_Linear ℚ :=
  { sustain := true, retrigger := false, state := State.kADSRStateSustain, phase := 2,
    length := 2, slope := -1 / 4, x := 1 / 2, atk_len := 3, dec_len := 2, rel_len := 4,
    x_sus := 1 / 2 }

/-- A linear generator in the last sample of a Decay (phase 1 of 2), with
`sustain = false`. -/
def decayingLinear : ADSR_Linear ℚ :=
  { sustain := false, retrigger := false, state := State.kADSRStateDecay, phase := 1,
    length := 2, slope := -1 / 4, x := 3 / 4, atk_len := 3, dec_len := 2, rel_len := 4,
    x_sus := 1 / 2 }

/-- A stand-in for `powf` on `ℚ`, exact on the exponents 0 and 1 only. -/
def powfQ (b e : ℚ) : ℚ := if e = 0 then 1 else b

/-- A block of storage with arbitrary contents. -/
def rawLogExp : ADSR_LogExp ℚ :=
  { sustain := true, retrigger := true, phase := 7, length := 9, coeff := 5, v_exp := 3,
    v_0 := 2, v_T := 4, v_c := 6, state := State.kADSRStateRelease, atk_len := 0,
    dec_len := 0, rel_len := 0, atk_coeff := 0, dec_coeff := 0, rel_coeff := 0,
    atk_eps := 0, dec_eps := 0, rel_eps := 0, v_sus := 0 }

/-- A block of storage with arbitrary contents, for a generator over `ℝ`. -/
def rawLogExpReal : ADSR_LogExp ℝ :=
  { sustain := true, retrigger := true, phase := 7, length := 9, coeff := 5, v_exp := 3,
    v_0 := 2, v_T := 4, v_c := 6, state := State.kADSRStateRelease, atk_len := 0,
    dec_len := 0, rel_len := 0, atk_coeff := 0, dec_coeff := 0, rel_coeff := 0,
    atk_eps := 0, dec_eps := 0, rel_eps := 0, v_sus := 0 }

/-- An exponential generator in the last sample of a Decay (phase 1 of 2),
with `sustain = false`. -/
def decayingLogExp : ADSR_LogExp ℚ :=
  { sustain := false, retrigger := false, phase := 1, length := 2, coeff := 1 / 2,
    v_exp := 1 / 2, v_0 := 1, v_T := 0, v_c := 1 / 2, state := State.kADSRStateDecay,
    atk_len := 3, dec_len := 2, rel_len := 4, atk_coeff := 1 / 2, dec_coeff := 1 / 2,
    rel_coeff := 1 / 2, atk_eps := 1, dec_eps := 1, rel_eps := 1, v_sus := 1 / 2 }

end ADSR

/-! ## Auxiliary definitions for the later properties -/

namespace ADSR

/-- A public call that does not reconfigure the attack segment: every call
but `set_attack`, `set_period` and `set_shape`. -/
def ADSR_LogExp.Op.keepsAttack {F : Type} : ADSR_LogExp.Op F → Bool
  | .set_attack _ _ => false
  | .set_period _ => false
  | .set_shape _ => false
  | _ => true

/-- An exponential generator in Attack at phase 2 of 4, over `ℝ`. -/
def attackingLogExpReal : ADSR_LogExp ℝ :=
  { sustain := false, retrigger := false, phase := 2, length := 4, coeff := 1,
    v_exp := 1, v_0 := 0, v_T := 2, v_c := 0, state := State.kADSRStateAttack,
    atk_len := 4, dec_len := 2, rel_len := 4, atk_coeff := 1, dec_coeff := 1,
    rel_coeff := 1, atk_eps := 1, dec_eps := 1, rel_eps := 1, v_sus := 0 }

end ADSR

namespace ADSR

namespace ADSR_Linear

variable {F : Type} [LinearOrderedField F] [FloorRing F]

/-- The states a generator can be in: built by the constructor, then driven
by any sequence of public calls. -/
def Reachable (s : ADSR_Linear F) : Prop :=
  ∃ (raw : ADSR_Linear F) (atk_len dec_len : Int) (sus_level : F) (rel_len : Int)
    (ops : List (Op F)), s = run (construct raw atk_len dec_len sus_level rel_len) ops

/-- In an active segment the live `length` is the configured length of that
segment. -/
def LiveLength (s : ADSR_Linear F) : Prop :=
  (s.state = State.kADSRStateAttack → s.length = s.atk_len) ∧
  (s.state = State.kADSRStateDecay → s.length = s.dec_len) ∧
  (s.state = State.kADSRStateRelease → s.length = s.rel_len)

/-- An operation is a call of the level setter `set_sustain_level`. -/
def Op.isLevelSetter : Op F → Bool
  | .set_sustain_level _ => true
  | _ => false

/-- The nominal target of the active segment (the output itself in a resting
state). -/
def target (s : ADSR_Linear F) : F :=
  match s.state with
  | State.kADSRStateAttack => 1
  | State.kADSRStateDecay => s.x_sus
  | State.kADSRStateRelease => 0
  | _ => s.x

/-- The length setter of the segment that is active (no call in a resting
state). -/
def set_active_length (s : ADSR_Linear F) (length : Int) : ADSR_Linear F :=
  match s.state with
  | State.kADSRStateAttack => set_attack_length s length
  | State.kADSRStateDecay => set_decay_length s length
  | State.kADSRStateRelease => set_release_length s length
  | _ => s

end ADSR_Linear

/-- An operation is a call of the level setter `set_sustain`. -/
def ADSR_LogExp.Op.isLevelSetter {F : Type} : ADSR_LogExp.Op F → Bool
  | .set_sustain _ => true
  | _ => false

/-- An operation is a `gate()` call. -/
def ADSR_LogExp.Op.isGate {F : Type} : ADSR_LogExp.Op F → Bool
  | .gate _ => true
  | _ => false

/-- A linear generator in Decay at phase 1 of 4, going from 1 towards 1/2. -/
def midDecayLinear : ADSR_Linear ℚ :=
  { sustain := true, retrigger := false, state := State.kADSRStateDecay, phase := 1,
    length := 4, slope := -1 / 8, x := 7 / 8, atk_len := 3, dec_len := 4, rel_len := 4,
    x_sus := 1 / 2 }

end ADSR

namespace ADSR

/-- The generator with both flags cleared: two generators agree on every
member except the flags exactly when these are equal. -/
def ADSR_Linear.clearFlags {F : Type} (s : ADSR_Linear F) : ADSR_Linear F :=
  { s with sustain := false, retrigger := false }

/-- The generator with both flags cleared: two generators agree on every
member except the flags exactly when these are equal. -/
def ADSR_LogExp.clearFlags {F : Type} (s : ADSR_LogExp F) : ADSR_LogExp F :=
  { s with sustain := false, retrigger := false }

/-- A `render()` call that does not complete a Decay or a Release: the state
is Idle, Sustain or Attack, or the phase stays below the segment length. -/
def ADSR_Linear.flagFree {F : Type} (s : ADSR_Linear F) : Prop :=
  s.state = State.kADSRStateIdle ∨ s.state = State.kADSRStateSustain ∨
    s.state = State.kADSRStateAttack ∨ s.phase + 1 < s.length

/-- A `render()` call that does not complete a Decay or a Release: the state
is Idle, Sustain or Attack, or the phase stays below the segment length. -/
def ADSR_LogExp.flagFree {F : Type} (s : ADSR_LogExp F) : Prop :=
  s.state = State.kADSRStateIdle ∨ s.state = State.kADSRStateSustain ∨
    s.state = State.kADSRStateAttack ∨ s.phase + 1 < s.length

end ADSR

namespace ADSR

/-- A call made on a linear and an exponential generator side by side: the
length setters are paired (`set_attack_length(n)` with `set_attack(eps, n)`
and so on), the other calls are the same on both. -/
inductive SharedCall (F : Type) where
  | gate (is_high : Bool)
  | render
  | attack (eps : F) (length : Int)
  | decay (eps : F) (length : Int)
  | release (eps : F) (length : Int)
  | period (period : F)
  | write_sustain (b : Bool)
  | write_retrigger (b : Bool)

/-- The call as made on the linear generator. -/
def SharedCall.linear {F : Type} : SharedCall F → ADSR_Linear.Op F
  | .gate b => .gate b
  | .render => .render
  | .attack _ n => .set_attack_length n
  | .decay _ n => .set_decay_length n
  | .release _ n => .set_release_length n
  | .period p => .set_period p
  | .write_sustain b => .write_sustain b
  | .write_retrigger b => .write_retrigger b

/-- The call as made on the exponential generator. -/
def SharedCall.logExp {F : Type} : SharedCall F → ADSR_LogExp.Op F
  | .gate b => .gate b
  | .render => .render
  | .attack e n => .set_attack e n
  | .decay e n => .set_decay e n
  | .release e n => .set_release e n
  | .period p => .set_period p
  | .write_sustain b => .write_sustain b
  | .write_retrigger b => .write_retrigger b

/-- A call is a `gate()` call. -/
def SharedCall.isGate {F : Type} : SharedCall F → Bool
  | .gate _ => true
  | _ => false

/-- The members the two classes have in common: state, phase, live segment
length, configured lengths and flags. -/
structure Control where
  state : State
  phase : Int
  length : Int
  atk_len : Int
  dec_len : Int
  rel_len : Int
  sustain : Bool
  retrigger : Bool
  deriving DecidableEq

/-- The common members of a linear generator. -/
def ADSR_Linear.control {F : Type} (s : ADSR_Linear F) : Control :=
  ⟨s.state, s.phase, s.length, s.atk_len, s.dec_len, s.rel_len, s.sustain, s.retrigger⟩

/-- The common members of an exponential generator. -/
def ADSR_LogExp.control {F : Type} (s : ADSR_LogExp F) : Control :=
  ⟨s.state, s.phase, s.length, s.atk_len, s.dec_len, s.rel_len, s.sustain, s.retrigger⟩

namespace Control

/-- The state machine on the common members: entering a segment. -/
def enter (c : Control) (st : State) (len : Int) : Control :=
  { c with state := st, length := len, phase := 0 }

/-- The state machine on the common members: the successor at segment
completion. -/
def next_state (c : Control) : Control :=
  match c.state with
  | State.kADSRStateAttack => c.enter State.kADSRStateDecay c.dec_len
  | State.kADSRStateDecay =>
    if c.sustain then { c with state := State.kADSRStateSustain }
    else c.enter State.kADSRStateRelease c.rel_len
  | State.kADSRStateRelease =>
    if c.retrigger then c.enter State.kADSRStateAttack c.atk_len
    else { c with state := State.kADSRStateIdle }
  | _ => c

/-- The state machine on the common members: `render()`. -/
def render (c : Control) : Control :=
  if c.state = State.kADSRStateIdle ∨ c.state = State.kADSRStateSustain then c
  else if c.phase + 1 ≥ c.length then next_state { c with phase := c.phase + 1 }
  else { c with phase := c.phase + 1 }

/-- The state machine on the common members: the three length setters. -/
def set_attack (c : Control) (n : Int) : Control :=
  if c.state = State.kADSRStateAttack then { c with atk_len := n, length := n }
  else { c with atk_len := n }

def set_decay (c : Control) (n : Int) : Control :=
  if c.state = State.kADSRStateDecay then { c with dec_len := n, length := n }
  else { c with dec_len := n }

def set_release (c : Control) (n : Int) : Control :=
  if c.state = State.kADSRStateRelease then { c with rel_len := n, length := n }
  else { c with rel_len := n }

/-- The state machine on the common members: one paired call. -/
def step {F : Type} [LinearOrderedField F] [FloorRing F] (c : Control) :
    SharedCall F → Control
  | .gate b =>
    if b then c.enter State.kADSRStateAttack c.atk_len
    else c.enter State.kADSRStateRelease c.rel_len
  | .render => c.render
  | .attack _ n => c.set_attack n
  | .decay _ n => c.set_decay n
  | .release _ n => c.set_release n
  | .period p =>
    ((c.set_attack (float_to_int (floorf (p / 3)))).set_decay
      (float_to_int (roundf (p / 3)))).set_release (float_to_int (ceilf (p / 3)))
  | .write_sustain b => { c with sustain := b }
  | .write_retrigger b => { c with retrigger := b }

/-- The common members with phase and live length blanked in a resting state,
where no call reads them. -/
def settle (c : Control) : Control :=
  if c.state = State.kADSRStateIdle ∨ c.state = State.kADSRStateSustain then
    { c with phase := 0, length := 0 }
  else c

end Control

end ADSR

namespace ADSR

namespace ADSR_Linear

variable {F : Type} [LinearOrderedField F] [FloorRing F]

/-- The calls of the range property: any `gate`, `render` or flag write, a
length setter with an argument of at least 1, `set_period` with a period of at
least 3, `set_sustain_level` with a level in `[0, 1]`. -/
def Op.admissible : Op F → Prop
  | .set_attack_length n => 1 ≤ n
  | .set_decay_length n => 1 ≤ n
  | .set_release_length n => 1 ≤ n
  | .set_period p => 3 ≤ p
  | .set_sustain_level l => 0 ≤ l ∧ l ≤ 1
  | _ => True

/-- Output and sustain level in `[0, 1]`, configured lengths at least 1. -/
def InRange (s : ADSR_Linear F) : Prop :=
  0 ≤ s.x ∧ s.x ≤ 1 ∧ 0 ≤ s.x_sus ∧ s.x_sus ≤ 1 ∧
    1 ≤ s.atk_len ∧ 1 ≤ s.dec_len ∧ 1 ≤ s.rel_len

/-- The live ramp of an active segment is aimed at the target of the segment:
`x + max(length - phase, 1) * slope = target`. -/
def Aimed (s : ADSR_Linear F) : Prop :=
  active s → s.x + (remaining s.length s.phase : F) * s.slope = target s

/-- The invariant behind the range property. -/
def Bounded (s : ADSR_Linear F) : Prop :=
  InRange s ∧ LiveLength s ∧ Aimed s

end ADSR_Linear

end ADSR

namespace ADSR

/-- What is claimed of one segment of the exponential generator, entered in
the state `t` from the level `v0` towards the nominal target `v1` with length
`L`: the `L`-th sample is `v1`; when `v0 < v1` the asymptote lies above `v1`,
the samples `1 .. L` lie in `(v0, v1]` and increase strictly; when `v1 < v0`
the asymptote lies below `v1`, the samples lie in `[v1, v0)` and decrease
strictly. -/
def ADSR_LogExp.RampMonotone (t : ADSR_LogExp ℝ) (v0 v1 : ℝ) (L : Int) : Prop :=
  ADSR_LogExp.sample t L.toNat = v1 ∧
  (v0 < v1 →
    v1 < t.v_T ∧
    (∀ k : Nat, 1 ≤ k → (k : Int) ≤ L →
      v0 < ADSR_LogExp.sample t k ∧ ADSR_LogExp.sample t k ≤ v1) ∧
    (∀ j k : Nat, 1 ≤ j → j < k → (k : Int) ≤ L →
      ADSR_LogExp.sample t j < ADSR_LogExp.sample t k)) ∧
  (v1 < v0 →
    t.v_T < v1 ∧
    (∀ k : Nat, 1 ≤ k → (k : Int) ≤ L →
      v1 ≤ ADSR_LogExp.sample t k ∧ ADSR_LogExp.sample t k < v0) ∧
    (∀ j k : Nat, 1 ≤ j → j < k → (k : Int) ≤ L →
      ADSR_LogExp.sample t k < ADSR_LogExp.sample t j))

end ADSR

/-! ## Properties of `ADSR_Linear` -/

namespace ADSR

open State

namespace ADSR_Linear

variable {F : Type} [LinearOrderedField F] [FloorRing F]

/-- No setter touches `state`, `phase` or the output `x`. -/
lemma set_attack_length_frame (s : ADSR_Linear F) (n : Int) :
    (set_attack_length s n).state = s.state ∧ (set_attack_length s n).phase = s.phase ∧
      (set_attack_length s n).x = s.x := by
  simp only [set_attack_length]
  split_ifs <;> simp

lemma set_decay_length_frame (s : ADSR_Linear F) (n : Int) :
    (set_decay_length s n).state = s.state ∧ (set_decay_length s n).phase = s.phase ∧
      (set_decay_length s n).x = s.x := by
  simp only [set_decay_length]
  split_ifs <;> simp

lemma set_release_length_frame (s : ADSR_Linear F) (n : Int) :
    (set_release_length s n).state = s.state ∧ (set_release_length s n).phase = s.phase ∧
      (set_release_length s n).x = s.x := by
  simp only [set_release_length]
  split_ifs <;> simp

lemma set_sustain_level_frame (s : ADSR_Linear F) (l : F) :
    (set_sustain_level s l).state = s.state ∧ (set_sustain_level s l).phase = s.phase ∧
      (set_sustain_level s l).x = s.x := by
  simp only [set_sustain_level]
  split_ifs <;> simp

lemma set_period_frame (s : ADSR_Linear F) (p : F) :
    (set_period s p).state = s.state ∧ (set_period s p).phase = s.phase ∧
      (set_period s p).x = s.x := by
  unfold set_period
  simp only [set_release_length_frame, set_decay_length_frame, set_attack_length_frame,
    and_self]

/-- In Idle, `render()` is the identity and returns the output. -/
lemma render_idle (s : ADSR_Linear F) (h : s.state = kADSRStateIdle) :
    render s = (s, s.x) := by
  simp [render, h]

/-- In Sustain, `render()` is the identity and returns the output. -/
lemma render_sustain (s : ADSR_Linear F) (h : s.state = kADSRStateSustain) :
    render s = (s, s.x) := by
  simp [render, h]

/-- The sample returned by `render()` is the output after the call. -/
lemma render_snd (s : ADSR_Linear F) : (render s).2 = (render s).1.x := by
  simp only [render]
  split_ifs <;> rfl

/-- Every public call keeps `Idle → output = 0`. -/
lemma step_idle_zero (s : ADSR_Linear F) (o : Op F)
    (h : s.state = kADSRStateIdle → s.x = 0) :
    (step s o).state = kADSRStateIdle → (step s o).x = 0 := by
  cases o with
  | gate b => cases b <;> simp [step, gate, begin_attack, begin_release]
  | render =>
    simp only [step, render]
    split
    · exact h
    · simp only [next_state]
      split
      · cases hs : s.state <;> simp_all [begin_decay, begin_sustain, begin_release,
          begin_attack, begin_idle] <;> split <;> simp
      · intro h1; simp_all
  | set_attack_length n => simpa [step, set_attack_length_frame] using h
  | set_decay_length n => simpa [step, set_decay_length_frame] using h
  | set_sustain_level l => simpa [step, set_sustain_level_frame] using h
  | set_release_length n => simpa [step, set_release_length_frame] using h
  | set_period p => simpa [step, set_period_frame] using h
  | write_sustain b => simpa [step] using h
  | write_retrigger b => simpa [step] using h

/-- A call other than `gate()` leaves an Idle generator Idle with output 0. -/
lemma step_stays_idle (s : ADSR_Linear F) (o : Op F) (hg : o.isGate = false)
    (h : s.state = kADSRStateIdle ∧ s.x = 0) :
    (step s o).state = kADSRStateIdle ∧ (step s o).x = 0 := by
  cases o with
  | gate b => simp [Op.isGate] at hg
  | render => simp [step, render_idle s h.1, h]
  | set_attack_length n => simpa [step, set_attack_length_frame] using h
  | set_decay_length n => simpa [step, set_decay_length_frame] using h
  | set_sustain_level l => simpa [step, set_sustain_level_frame] using h
  | set_release_length n => simpa [step, set_release_length_frame] using h
  | set_period p => simpa [step, set_period_frame] using h
  | write_sustain b => simpa [step] using h
  | write_retrigger b => simpa [step] using h

lemma run_idle_zero (ops : List (Op F)) (s : ADSR_Linear F)
    (h : s.state = kADSRStateIdle → s.x = 0) :
    (run s ops).state = kADSRStateIdle → (run s ops).x = 0 := by
  induction ops generalizing s with
  | nil => simpa [run] using h
  | cons o ops ih => exact ih (step s o) (step_idle_zero s o h)

lemma run_stays_idle (ops : List (Op F)) (s : ADSR_Linear F)
    (hg : ∀ o ∈ ops, o.isGate = false)
    (h : s.state = kADSRStateIdle ∧ s.x = 0) :
    (run s ops).state = kADSRStateIdle ∧ (run s ops).x = 0 := by
  induction ops generalizing s with
  | nil => simpa [run] using h
  | cons o ops ih =>
    exact ih (step s o) (fun o' ho' => hg o' (List.mem_cons_of_mem _ ho'))
      (step_stays_idle s o (hg o (List.mem_cons_self _ _)) h)

lemma construct_idle (raw : ADSR_Linear F) (a d : Int) (l : F) (r : Int) :
    (construct raw a d l r).state = kADSRStateIdle ∧ (construct raw a d l r).x = 0 := by
  simp [construct, set_release_length_frame, set_decay_length_frame,
    set_attack_length_frame, begin_idle]

/-- C1. A freshly constructed `ADSR_Linear` (any storage, any lengths, any
sustain level) is in Idle with output 0; after any sequence of public calls
that contains no `gate()` call it is still in Idle, and a `render()` call then
returns exactly 0 and leaves it in Idle; and after any sequence of public
calls whatsoever, if the generator is in Idle its output is exactly 0. -/
theorem C1_idle_output_zero (raw : ADSR_Linear F) (a d : Int) (l : F) (r : Int) :
    (construct raw a d l r).state = kADSRStateIdle ∧
    get_output (construct raw a d l r) = 0 ∧
    (∀ ops : List (Op F), (∀ o ∈ ops, o.isGate = false) →
      (run (construct raw a d l r) ops).state = kADSRStateIdle ∧
      (render (run (construct raw a d l r) ops)).2 = 0 ∧
      (render (run (construct raw a d l r) ops)).1.state = kADSRStateIdle) ∧
    (∀ ops : List (Op F),
      (run (construct raw a d l r) ops).state = kADSRStateIdle →
      get_output (run (construct raw a d l r) ops) = 0) := by
  have hc := construct_idle raw a d l r
  refine ⟨hc.1, hc.2, ?_, ?_⟩
  · intro ops hg
    have h := run_stays_idle ops _ hg hc
    rw [render_idle _ h.1]
    exact ⟨h.1, h.2, h.1⟩
  · intro ops
    exact run_idle_zero ops _ (fun _ => hc.2)

/-- One `render()` inside a segment: the output moves by `slope`, the phase by
one, nothing else changes. -/
lemma render_inside (s : ADSR_Linear F) (hst : active s) (h : s.phase + 1 < s.length) :
    (render s).1 = { s with x := s.x + s.slope, phase := s.phase + 1 } := by
  have h' : ¬ (s.length ≤ s.phase + 1) := not_le.mpr h
  simp [render, hst.1, hst.2, h']

/-- The `render()` that completes a segment. -/
lemma render_last (s : ADSR_Linear F) (hst : active s) (h : s.length ≤ s.phase + 1) :
    (render s).1 = next_state { s with x := s.x + s.slope, phase := s.phase + 1 } := by
  simp [render, hst.1, hst.2, h]

/-- The first `k` renders of a segment that has more than `k` samples left. -/
lemma renders_inside (s : ADSR_Linear F) (hst : active s) (k : Nat)
    (h : s.phase + k < s.length) :
    renders s k = { s with x := s.x + k * s.slope, phase := s.phase + k } := by
  induction k with
  | zero => simp [renders]
  | succ k ih =>
    have hk : s.phase + k < s.length := by push_cast at h; omega
    have h1 : s.phase + (k : Int) + 1 < s.length := by push_cast at h; omega
    rw [renders, ih hk,
      render_inside { s with x := s.x + k * s.slope, phase := s.phase + k } hst h1]
    simp only [Nat.cast_add, Nat.cast_one, mk.injEq, true_and, and_true]
    constructor
    · ring
    · ring

/-- The renders up to and including the one that completes a segment. -/
lemma renders_last (s : ADSR_Linear F) (hst : active s) (k : Nat)
    (h : s.phase + k < s.length) (h' : s.length ≤ s.phase + k + 1) :
    renders s (k + 1) =
      next_state { s with x := s.x + (k + 1) * s.slope, phase := s.phase + k + 1 } := by
  rw [renders, renders_inside s hst k h,
    render_last { s with x := s.x + k * s.slope, phase := s.phase + k } hst h']
  congr 1
  simp only [mk.injEq, true_and, and_true]
  ring

/-- The `n`-th sample (`n ≥ 1`) is the output after `n` renders. -/
lemma sample_eq (s : ADSR_Linear F) (n : Nat) (hn : 1 ≤ n) :
    sample s n = (renders s n).x := by
  obtain ⟨m, rfl⟩ : ∃ m, n = m + 1 := ⟨n - 1, by omega⟩
  simp [sample, renders, render_snd]

/-- C2. For every generator state `s` (Idle or any other) with attack length
`atk_len ≥ 1` and current output `x`, after `gate(true)` the `k`-th consecutive
`render()` call, `1 ≤ k ≤ atk_len`, returns `x + k * (1 - x) / atk_len`; the
generator is in Attack after the call when `k < atk_len`, and when
`k = atk_len` it is in Decay and the call returned exactly 1. -/
theorem C2_attack_ramp (s : ADSR_Linear F) (k : Nat) (hL : 1 ≤ s.atk_len)
    (hk1 : 1 ≤ k) (hk : (k : Int) ≤ s.atk_len) :
    sample (gate s true) k = s.x + k * (1 - s.x) / (s.atk_len : F) ∧
    ((k : Int) < s.atk_len → (renders (gate s true) k).state = kADSRStateAttack) ∧
    ((k : Int) = s.atk_len →
      (renders (gate s true) k).state = kADSRStateDecay ∧ sample (gate s true) k = 1) := by
  have hL0 : (s.atk_len : F) ≠ 0 := by
    have : (0 : Int) < s.atk_len := by omega
    exact_mod_cast this.ne'
  have hact : active (gate s true) := by simp [active, gate, begin_attack]
  obtain ⟨m, rfl⟩ : ∃ m, k = m + 1 := ⟨k - 1, by omega⟩
  rw [sample_eq _ _ hk1]
  by_cases hlt : ((m + 1 : Nat) : Int) < s.atk_len
  · have hin := renders_inside (gate s true) hact (m + 1)
      (by simpa [gate, begin_attack] using hlt)
    rw [hin]
    refine ⟨?_, fun _ => ?_, fun h => absurd h hlt.ne⟩
    · simp [gate, begin_attack, compute_slope]; ring
    · simp [gate, begin_attack]
  · have heq : ((m + 1 : Nat) : Int) = s.atk_len := le_antisymm hk (not_lt.mp hlt)
    have hlast := renders_last (gate s true) hact m
      (by simp [gate, begin_attack]; push_cast at heq; omega)
      (by simp [gate, begin_attack]; push_cast at heq; omega)
    rw [hlast]
    have hx : s.x + ((m : F) + 1) * ((1 - s.x) / (s.atk_len : F)) = 1 := by
      have : ((m : F) + 1) = (s.atk_len : F) := by
        rw [← heq]; push_cast; ring
      rw [this]; field_simp
    refine ⟨?_, fun h => absurd h hlt, fun _ => ⟨?_, ?_⟩⟩
    · simp [gate, begin_attack, next_state, begin_decay, compute_slope]; ring
    · simp [gate, begin_attack, next_state, begin_decay]
    · simpa [gate, begin_attack, next_state, begin_decay, compute_slope] using hx

/-- Instance of C2: from Sustain at 1/2 with attack length 3, the second
sample after `gate(true)` is 1/2 + 2 * (1/2) / 3. -/
theorem C2_attack_ramp_witness :
    (1 : Int) ≤ heldLinear.atk_len ∧
    (sample (gate heldLinear true) 2 = heldLinear.x + (2 : Nat) * (1 - heldLinear.x) / (heldLinear.atk_len : ℚ) ∧
    (((2 : Nat) : Int) < heldLinear.atk_len →
      (renders (gate heldLinear true) 2).state = kADSRStateAttack) ∧
    (((2 : Nat) : Int) = heldLinear.atk_len →
      (renders (gate heldLinear true) 2).state = kADSRStateDecay ∧
        sample (gate heldLinear true) 2 = 1)) :=
  ⟨by decide, C2_attack_ramp heldLinear 2 (by decide) (by decide) (by decide)⟩

/-- Instance of C1: renders and setter calls on a fresh generator, then a
render, which returns 0. -/
theorem C1_idle_output_zero_witness :
    (run (construct rawLinear 3 2 (1 / 2) 4)
        [Op.render, Op.set_period 10, Op.write_retrigger true, Op.render]).state =
      kADSRStateIdle ∧
    (render (run (construct rawLinear 3 2 (1 / 2) 4)
        [Op.render, Op.set_period 10, Op.write_retrigger true, Op.render])).2 = 0 ∧
    (render (run (construct rawLinear 3 2 (1 / 2) 4)
        [Op.render, Op.set_period 10, Op.write_retrigger true, Op.render])).1.state =
      kADSRStateIdle :=
  (C1_idle_output_zero rawLinear 3 2 (1 / 2) 4).2.2.1 _ (by simp [Op.isGate])

lemma renders_add (s : ADSR_Linear F) (m n : Nat) :
    renders s (m + n) = renders (renders s m) n := by
  induction n with
  | zero => rfl
  | succ n ih => rw [← Nat.add_assoc, renders, ih, renders]

/-- Renders in Idle or Sustain change no field. -/
lemma renders_resting (s : ADSR_Linear F)
    (h : s.state = kADSRStateIdle ∨ s.state = kADSRStateSustain) (n : Nat) :
    renders s n = s := by
  induction n with
  | zero => rfl
  | succ n ih => rw [renders, ih]; simp [render, h]

/-- A whole segment rendered from its entry: `length` renders end in the
successor chosen by `next_state` on the fully advanced ramp. -/
lemma renders_segment (s : ADSR_Linear F) (hst : active s) (hp : s.phase = 0)
    (hl : 1 ≤ s.length) :
    renders s s.length.toNat =
      next_state { s with x := s.x + (s.length : F) * s.slope, phase := s.length } := by
  obtain ⟨m, hm⟩ : ∃ m : Nat, s.length = (m : Int) + 1 :=
    ⟨(s.length - 1).toNat, by omega⟩
  have hn : s.length.toNat = m + 1 := by omega
  rw [hn, renders_last s hst m (by omega) (by omega)]
  congr 1
  simp only [mk.injEq, true_and, and_true]
  refine ⟨by omega, ?_⟩
  rw [hm]; push_cast; ring

/-- C4. With `sustain = true`, attack length `a ≥ 1`, decay length `d ≥ 1` and
sustain level `l`, starting from a fresh generator and calling `gate(true)`
followed only by `render()` calls, the `n`-th `render()` call returns exactly
`l` for every `n ≥ a + d`, the generator is in Sustain after it, and a further
`render()` changes no field. -/
theorem C4_sustain_hold (raw : ADSR_Linear F) (a d : Int) (l : F) (r : Int)
    (ha : 1 ≤ a) (hd : 1 ≤ d) (n : Nat) (hn : a + d ≤ (n : Int)) :
    sample (gate { construct raw a d l r with sustain := true } true) n = l ∧
    (renders (gate { construct raw a d l r with sustain := true } true) n).state =
      kADSRStateSustain ∧
    (render (renders (gate { construct raw a d l r with sustain := true } true) n)).1 =
      renders (gate { construct raw a d l r with sustain := true } true) n := by
  have ha0 : (a : F) ≠ 0 := by
    have : (0 : Int) < a := by omega
    exact_mod_cast this.ne'
  have hd0 : (d : F) ≠ 0 := by
    have : (0 : Int) < d := by omega
    exact_mod_cast this.ne'
  -- the generator right after `gate(true)`: every member is determined
  have hg : gate { construct raw a d l r with sustain := true } true =
      ⟨true, false, kADSRStateAttack, 0, a, compute_slope 0 1 a, 0, a, d, r, l⟩ := by
    simp [construct, begin_idle, set_attack_length, set_decay_length, set_release_length,
      gate, begin_attack]
  rw [hg]
  generalize hgd : (⟨true, false, kADSRStateAttack, 0, a, compute_slope 0 1 a, 0, a, d, r, l⟩ :
    ADSR_Linear F) = g
  -- the attack segment
  have h1 : renders g a.toNat =
      ⟨true, false, kADSRStateDecay, 0, d, compute_slope 1 l d, 1, a, d, r, l⟩ := by
    have := renders_segment g (by simp [← hgd, active]) (by simp [← hgd])
      (by simpa [← hgd] using ha)
    have hlen : g.length = a := by simp [← hgd]
    rw [hlen] at this
    rw [this]
    simp [← hgd, next_state, begin_decay, compute_slope]
    field_simp
  -- the decay segment
  have h2 : renders g (a.toNat + d.toNat) =
      ⟨true, false, kADSRStateSustain, d, d, compute_slope 1 l d, l, a, d, r, l⟩ := by
    rw [renders_add, h1]
    have := renders_segment
      (⟨true, false, kADSRStateDecay, 0, d, compute_slope 1 l d, 1, a, d, r, l⟩ : ADSR_Linear F)
      (by simp [active]) rfl hd
    simp only at this
    rw [this]
    simp [next_state, begin_sustain]
  obtain ⟨m, hm⟩ : ∃ m : Nat, n = (a.toNat + d.toNat) + m :=
    ⟨n - (a.toNat + d.toNat), by omega⟩
  have hS : (renders g (a.toNat + d.toNat)).state = kADSRStateSustain := by rw [h2]
  have h3 : renders g n = renders g (a.toNat + d.toNat) := by
    rw [hm, renders_add, renders_resting _ (Or.inr hS)]
  have hn1 : 1 ≤ n := by omega
  refine ⟨?_, ?_, ?_⟩
  · rw [sample_eq _ _ hn1, h3, h2]
  · rw [h3, hS]
  · rw [h3, render_sustain _ hS]

/-- Instance of C4: lengths 3, 2, 4 and level 1/2; the seventh sample. -/
theorem C4_sustain_hold_witness :
    sample (gate { construct rawLinear 3 2 (1 / 2) 4 with sustain := true } true) 7 = 1 / 2 ∧
    (renders (gate { construct rawLinear 3 2 (1 / 2) 4 with sustain := true } true) 7).state =
      kADSRStateSustain ∧
    (render (renders (gate { construct rawLinear 3 2 (1 / 2) 4 with sustain := true } true) 7)).1 =
      renders (gate { construct rawLinear 3 2 (1 / 2) 4 with sustain := true } true) 7 :=
  C4_sustain_hold rawLinear 3 2 (1 / 2) 4 (by decide) (by decide) 7 (by decide)

/-- The samples of a Release entered by `gate(false)`: a straight line from the
output at the gate down to 0. -/
lemma release_ramp (s : ADSR_Linear F) (hR : 1 ≤ s.rel_len) (k : Nat) (hk1 : 1 ≤ k)
    (hk : (k : Int) ≤ s.rel_len) :
    sample (gate s false) k = s.x - k * s.x / (s.rel_len : F) := by
  have hR0 : (s.rel_len : F) ≠ 0 := by
    have : (0 : Int) < s.rel_len := by omega
    exact_mod_cast this.ne'
  have hact : active (gate s false) := by simp [active, gate, begin_release]
  obtain ⟨m, rfl⟩ : ∃ m, k = m + 1 := ⟨k - 1, by omega⟩
  rw [sample_eq _ _ hk1]
  by_cases hlt : ((m + 1 : Nat) : Int) < s.rel_len
  · rw [renders_inside (gate s false) hact (m + 1) (by simpa [gate, begin_release] using hlt)]
    simp [gate, begin_release, compute_slope]; ring
  · have heq : ((m + 1 : Nat) : Int) = s.rel_len := le_antisymm hk (not_lt.mp hlt)
    rw [renders_last (gate s false) hact m
      (by simp [gate, begin_release]; push_cast at heq; omega)
      (by simp [gate, begin_release]; push_cast at heq; omega)]
    have hm : ((m : F) + 1) = (s.rel_len : F) := by
      rw [← heq]; push_cast; ring
    have hx : s.x + ((m : F) + 1) * ((0 - s.x) / (s.rel_len : F)) = 0 := by
      rw [hm]; field_simp; ring
    have hy : s.x - ((m : F) + 1) * s.x / (s.rel_len : F) = 0 := by
      rw [hm]; field_simp
    cases hr : s.retrigger
    · simp [gate, begin_release, next_state, begin_idle, hr, compute_slope]
      simpa using hy.symm
    · simp only [gate, begin_release, next_state, begin_attack, hr, compute_slope]
      simp only [Bool.false_eq_true, if_false, if_true]
      push_cast
      rw [hx, hy]

/-- C6. For every generator state `s` (Idle, Attack at any phase, Decay,
Sustain or Release) with release length `rel_len ≥ 1`, `gate(false)` puts the
generator in Release with phase 0 and leaves the output unchanged; the next
`render()` returns `x - x / rel_len`, and the `rel_len`-th `render()` after the
gate returns exactly 0. -/
theorem C6_forced_release (s : ADSR_Linear F) (hR : 1 ≤ s.rel_len) :
    (gate s false).state = kADSRStateRelease ∧
    (gate s false).phase = 0 ∧
    get_output (gate s false) = get_output s ∧
    sample (gate s false) 1 = s.x - s.x / (s.rel_len : F) ∧
    sample (gate s false) s.rel_len.toNat = 0 := by
  have hR0 : (s.rel_len : F) ≠ 0 := by
    have : (0 : Int) < s.rel_len := by omega
    exact_mod_cast this.ne'
  refine ⟨by simp [gate, begin_release], by simp [gate, begin_release],
    by simp [gate, begin_release, get_output], ?_, ?_⟩
  · have := release_ramp s hR 1 le_rfl (by simpa using hR)
    simpa using this
  · have := release_ramp s hR s.rel_len.toNat (by omega) (by omega)
    rw [this]
    have hc : ((s.rel_len.toNat : Nat) : F) = (s.rel_len : F) := by
      have : ((s.rel_len.toNat : Nat) : Int) = s.rel_len := by omega
      exact_mod_cast this
    rw [hc]; field_simp

/-- Instance of C6: a forced release from Sustain at 1/2 with release length
4. -/
theorem C6_forced_release_witness :
    (gate heldLinear false).state = kADSRStateRelease ∧
    (gate heldLinear false).phase = 0 ∧
    get_output (gate heldLinear false) = get_output heldLinear ∧
    sample (gate heldLinear false) 1 = heldLinear.x - heldLinear.x / (heldLinear.rel_len : ℚ) ∧
    sample (gate heldLinear false) heldLinear.rel_len.toNat = 0 :=
  C6_forced_release heldLinear (by decide)

end ADSR_Linear

end ADSR

/-! ## Properties of `ADSR_LogExp` -/

namespace ADSR

open State

namespace ADSR_LogExp

variable {F : Type} [LinearOrderedField F] [FloorRing F]

/-- No setter touches `state`, `phase` or the output `v_c`. -/
lemma set_attack_frame (powf : F → F → F) (s : ADSR_LogExp F) (e : F) (n : Int) :
    (set_attack powf s e n).state = s.state ∧ (set_attack powf s e n).phase = s.phase ∧
      (set_attack powf s e n).v_c = s.v_c := by
  simp only [set_attack, init_ramp]
  split_ifs <;> simp

lemma set_decay_frame (powf : F → F → F) (s : ADSR_LogExp F) (e : F) (n : Int) :
    (set_decay powf s e n).state = s.state ∧ (set_decay powf s e n).phase = s.phase ∧
      (set_decay powf s e n).v_c = s.v_c := by
  simp only [set_decay, init_ramp]
  split_ifs <;> simp

lemma set_release_frame (powf : F → F → F) (s : ADSR_LogExp F) (e : F) (n : Int) :
    (set_release powf s e n).state = s.state ∧ (set_release powf s e n).phase = s.phase ∧
      (set_release powf s e n).v_c = s.v_c := by
  simp only [set_release, init_ramp]
  split_ifs <;> simp

lemma set_sustain_frame (powf : F → F → F) (s : ADSR_LogExp F) (l : F) :
    (set_sustain powf s l).state = s.state ∧ (set_sustain powf s l).phase = s.phase ∧
      (set_sustain powf s l).v_c = s.v_c := by
  simp only [set_sustain, init_ramp]
  split_ifs <;> simp

lemma exp_set_period_frame (powf : F → F → F) (s : ADSR_LogExp F) (p : F) :
    (set_period powf s p).state = s.state ∧ (set_period powf s p).phase = s.phase ∧
      (set_period powf s p).v_c = s.v_c := by
  simp only [set_period, set_release_frame, set_decay_frame, set_attack_frame, and_self]

lemma set_shape_frame (powf : F → F → F) (s : ADSR_LogExp F) (e : F) :
    (set_shape powf s e).state = s.state ∧ (set_shape powf s e).phase = s.phase ∧
      (set_shape powf s e).v_c = s.v_c := by
  simp only [set_shape, set_release_frame, set_decay_frame, set_attack_frame, and_self]

/-- The sample returned by `render()` is the output after the call. -/
lemma exp_render_snd (s : ADSR_LogExp F) : (render s).2 = (render s).1.v_c := by
  simp only [render]
  split_ifs <;> rfl

/-- One `render()` inside a segment. -/
lemma exp_render_inside (s : ADSR_LogExp F) (hst : active s) (h : s.phase + 1 < s.length) :
    (render s).1 =
      { s with
        v_exp := s.v_exp * s.coeff
        v_c := s.v_T * (1 - s.v_exp * s.coeff) + s.v_0 * (s.v_exp * s.coeff)
        phase := s.phase + 1 } := by
  have h' : ¬ (s.length ≤ s.phase + 1) := not_le.mpr h
  simp [render, hst.1, hst.2, h']

/-- The `render()` that completes a segment. -/
lemma exp_render_last (s : ADSR_LogExp F) (hst : active s) (h : s.length ≤ s.phase + 1) :
    (render s).1 =
      next_state { s with
        v_exp := s.v_exp * s.coeff
        v_c := s.v_T * (1 - s.v_exp * s.coeff) + s.v_0 * (s.v_exp * s.coeff)
        phase := s.phase + 1 } := by
  simp [render, hst.1, hst.2, h]

end ADSR_LogExp

/-! ## Segment completion -/

/-- C5. Transition table of both variants.  On the `render()` call in which
the phase reaches the segment length (`length ≤ phase + 1`): Attack goes to
Decay whatever the flags are; Decay goes to Sustain if `sustain` is true and
otherwise directly to Release at phase 0, and the following `render()` already
returns the first sample of the release ramp (linear variant with
`rel_len ≥ 1`, exponential variant with `rel_len ≥ 2`); Release goes to Attack if `retrigger` is true and otherwise to
Idle, the call returning 0.  A `render()` call in Attack, Decay or Release with
`phase + 1 < length` does not change the state. -/
theorem C5_transition_table {F : Type} [LinearOrderedField F] [FloorRing F]
    (s : ADSR_Linear F) (t : ADSR_LogExp F) :
    ((s.state = kADSRStateAttack → s.length ≤ s.phase + 1 →
        (ADSR_Linear.render s).1.state = kADSRStateDecay) ∧
     (s.state = kADSRStateDecay → s.length ≤ s.phase + 1 → s.sustain = true →
        (ADSR_Linear.render s).1.state = kADSRStateSustain) ∧
     (s.state = kADSRStateDecay → s.length ≤ s.phase + 1 → s.sustain = false →
        (ADSR_Linear.render s).1.state = kADSRStateRelease ∧
        (ADSR_Linear.render s).1.phase = 0 ∧
        (1 ≤ s.rel_len →
          (ADSR_Linear.render (ADSR_Linear.render s).1).2 =
            (ADSR_Linear.render s).2 - (ADSR_Linear.render s).2 / (s.rel_len : F))) ∧
     (s.state = kADSRStateRelease → s.length ≤ s.phase + 1 → s.retrigger = true →
        (ADSR_Linear.render s).1.state = kADSRStateAttack) ∧
     (s.state = kADSRStateRelease → s.length ≤ s.phase + 1 → s.retrigger = false →
        (ADSR_Linear.render s).1.state = kADSRStateIdle ∧ (ADSR_Linear.render s).2 = 0) ∧
     (ADSR_Linear.active s → s.phase + 1 < s.length →
        (ADSR_Linear.render s).1.state = s.state)) ∧
    ((t.state = kADSRStateAttack → t.length ≤ t.phase + 1 →
        (ADSR_LogExp.render t).1.state = kADSRStateDecay) ∧
     (t.state = kADSRStateDecay → t.length ≤ t.phase + 1 → t.sustain = true →
        (ADSR_LogExp.render t).1.state = kADSRStateSustain) ∧
     (t.state = kADSRStateDecay → t.length ≤ t.phase + 1 → t.sustain = false →
        (ADSR_LogExp.render t).1.state = kADSRStateRelease ∧
        (ADSR_LogExp.render t).1.phase = 0 ∧
        (2 ≤ t.rel_len →
          (ADSR_LogExp.render (ADSR_LogExp.render t).1).2 =
            (0 + (0 - (ADSR_LogExp.render t).2) * t.rel_eps) * (1 - 1 * t.rel_coeff) +
              (ADSR_LogExp.render t).2 * (1 * t.rel_coeff))) ∧
     (t.state = kADSRStateRelease → t.length ≤ t.phase + 1 → t.retrigger = true →
        (ADSR_LogExp.render t).1.state = kADSRStateAttack) ∧
     (t.state = kADSRStateRelease → t.length ≤ t.phase + 1 → t.retrigger = false →
        (ADSR_LogExp.render t).1.state = kADSRStateIdle ∧ (ADSR_LogExp.render t).2 = 0) ∧
     (ADSR_LogExp.active t → t.phase + 1 < t.length →
        (ADSR_LogExp.render t).1.state = t.state)) := by
  refine ⟨⟨?_, ?_, ?_, ?_, ?_, ?_⟩, ⟨?_, ?_, ?_, ?_, ?_, ?_⟩⟩
  · intro hs hl
    rw [ADSR_Linear.render_last s (by simp [ADSR_Linear.active, hs]) hl]
    simp [ADSR_Linear.next_state, hs, ADSR_Linear.begin_decay]
  · intro hs hl hf
    rw [ADSR_Linear.render_last s (by simp [ADSR_Linear.active, hs]) hl]
    simp [ADSR_Linear.next_state, hs, hf, ADSR_Linear.begin_sustain]
  · intro hs hl hf
    have hr := ADSR_Linear.render_last s (by simp [ADSR_Linear.active, hs]) hl
    have hn : ADSR_Linear.next_state { s with x := s.x + s.slope, phase := s.phase + 1 } =
        ADSR_Linear.gate { s with x := s.x + s.slope, phase := s.phase + 1 } false := by
      simp [ADSR_Linear.next_state, hs, hf, ADSR_Linear.gate]
    rw [hn] at hr
    refine ⟨by rw [hr]; simp [ADSR_Linear.gate, ADSR_Linear.begin_release],
      by rw [hr]; simp [ADSR_Linear.gate, ADSR_Linear.begin_release], fun hR => ?_⟩
    have h1 := ADSR_Linear.release_ramp
      ({ s with x := s.x + s.slope, phase := s.phase + 1 } : ADSR_Linear F) hR 1 le_rfl
      (by simpa using hR)
    have hx : (ADSR_Linear.render s).2 = s.x + s.slope := by
      rw [ADSR_Linear.render_snd, hr]; simp [ADSR_Linear.gate, ADSR_Linear.begin_release]
    rw [hx, hr]
    simpa [ADSR_Linear.sample, ADSR_Linear.renders] using h1
  · intro hs hl hf
    rw [ADSR_Linear.render_last s (by simp [ADSR_Linear.active, hs]) hl]
    simp [ADSR_Linear.next_state, hs, hf, ADSR_Linear.begin_attack]
  · intro hs hl hf
    rw [ADSR_Linear.render_snd, ADSR_Linear.render_last s (by simp [ADSR_Linear.active, hs]) hl]
    simp [ADSR_Linear.next_state, hs, hf, ADSR_Linear.begin_idle]
  · intro ha hl
    rw [ADSR_Linear.render_inside s ha hl]
  · intro hs hl
    rw [ADSR_LogExp.exp_render_last t (by simp [ADSR_LogExp.active, hs]) hl]
    simp [ADSR_LogExp.next_state, hs, ADSR_LogExp.begin_decay, ADSR_LogExp.init_ramp]
  · intro hs hl hf
    rw [ADSR_LogExp.exp_render_last t (by simp [ADSR_LogExp.active, hs]) hl]
    simp [ADSR_LogExp.next_state, hs, hf, ADSR_LogExp.begin_sustain]
  · intro hs hl hf
    have hr := ADSR_LogExp.exp_render_last t (by simp [ADSR_LogExp.active, hs]) hl
    simp only [ADSR_LogExp.next_state, hs, hf, ADSR_LogExp.begin_release,
      ADSR_LogExp.init_ramp, Bool.false_eq_true, if_false] at hr
    refine ⟨by rw [hr], by rw [hr], fun hR => ?_⟩
    rw [ADSR_LogExp.exp_render_snd t, ADSR_LogExp.exp_render_snd, hr,
      ADSR_LogExp.exp_render_inside _ (by simp [ADSR_LogExp.active]) (by simpa using hR)]
  · intro hs hl hf
    rw [ADSR_LogExp.exp_render_last t (by simp [ADSR_LogExp.active, hs]) hl]
    simp [ADSR_LogExp.next_state, hs, hf, ADSR_LogExp.begin_attack, ADSR_LogExp.init_ramp]
  · intro hs hl hf
    rw [ADSR_LogExp.exp_render_snd, ADSR_LogExp.exp_render_last t (by simp [ADSR_LogExp.active, hs]) hl]
    simp [ADSR_LogExp.next_state, hs, hf, ADSR_LogExp.begin_idle]
  · intro ha hl
    rw [ADSR_LogExp.exp_render_inside t ha hl]

/-- Instance of C5: a Decay in its last sample with `sustain = false`, in both
variants. -/
theorem C5_transition_table_witness :
    ((ADSR_Linear.render decayingLinear).1.state = kADSRStateRelease ∧
      (ADSR_Linear.render decayingLinear).1.phase = 0 ∧
      (1 ≤ decayingLinear.rel_len →
        (ADSR_Linear.render (ADSR_Linear.render decayingLinear).1).2 =
          (ADSR_Linear.render decayingLinear).2 -
            (ADSR_Linear.render decayingLinear).2 / (decayingLinear.rel_len : ℚ))) ∧
    ((ADSR_LogExp.render decayingLogExp).1.state = kADSRStateRelease ∧
      (ADSR_LogExp.render decayingLogExp).1.phase = 0 ∧
      (2 ≤ decayingLogExp.rel_len →
        (ADSR_LogExp.render (ADSR_LogExp.render decayingLogExp).1).2 =
          (0 + (0 - (ADSR_LogExp.render decayingLogExp).2) * decayingLogExp.rel_eps) *
              (1 - 1 * decayingLogExp.rel_coeff) +
            (ADSR_LogExp.render decayingLogExp).2 * (1 * decayingLogExp.rel_coeff))) :=
  ⟨(C5_transition_table decayingLinear decayingLogExp).1.2.2.1 rfl (by decide) rfl,
   (C5_transition_table decayingLinear decayingLogExp).2.2.2.1 rfl (by decide) rfl⟩

/-! ## Setters -/

/-- C10. No parameter setter changes the current output, the state or the
phase: for every generator state and every argument, `get_output()`, `state`
and `phase` are the same before and after `set_attack`, `set_decay`,
`set_release`, `set_sustain`, `set_period`, `set_shape` (`ADSR_LogExp`) and
`set_attack_length`, `set_decay_length`, `set_release_length`,
`set_sustain_level`, `set_period` (`ADSR_Linear`). -/
theorem C10_setters_keep_output {F : Type} [LinearOrderedField F] [FloorRing F]
    (powf : F → F → F) (s : ADSR_Linear F) (t : ADSR_LogExp F) (n : Int) (e v : F) :
    (ADSR_Linear.get_output (ADSR_Linear.set_attack_length s n) = ADSR_Linear.get_output s ∧
      (ADSR_Linear.set_attack_length s n).state = s.state ∧
      (ADSR_Linear.set_attack_length s n).phase = s.phase) ∧
    (ADSR_Linear.get_output (ADSR_Linear.set_decay_length s n) = ADSR_Linear.get_output s ∧
      (ADSR_Linear.set_decay_length s n).state = s.state ∧
      (ADSR_Linear.set_decay_length s n).phase = s.phase) ∧
    (ADSR_Linear.get_output (ADSR_Linear.set_release_length s n) = ADSR_Linear.get_output s ∧
      (ADSR_Linear.set_release_length s n).state = s.state ∧
      (ADSR_Linear.set_release_length s n).phase = s.phase) ∧
    (ADSR_Linear.get_output (ADSR_Linear.set_sustain_level s v) = ADSR_Linear.get_output s ∧
      (ADSR_Linear.set_sustain_level s v).state = s.state ∧
      (ADSR_Linear.set_sustain_level s v).phase = s.phase) ∧
    (ADSR_Linear.get_output (ADSR_Linear.set_period s v) = ADSR_Linear.get_output s ∧
      (ADSR_Linear.set_period s v).state = s.state ∧
      (ADSR_Linear.set_period s v).phase = s.phase) ∧
    (ADSR_LogExp.get_output (ADSR_LogExp.set_attack powf t e n) = ADSR_LogExp.get_output t ∧
      (ADSR_LogExp.set_attack powf t e n).state = t.state ∧
      (ADSR_LogExp.set_attack powf t e n).phase = t.phase) ∧
    (ADSR_LogExp.get_output (ADSR_LogExp.set_decay powf t e n) = ADSR_LogExp.get_output t ∧
      (ADSR_LogExp.set_decay powf t e n).state = t.state ∧
      (ADSR_LogExp.set_decay powf t e n).phase = t.phase) ∧
    (ADSR_LogExp.get_output (ADSR_LogExp.set_release powf t e n) = ADSR_LogExp.get_output t ∧
      (ADSR_LogExp.set_release powf t e n).state = t.state ∧
      (ADSR_LogExp.set_release powf t e n).phase = t.phase) ∧
    (ADSR_LogExp.get_output (ADSR_LogExp.set_sustain powf t v) = ADSR_LogExp.get_output t ∧
      (ADSR_LogExp.set_sustain powf t v).state = t.state ∧
      (ADSR_LogExp.set_sustain powf t v).phase = t.phase) ∧
    (ADSR_LogExp.get_output (ADSR_LogExp.set_period powf t v) = ADSR_LogExp.get_output t ∧
      (ADSR_LogExp.set_period powf t v).state = t.state ∧
      (ADSR_LogExp.set_period powf t v).phase = t.phase) ∧
    (ADSR_LogExp.get_output (ADSR_LogExp.set_shape powf t e) = ADSR_LogExp.get_output t ∧
      (ADSR_LogExp.set_shape powf t e).state = t.state ∧
      (ADSR_LogExp.set_shape powf t e).phase = t.phase) := by
  simp only [ADSR_Linear.get_output, ADSR_LogExp.get_output,
    ADSR_Linear.set_attack_length_frame, ADSR_Linear.set_decay_length_frame,
    ADSR_Linear.set_release_length_frame, ADSR_Linear.set_sustain_level_frame,
    ADSR_Linear.set_period_frame, ADSR_LogExp.set_attack_frame, ADSR_LogExp.set_decay_frame,
    ADSR_LogExp.set_release_frame, ADSR_LogExp.set_sustain_frame,
    ADSR_LogExp.exp_set_period_frame, ADSR_LogExp.set_shape_frame, and_self]

/-- The remaining length a setter divides by is at least 1. -/
lemma ADSR_Linear.one_le_remaining (length phase : Int) :
    1 ≤ ADSR_Linear.remaining length phase := by
  unfold ADSR_Linear.remaining
  split_ifs <;> omega

lemma ADSR_LogExp.exp_one_le_remaining (length phase : Int) :
    1 ≤ ADSR_LogExp.remaining length phase := by
  unfold ADSR_LogExp.remaining
  split_ifs <;> omega

/-- The claim C7 fails: `set_attack_length(0)`, the constructor called with
length 0 and `set_attack(eps, 0)` all store the length 0, not 1, and the
`gate(true)` that follows computes its slope with the length 0. -/
theorem C7_length_not_coerced :
    (ADSR_Linear.set_attack_length heldLinear 0).atk_len = 0 ∧
    (ADSR_Linear.set_attack_length heldLinear 0).atk_len ≠ 1 ∧
    (ADSR_Linear.construct rawLinear 0 2 (1 / 2) 4).atk_len ≠ 1 ∧
    ADSR_LogExp.attack_length (ADSR_LogExp.set_attack powfQ decayingLogExp 1 0) ≠ 1 ∧
    (ADSR_Linear.gate (ADSR_Linear.set_attack_length heldLinear 0) true).slope =
      ADSR_Linear.compute_slope (1 / 2) 1 0 := by
  simp [ADSR_Linear.set_attack_length, heldLinear, ADSR_Linear.construct, rawLinear,
    ADSR_Linear.begin_idle, ADSR_Linear.set_decay_length, ADSR_Linear.set_release_length,
    ADSR_LogExp.attack_length, ADSR_LogExp.set_attack, decayingLogExp, ADSR_Linear.gate,
    ADSR_Linear.begin_attack]

/-- C7, amended. Every length setter and both constructors store the length
they are given unchanged, whatever its sign; what is coerced to at least 1 is
only the remaining length `max(length - phase, 1)` that a setter divides by (or
computes the coefficient for) when its segment is the active one. -/
theorem C7_lengths_stored_as_given {F : Type} [LinearOrderedField F] [FloorRing F]
    (powf : F → F → F) (s raw : ADSR_Linear F) (t rawE : ADSR_LogExp F)
    (n a d r : Int) (e l : F) :
    ((ADSR_Linear.set_attack_length s n).atk_len = n ∧
      (ADSR_Linear.set_decay_length s n).dec_len = n ∧
      (ADSR_Linear.set_release_length s n).rel_len = n) ∧
    (ADSR_LogExp.attack_length (ADSR_LogExp.set_attack powf t e n) = n ∧
      ADSR_LogExp.decay_length (ADSR_LogExp.set_decay powf t e n) = n ∧
      ADSR_LogExp.release_length (ADSR_LogExp.set_release powf t e n) = n) ∧
    ((ADSR_Linear.construct raw a d l r).atk_len = a ∧
      (ADSR_Linear.construct raw a d l r).dec_len = d ∧
      (ADSR_Linear.construct raw a d l r).rel_len = r) ∧
    (ADSR_LogExp.attack_length (ADSR_LogExp.construct powf rawE a d l r e) = a ∧
      ADSR_LogExp.decay_length (ADSR_LogExp.construct powf rawE a d l r e) = d ∧
      ADSR_LogExp.release_length (ADSR_LogExp.construct powf rawE a d l r e) = r) ∧
    (1 ≤ ADSR_Linear.remaining n s.phase ∧
      (ADSR_Linear.set_attack_length s n).slope =
        (if s.state = kADSRStateAttack then
          ADSR_Linear.compute_slope s.x 1 (ADSR_Linear.remaining n s.phase) else s.slope) ∧
      (ADSR_Linear.set_decay_length s n).slope =
        (if s.state = kADSRStateDecay then
          ADSR_Linear.compute_slope s.x s.x_sus (ADSR_Linear.remaining n s.phase)
         else s.slope) ∧
      (ADSR_Linear.set_release_length s n).slope =
        (if s.state = kADSRStateRelease then
          ADSR_Linear.compute_slope s.x 0 (ADSR_Linear.remaining n s.phase) else s.slope)) ∧
    (1 ≤ ADSR_LogExp.remaining n t.phase ∧
      (ADSR_LogExp.set_attack powf t e n).coeff =
        (if t.state = kADSRStateAttack then
          ADSR_LogExp.compute_coeff powf e (ADSR_LogExp.remaining n t.phase) else t.coeff) ∧
      (ADSR_LogExp.set_decay powf t e n).coeff =
        (if t.state = kADSRStateDecay then
          ADSR_LogExp.compute_coeff powf e (ADSR_LogExp.remaining n t.phase) else t.coeff) ∧
      (ADSR_LogExp.set_release powf t e n).coeff =
        (if t.state = kADSRStateRelease then
          ADSR_LogExp.compute_coeff powf e (ADSR_LogExp.remaining n t.phase)
         else t.coeff)) := by
  refine ⟨⟨?_, ?_, ?_⟩, ⟨?_, ?_, ?_⟩, ⟨?_, ?_, ?_⟩, ⟨?_, ?_, ?_⟩,
    ⟨ADSR_Linear.one_le_remaining _ _, ?_, ?_, ?_⟩,
    ⟨ADSR_LogExp.exp_one_le_remaining _ _, ?_, ?_, ?_⟩⟩
  · simp only [ADSR_Linear.set_attack_length]; split_ifs <;> rfl
  · simp only [ADSR_Linear.set_decay_length]; split_ifs <;> rfl
  · simp only [ADSR_Linear.set_release_length]; split_ifs <;> rfl
  · simp only [ADSR_LogExp.attack_length, ADSR_LogExp.set_attack, ADSR_LogExp.init_ramp]
    split_ifs <;> rfl
  · simp only [ADSR_LogExp.decay_length, ADSR_LogExp.set_decay, ADSR_LogExp.init_ramp]
    split_ifs <;> rfl
  · simp only [ADSR_LogExp.release_length, ADSR_LogExp.set_release, ADSR_LogExp.init_ramp]
    split_ifs <;> rfl
  · simp [ADSR_Linear.construct, ADSR_Linear.begin_idle, ADSR_Linear.set_attack_length,
      ADSR_Linear.set_decay_length, ADSR_Linear.set_release_length]
  · simp [ADSR_Linear.construct, ADSR_Linear.begin_idle, ADSR_Linear.set_attack_length,
      ADSR_Linear.set_decay_length, ADSR_Linear.set_release_length]
  · simp [ADSR_Linear.construct, ADSR_Linear.begin_idle, ADSR_Linear.set_attack_length,
      ADSR_Linear.set_decay_length, ADSR_Linear.set_release_length]
  · simp [ADSR_LogExp.attack_length, ADSR_LogExp.construct, ADSR_LogExp.begin_idle,
      ADSR_LogExp.set_attack, ADSR_LogExp.set_decay, ADSR_LogExp.set_release]
  · simp [ADSR_LogExp.decay_length, ADSR_LogExp.construct, ADSR_LogExp.begin_idle,
      ADSR_LogExp.set_attack, ADSR_LogExp.set_decay, ADSR_LogExp.set_release]
  · simp [ADSR_LogExp.release_length, ADSR_LogExp.construct, ADSR_LogExp.begin_idle,
      ADSR_LogExp.set_attack, ADSR_LogExp.set_decay, ADSR_LogExp.set_release]
  · simp only [ADSR_Linear.set_attack_length]; split_ifs <;> rfl
  · simp only [ADSR_Linear.set_decay_length]; split_ifs <;> rfl
  · simp only [ADSR_Linear.set_release_length]; split_ifs <;> rfl
  · simp only [ADSR_LogExp.set_attack, ADSR_LogExp.init_ramp]; split_ifs <;> rfl
  · simp only [ADSR_LogExp.set_decay, ADSR_LogExp.init_ramp]; split_ifs <;> rfl
  · simp only [ADSR_LogExp.set_release, ADSR_LogExp.init_ramp]; split_ifs <;> rfl

/-! ## Period derivation -/

section period

variable {F : Type} [LinearOrderedField F] [FloorRing F]

/-- Converting an integral `float` to `int` gives that integer. -/
lemma float_to_int_intCast (z : Int) : float_to_int ((z : Int) : F) = z := by
  unfold float_to_int
  split_ifs <;> simp

lemma float_to_int_roundf (q : F) : float_to_int (roundf q) = roundAway q := by
  unfold roundf roundAway
  split_ifs <;> exact float_to_int_intCast _

/-- The three lengths stored by `ADSR_Linear::set_period`. -/
lemma ADSR_Linear.set_period_lengths (s : ADSR_Linear F) (p : F) :
    (ADSR_Linear.set_period s p).atk_len = ⌊p / 3⌋ ∧
    (ADSR_Linear.set_period s p).dec_len = roundAway (p / 3) ∧
    (ADSR_Linear.set_period s p).rel_len = ⌈p / 3⌉ := by
  simp only [ADSR_Linear.set_period, floorf, ceilf, float_to_int_intCast, float_to_int_roundf,
    ADSR_Linear.set_attack_length, ADSR_Linear.set_decay_length,
    ADSR_Linear.set_release_length]
  refine ⟨?_, ?_, ?_⟩ <;> split_ifs <;> rfl

/-- The three lengths stored by `ADSR_LogExp::set_period`. -/
lemma ADSR_LogExp.exp_set_period_lengths (powf : F → F → F) (t : ADSR_LogExp F) (p : F) :
    (ADSR_LogExp.set_period powf t p).atk_len = ⌊p / 3⌋ ∧
    (ADSR_LogExp.set_period powf t p).dec_len = roundAway (p / 3) ∧
    (ADSR_LogExp.set_period powf t p).rel_len = ⌈p / 3⌉ := by
  simp only [ADSR_LogExp.set_period, floorf, ceilf, float_to_int_intCast, float_to_int_roundf,
    ADSR_LogExp.set_attack, ADSR_LogExp.set_decay, ADSR_LogExp.set_release,
    ADSR_LogExp.init_ramp]
  refine ⟨?_, ?_, ?_⟩ <;> split_ifs <;> rfl

/-- The value `roundAway q` is an integer nearest to `q`. -/
lemma roundAway_nearest (q : F) : |((roundAway q : Int) : F) - q| ≤ 1 / 2 := by
  unfold roundAway
  rw [abs_le]
  split_ifs
  · have h1 := Int.floor_le (q + 1 / 2)
    have h2 := Int.lt_floor_add_one (q + 1 / 2)
    constructor <;> linarith
  · have h1 := Int.le_ceil (q - 1 / 2)
    have h2 := Int.ceil_lt_add_one (q - 1 / 2)
    constructor <;> linarith

/-- C8. In whatever state it is called, `set_period(p)` stores attack length
`floor(p/3)`, decay length `round(p/3)` (half away from zero) and release
length `ceil(p/3)`, in both variants; `set_period(30)` gives 10, 10, 10 and
`set_period(10)` gives 3, 3, 4. -/
theorem C8_period_split (powf : F → F → F) (s : ADSR_Linear F) (t : ADSR_LogExp F) (p : F) :
    ((ADSR_Linear.set_period s p).atk_len = ⌊p / 3⌋ ∧
      (ADSR_Linear.set_period s p).dec_len =
        (if 0 ≤ p / 3 then ⌊p / 3 + 1 / 2⌋ else ⌈p / 3 - 1 / 2⌉) ∧
      (ADSR_Linear.set_period s p).rel_len = ⌈p / 3⌉) ∧
    (ADSR_LogExp.attack_length (ADSR_LogExp.set_period powf t p) = ⌊p / 3⌋ ∧
      ADSR_LogExp.decay_length (ADSR_LogExp.set_period powf t p) =
        (if 0 ≤ p / 3 then ⌊p / 3 + 1 / 2⌋ else ⌈p / 3 - 1 / 2⌉) ∧
      ADSR_LogExp.release_length (ADSR_LogExp.set_period powf t p) = ⌈p / 3⌉) ∧
    ((ADSR_Linear.set_period s 30).atk_len = 10 ∧
      (ADSR_Linear.set_period s 30).dec_len = 10 ∧
      (ADSR_Linear.set_period s 30).rel_len = 10) ∧
    ((ADSR_Linear.set_period s 10).atk_len = 3 ∧
      (ADSR_Linear.set_period s 10).dec_len = 3 ∧
      (ADSR_Linear.set_period s 10).rel_len = 4) ∧
    (ADSR_LogExp.attack_length (ADSR_LogExp.set_period powf t 30) = 10 ∧
      ADSR_LogExp.decay_length (ADSR_LogExp.set_period powf t 30) = 10 ∧
      ADSR_LogExp.release_length (ADSR_LogExp.set_period powf t 30) = 10) ∧
    (ADSR_LogExp.attack_length (ADSR_LogExp.set_period powf t 10) = 3 ∧
      ADSR_LogExp.decay_length (ADSR_LogExp.set_period powf t 10) = 3 ∧
      ADSR_LogExp.release_length (ADSR_LogExp.set_period powf t 10) = 4) := by
  have e30 : ⌊(30 : F) / 3⌋ = 10 ∧ roundAway ((30 : F) / 3) = 10 ∧ ⌈(30 : F) / 3⌉ = 10 := by
    refine ⟨?_, ?_, ?_⟩
    · rw [Int.floor_eq_iff]; norm_num
    · have h : (0 : F) ≤ 30 / 3 := by norm_num
      rw [roundAway, if_pos h, Int.floor_eq_iff]; norm_num
    · rw [Int.ceil_eq_iff]; norm_num
  have e10 : ⌊(10 : F) / 3⌋ = 3 ∧ roundAway ((10 : F) / 3) = 3 ∧ ⌈(10 : F) / 3⌉ = 4 := by
    refine ⟨?_, ?_, ?_⟩
    · rw [Int.floor_eq_iff]; norm_num
    · have h : (0 : F) ≤ 10 / 3 := by norm_num
      rw [roundAway, if_pos h, Int.floor_eq_iff]; norm_num
    · rw [Int.ceil_eq_iff]; norm_num
  have hl := fun q => ADSR_Linear.set_period_lengths s q
  have he := fun q => ADSR_LogExp.exp_set_period_lengths powf t q
  simp only [ADSR_LogExp.attack_length, ADSR_LogExp.decay_length, ADSR_LogExp.release_length]
  refine ⟨hl p, he p, ?_, ?_, ?_, ?_⟩
  · rw [(hl 30).1, (hl 30).2.1, (hl 30).2.2]; exact e30
  · rw [(hl 10).1, (hl 10).2.1, (hl 10).2.2]; exact e10
  · rw [(he 30).1, (he 30).2.1, (he 30).2.2]; exact e30
  · rw [(he 10).1, (he 10).2.1, (he 10).2.2]; exact e10

/-- For `q ≥ 0` the floor, the rounded value and the ceiling of `q` sum to
within one of `3 * q`. -/
lemma period_sum_bounds (q : F) (hq : 0 ≤ q) :
    3 * q - 1 < ((⌊q⌋ + roundAway q + ⌈q⌉ : Int) : F) ∧
    ((⌊q⌋ + roundAway q + ⌈q⌉ : Int) : F) ≤ 3 * q + 1 := by
  rw [roundAway, if_pos hq]
  have a1 := Int.floor_le q
  have a2 := Int.lt_floor_add_one q
  have b1 := Int.floor_le (q + 1 / 2)
  have b2 := Int.lt_floor_add_one (q + 1 / 2)
  have c1 := Int.le_ceil q
  have c2 := Int.ceil_lt_add_one q
  have hb : ⌊q + 1 / 2⌋ = ⌊q⌋ ∨ ⌊q + 1 / 2⌋ = ⌊q⌋ + 1 := by
    have h1 : ⌊q⌋ ≤ ⌊q + 1 / 2⌋ := Int.floor_le_floor (by linarith)
    have h2 : ⌊q + 1 / 2⌋ ≤ ⌊q + 1⌋ := Int.floor_le_floor (by linarith)
    rw [Int.floor_add_one] at h2
    omega
  have hc : ⌈q⌉ ≤ ⌊q⌋ + 1 := by
    have : ((⌈q⌉ : Int) : F) < ((⌊q⌋ + 2 : Int) : F) := by push_cast; linarith
    have := Int.cast_lt.mp this
    omega
  have hc' : ((⌈q⌉ : Int) : F) ≤ (⌊q⌋ : F) + 1 := by exact_mod_cast hc
  push_cast
  rcases hb with hb | hb
  · rw [hb] at b1 b2 ⊢
    constructor <;> linarith
  · rw [hb] at b1 b2 ⊢
    push_cast at b1 b2 ⊢
    constructor <;> linarith

/-- For an integer `n ≥ 0` the floor, the rounded value and the ceiling of
`n / 3` sum to exactly `n`. -/
lemma period_sum_nat (n : Nat) :
    ⌊(n : F) / 3⌋ + roundAway ((n : F) / 3) + ⌈(n : F) / 3⌉ = (n : Int) := by
  have hq : (0 : F) ≤ (n : F) / 3 := by positivity
  rw [roundAway, if_pos hq]
  have a1 := Int.floor_le ((n : F) / 3)
  have a2 := Int.lt_floor_add_one ((n : F) / 3)
  have b1 := Int.floor_le ((n : F) / 3 + 1 / 2)
  have b2 := Int.lt_floor_add_one ((n : F) / 3 + 1 / 2)
  have c1 := Int.le_ceil ((n : F) / 3)
  have c2 := Int.ceil_lt_add_one ((n : F) / 3)
  generalize ⌊(n : F) / 3⌋ = a at *
  generalize ⌊(n : F) / 3 + 1 / 2⌋ = b at *
  generalize ⌈(n : F) / 3⌉ = c at *
  have A1 : 3 * a ≤ (n : Int) := by
    have : ((3 * a : Int) : F) ≤ ((n : Int) : F) := by push_cast; linarith
    exact Int.cast_le.mp this
  have A2 : (n : Int) < 3 * a + 3 := by
    have : ((n : Int) : F) < ((3 * a + 3 : Int) : F) := by push_cast; linarith
    exact Int.cast_lt.mp this
  have B1 : 6 * b ≤ 2 * (n : Int) + 3 := by
    have : ((6 * b : Int) : F) ≤ ((2 * (n : Int) + 3 : Int) : F) := by push_cast; linarith
    exact Int.cast_le.mp this
  have B2 : 2 * (n : Int) + 3 < 6 * b + 6 := by
    have : ((2 * (n : Int) + 3 : Int) : F) < ((6 * b + 6 : Int) : F) := by
      push_cast; linarith
    exact Int.cast_lt.mp this
  have C1 : (n : Int) ≤ 3 * c := by
    have : ((n : Int) : F) ≤ ((3 * c : Int) : F) := by push_cast; linarith
    exact Int.cast_le.mp this
  have C2 : 3 * c < (n : Int) + 3 := by
    have : ((3 * c : Int) : F) < (((n : Int) + 3 : Int) : F) := by push_cast; linarith
    exact Int.cast_lt.mp this
  omega

/-- The claim C9 fails: `set_period(1.25)` stores the lengths 0, 0 and 1,
whose sum 1 is below the period. -/
theorem C9_sum_below_period :
    (ADSR_Linear.set_period rawLinear (5 / 4)).atk_len = 0 ∧
    (ADSR_Linear.set_period rawLinear (5 / 4)).dec_len = 0 ∧
    (ADSR_Linear.set_period rawLinear (5 / 4)).rel_len = 1 ∧
    ¬ ((5 / 4 : ℚ) ≤
      (((ADSR_Linear.set_period rawLinear (5 / 4)).atk_len +
        (ADSR_Linear.set_period rawLinear (5 / 4)).dec_len +
        (ADSR_Linear.set_period rawLinear (5 / 4)).rel_len : Int) : ℚ)) := by
  have hl := ADSR_Linear.set_period_lengths rawLinear (5 / 4 : ℚ)
  have e1 : ⌊(5 / 4 : ℚ) / 3⌋ = 0 := by rw [Int.floor_eq_iff]; norm_num
  have e2 : roundAway ((5 / 4 : ℚ) / 3) = 0 := by
    have h : (0 : ℚ) ≤ 5 / 4 / 3 := by norm_num
    rw [roundAway, if_pos h, Int.floor_eq_iff]; norm_num
  have e3 : ⌈(5 / 4 : ℚ) / 3⌉ = 1 := by rw [Int.ceil_eq_iff]; norm_num
  rw [hl.1, hl.2.1, hl.2.2, e1, e2, e3]
  norm_num

/-- C9, amended. For every non-negative period `p` the three lengths stored by
`set_period(p)` (both variants) sum to within one of `p`:
`p - 1 < floor(p/3) + round(p/3) + ceil(p/3) ≤ p + 1`; and when `p` is a
non-negative integer the sum is exactly `p`. -/
theorem C9_period_sum (powf : F → F → F) (s : ADSR_Linear F) (t : ADSR_LogExp F) (p : F)
    (hp : 0 ≤ p) :
    (p - 1 < (((ADSR_Linear.set_period s p).atk_len + (ADSR_Linear.set_period s p).dec_len +
        (ADSR_Linear.set_period s p).rel_len : Int) : F) ∧
      (((ADSR_Linear.set_period s p).atk_len + (ADSR_Linear.set_period s p).dec_len +
        (ADSR_Linear.set_period s p).rel_len : Int) : F) ≤ p + 1) ∧
    (p - 1 < (((ADSR_LogExp.set_period powf t p).atk_len +
        (ADSR_LogExp.set_period powf t p).dec_len +
        (ADSR_LogExp.set_period powf t p).rel_len : Int) : F) ∧
      (((ADSR_LogExp.set_period powf t p).atk_len +
        (ADSR_LogExp.set_period powf t p).dec_len +
        (ADSR_LogExp.set_period powf t p).rel_len : Int) : F) ≤ p + 1) ∧
    (∀ n : Nat, p = (n : F) →
      (ADSR_Linear.set_period s p).atk_len + (ADSR_Linear.set_period s p).dec_len +
        (ADSR_Linear.set_period s p).rel_len = (n : Int) ∧
      (ADSR_LogExp.set_period powf t p).atk_len + (ADSR_LogExp.set_period powf t p).dec_len +
        (ADSR_LogExp.set_period powf t p).rel_len = (n : Int)) := by
  have hl := ADSR_Linear.set_period_lengths s p
  have he := ADSR_LogExp.exp_set_period_lengths powf t p
  have hq : (0 : F) ≤ p / 3 := by positivity
  have hb := period_sum_bounds (p / 3) hq
  have h3 : 3 * (p / 3) = p := by ring
  rw [h3] at hb
  rw [hl.1, hl.2.1, hl.2.2, he.1, he.2.1, he.2.2]
  refine ⟨hb, hb, fun n hn => ?_⟩
  subst hn
  exact ⟨period_sum_nat n, period_sum_nat n⟩

/-- Instance of C9: the period 10 on the linear and the exponential
generator. -/
theorem C9_period_sum_witness :
    ((10 : ℚ) - 1 < (((ADSR_Linear.set_period heldLinear 10).atk_len +
        (ADSR_Linear.set_period heldLinear 10).dec_len +
        (ADSR_Linear.set_period heldLinear 10).rel_len : Int) : ℚ) ∧
      (((ADSR_Linear.set_period heldLinear 10).atk_len +
        (ADSR_Linear.set_period heldLinear 10).dec_len +
        (ADSR_Linear.set_period heldLinear 10).rel_len : Int) : ℚ) ≤ 10 + 1) ∧
    ((10 : ℚ) - 1 < (((ADSR_LogExp.set_period powfQ decayingLogExp 10).atk_len +
        (ADSR_LogExp.set_period powfQ decayingLogExp 10).dec_len +
        (ADSR_LogExp.set_period powfQ decayingLogExp 10).rel_len : Int) : ℚ) ∧
      (((ADSR_LogExp.set_period powfQ decayingLogExp 10).atk_len +
        (ADSR_LogExp.set_period powfQ decayingLogExp 10).dec_len +
        (ADSR_LogExp.set_period powfQ decayingLogExp 10).rel_len : Int) : ℚ) ≤ 10 + 1) :=
  ⟨(C9_period_sum powfQ heldLinear decayingLogExp 10 (by norm_num)).1,
   (C9_period_sum powfQ heldLinear decayingLogExp 10 (by norm_num)).2.1⟩

end period

end ADSR

/-! ## The exponential ramp -/

namespace ADSR

open State

namespace ADSR_LogExp

variable {F : Type} [LinearOrderedField F] [FloorRing F]

/-- The first `k` renders of a segment that has more than `k` samples left. -/
lemma exp_renders_inside (s : ADSR_LogExp F) (hst : active s) (k : Nat)
    (h : s.phase + k < s.length) :
    renders s k =
      { s with
        v_exp := s.v_exp * s.coeff ^ k
        v_c := if k = 0 then s.v_c
          else s.v_T * (1 - s.v_exp * s.coeff ^ k) + s.v_0 * (s.v_exp * s.coeff ^ k)
        phase := s.phase + k } := by
  induction k with
  | zero => simp [renders]
  | succ k ih =>
    have hk : s.phase + k < s.length := by push_cast at h; omega
    have h1 : s.phase + (k : Int) + 1 < s.length := by push_cast at h; omega
    rw [renders, ih hk,
      exp_render_inside { s with
        v_exp := s.v_exp * s.coeff ^ k
        v_c := if k = 0 then s.v_c
          else s.v_T * (1 - s.v_exp * s.coeff ^ k) + s.v_0 * (s.v_exp * s.coeff ^ k)
        phase := s.phase + k } hst h1]
    simp only [Nat.cast_add, Nat.cast_one, mk.injEq, true_and, and_true, Nat.succ_ne_zero,
      if_false, pow_succ]
    (repeat' apply And.intro) <;> ring

/-- The renders up to and including the one that completes a segment. -/
lemma exp_renders_last (s : ADSR_LogExp F) (hst : active s) (k : Nat)
    (h : s.phase + k < s.length) (h' : s.length ≤ s.phase + k + 1) :
    renders s (k + 1) =
      next_state { s with
        v_exp := s.v_exp * s.coeff ^ (k + 1)
        v_c := s.v_T * (1 - s.v_exp * s.coeff ^ (k + 1)) +
          s.v_0 * (s.v_exp * s.coeff ^ (k + 1))
        phase := s.phase + k + 1 } := by
  rw [renders, exp_renders_inside s hst k h,
    exp_render_last { s with
        v_exp := s.v_exp * s.coeff ^ k
        v_c := if k = 0 then s.v_c
          else s.v_T * (1 - s.v_exp * s.coeff ^ k) + s.v_0 * (s.v_exp * s.coeff ^ k)
        phase := s.phase + k } hst h']
  congr 1
  simp only [mk.injEq, true_and, and_true, pow_succ]
  (repeat' apply And.intro) <;> ring

/-- The `n`-th sample (`n ≥ 1`) is the output after `n` renders. -/
lemma exp_sample_eq (s : ADSR_LogExp F) (n : Nat) (hn : 1 ≤ n) :
    sample s n = (renders s n).v_c := by
  obtain ⟨m, rfl⟩ : ∃ m, n = m + 1 := ⟨n - 1, by omega⟩
  simp [sample, renders, exp_render_snd]

/-- No state transition touches a configured length, shape or coefficient. -/
lemma next_state_config (s : ADSR_LogExp F) :
    (next_state s).atk_len = s.atk_len ∧ (next_state s).atk_eps = s.atk_eps ∧
    (next_state s).atk_coeff = s.atk_coeff ∧
    (next_state s).dec_len = s.dec_len ∧ (next_state s).dec_eps = s.dec_eps ∧
    (next_state s).dec_coeff = s.dec_coeff ∧
    (next_state s).rel_len = s.rel_len ∧ (next_state s).rel_eps = s.rel_eps ∧
    (next_state s).rel_coeff = s.rel_coeff := by
  simp only [next_state]
  split
  · simp [begin_decay, init_ramp]
  · split_ifs <;> simp [begin_sustain, begin_release, init_ramp]
  · split_ifs <;> simp [begin_attack, begin_idle, init_ramp]
  · simp

/-- A `render()` call touches no configured length, shape or coefficient. -/
lemma render_config (s : ADSR_LogExp F) :
    (render s).1.atk_len = s.atk_len ∧ (render s).1.atk_eps = s.atk_eps ∧
    (render s).1.atk_coeff = s.atk_coeff ∧
    (render s).1.dec_len = s.dec_len ∧ (render s).1.dec_eps = s.dec_eps ∧
    (render s).1.dec_coeff = s.dec_coeff ∧
    (render s).1.rel_len = s.rel_len ∧ (render s).1.rel_eps = s.rel_eps ∧
    (render s).1.rel_coeff = s.rel_coeff := by
  simp only [render]
  split_ifs
  · simp
  · simp only [next_state_config]
    simp
  · simp

/-- Every public call keeps the stored coefficients configured. -/
lemma step_coeffs (powf : F → F → F) (s : ADSR_LogExp F) (o : Op F)
    (h : CoeffsConfigured powf s) : CoeffsConfigured powf (step powf s o) := by
  obtain ⟨ha, hd, hr⟩ := h
  cases o with
  | gate b =>
    cases b <;>
      simp [step, gate, begin_attack, begin_release, init_ramp, CoeffsConfigured, ha, hd, hr]
  | render =>
    simp only [step, CoeffsConfigured, render_config]
    exact ⟨ha, hd, hr⟩
  | set_attack e n =>
    simp only [step, set_attack, init_ramp, CoeffsConfigured]
    split_ifs <;> simp [hd, hr]
  | set_decay e n =>
    simp only [step, set_decay, init_ramp, CoeffsConfigured]
    split_ifs <;> simp [ha, hr]
  | set_sustain l =>
    simp only [step, set_sustain, init_ramp, CoeffsConfigured]
    split_ifs <;> simp [ha, hd, hr]
  | set_release e n =>
    simp only [step, set_release, init_ramp, CoeffsConfigured]
    split_ifs <;> simp [ha, hd]
  | set_period p =>
    simp only [step, set_period, set_attack, set_decay, set_release, init_ramp,
      CoeffsConfigured]
    split_ifs <;> simp
  | set_shape e =>
    simp only [step, set_shape, set_attack, set_decay, set_release, init_ramp,
      CoeffsConfigured]
    split_ifs <;> simp
  | write_sustain b => exact ⟨ha, hd, hr⟩
  | write_retrigger b => exact ⟨ha, hd, hr⟩

lemma run_coeffs (powf : F → F → F) (ops : List (Op F)) (s : ADSR_LogExp F)
    (h : CoeffsConfigured powf s) : CoeffsConfigured powf (run powf s ops) := by
  induction ops generalizing s with
  | nil => exact h
  | cons o ops ih => exact ih (step powf s o) (step_coeffs powf s o h)

lemma construct_coeffs (powf : F → F → F) (raw : ADSR_LogExp F) (a d : Int) (l : F)
    (r : Int) (e : F) : CoeffsConfigured powf (construct powf raw a d l r e) := by
  simp [construct, begin_idle, set_attack, set_decay, set_release, CoeffsConfigured]

/-- In every reachable state the stored coefficients are configured. -/
lemma reachable_coeffs (powf : F → F → F) (s : ADSR_LogExp F) (h : Reachable powf s) :
    CoeffsConfigured powf s := by
  obtain ⟨raw, a, d, l, r, e, ops, rfl⟩ := h
  exact run_coeffs powf ops _ (construct_coeffs powf raw a d l r e)

/-- Over the reals, the coefficient for `n ≥ 1` samples, multiplied `n` times,
is `eps / (1 + eps)`. -/
lemma compute_coeff_pow (eps : ℝ) (heps : 0 < eps) (L : Int) (n : Nat) (hn : (n : Int) = L)
    (hL : 1 ≤ L) : compute_coeff Real.rpow eps L ^ n = eps / (1 + eps) := by
  have hb : 0 ≤ eps / (1 + eps) := by positivity
  have hcast : (L : ℝ) = (n : ℝ) := by rw [← hn]; push_cast; rfl
  have hn0 : (n : ℝ) ≠ 0 := by
    have : 0 < n := by omega
    positivity
  simp only [compute_coeff, Real.rpow_eq_pow]
  rw [← Real.rpow_natCast, ← Real.rpow_mul hb, hcast, one_div, inv_mul_cancel₀ hn0,
    Real.rpow_one]

/-- C3. Over the reals (`powf` is the real power): for every reachable
generator state whose attack shape `atk_eps` is positive and whose attack
length `atk_len` is at least 1, whatever the current output `v_c` is, after
`gate(true)` the ramp aims at the overshot asymptote
`v_T = 1 + (1 - v_c) * atk_eps`, the generator stays in Attack for the first
`atk_len - 1` renders, the `atk_len`-th `render()` returns exactly 1 and leaves
the generator in Decay, because `atk_coeff ^ atk_len = atk_eps / (1 + atk_eps)`.
For `eps = 1` and length 1 the coefficient is 1/2. -/
theorem C3_attack_reaches_target (s : ADSR_LogExp ℝ) (hs : Reachable Real.rpow s)
    (heps : 0 < s.atk_eps) (hL : 1 ≤ s.atk_len) :
    (gate s true).v_T = 1 + (1 - s.v_c) * s.atk_eps ∧
    (∀ k : Nat, (k : Int) < s.atk_len →
      (renders (gate s true) k).state = kADSRStateAttack) ∧
    sample (gate s true) s.atk_len.toNat = 1 ∧
    (renders (gate s true) s.atk_len.toNat).state = kADSRStateDecay ∧
    s.atk_coeff ^ s.atk_len.toNat = s.atk_eps / (1 + s.atk_eps) ∧
    compute_coeff Real.rpow 1 1 = 1 / 2 := by
  have hc := (reachable_coeffs Real.rpow s hs).1
  have hpow : s.atk_coeff ^ s.atk_len.toNat = s.atk_eps / (1 + s.atk_eps) := by
    rw [hc]
    exact compute_coeff_pow s.atk_eps heps s.atk_len s.atk_len.toNat (by omega) hL
  have hact : active (gate s true) := by simp [active, gate, begin_attack, init_ramp]
  have h1e : (1 : ℝ) + s.atk_eps ≠ 0 := by positivity
  refine ⟨by simp [gate, begin_attack, init_ramp], ?_, ?_, ?_, hpow, ?_⟩
  · intro k hk
    rw [exp_renders_inside (gate s true) hact k (by simpa [gate, begin_attack, init_ramp] using hk)]
    simp [gate, begin_attack, init_ramp]
  · obtain ⟨m, hm⟩ : ∃ m : Nat, s.atk_len.toNat = m + 1 := ⟨s.atk_len.toNat - 1, by omega⟩
    rw [exp_sample_eq _ _ (by omega)]
    rw [hm] at hpow ⊢
    rw [exp_renders_last (gate s true) hact m
      (by simp [gate, begin_attack, init_ramp]; omega)
      (by simp [gate, begin_attack, init_ramp]; omega)]
    simp only [gate, begin_attack, init_ramp, next_state, begin_decay, if_true, one_mul, hpow]
    field_simp
    ring
  · obtain ⟨m, hm⟩ : ∃ m : Nat, s.atk_len.toNat = m + 1 := ⟨s.atk_len.toNat - 1, by omega⟩
    rw [hm]
    rw [exp_renders_last (gate s true) hact m
      (by simp [gate, begin_attack, init_ramp]; omega)
      (by simp [gate, begin_attack, init_ramp]; omega)]
    simp [gate, begin_attack, init_ramp, next_state, begin_decay]
  · simp only [compute_coeff, Real.rpow_eq_pow]
    norm_num

/-- Instance of C3: a generator constructed with attack length 1 and shape 1;
the first sample after `gate(true)` is 1. -/
theorem C3_attack_reaches_target_witness :
    sample (gate (construct Real.rpow rawLogExpReal 1 1 (1 / 2) 1 1) true)
      (construct Real.rpow rawLogExpReal 1 1 (1 / 2) 1 1).atk_len.toNat = 1 ∧
    (renders (gate (construct Real.rpow rawLogExpReal 1 1 (1 / 2) 1 1) true)
      (construct Real.rpow rawLogExpReal 1 1 (1 / 2) 1 1).atk_len.toNat).state =
      kADSRStateDecay :=
  have h := C3_attack_reaches_target (construct Real.rpow rawLogExpReal 1 1 (1 / 2) 1 1)
    ⟨rawLogExpReal, 1, 1, 1 / 2, 1, 1, [], rfl⟩
    (by simp [construct, begin_idle, set_attack, set_decay, set_release])
    (by simp [construct, begin_idle, set_attack, set_decay, set_release])
  ⟨h.2.2.1, h.2.2.2.1⟩

end ADSR_LogExp

end ADSR

/-! ## Live reparameterization of the exponential generator -/

namespace ADSR

open State

namespace ADSR_LogExp

/-- An Attack entered by `gate(true)` with a configured coefficient: Attack
for the first `atk_len - 1` renders, then exactly 1 and Decay. -/
lemma attack_segment (s : ADSR_LogExp ℝ)
    (hc : s.atk_coeff = compute_coeff Real.rpow s.atk_eps s.atk_len)
    (heps : 0 < s.atk_eps) (hL : 1 ≤ s.atk_len) :
    (∀ k : Nat, (k : Int) < s.atk_len →
      (renders (gate s true) k).state = kADSRStateAttack) ∧
    sample (gate s true) s.atk_len.toNat = 1 ∧
    (renders (gate s true) s.atk_len.toNat).state = kADSRStateDecay := by
  have hpow : s.atk_coeff ^ s.atk_len.toNat = s.atk_eps / (1 + s.atk_eps) := by
    rw [hc]
    exact compute_coeff_pow s.atk_eps heps s.atk_len s.atk_len.toNat (by omega) hL
  have hact : active (gate s true) := by simp [active, gate, begin_attack, init_ramp]
  have h1e : (1 : ℝ) + s.atk_eps ≠ 0 := by positivity
  obtain ⟨m, hm⟩ : ∃ m : Nat, s.atk_len.toNat = m + 1 := ⟨s.atk_len.toNat - 1, by omega⟩
  have hlast := exp_renders_last (gate s true) hact m
    (by simp [gate, begin_attack, init_ramp]; omega)
    (by simp [gate, begin_attack, init_ramp]; omega)
  refine ⟨?_, ?_, ?_⟩
  · intro k hk
    rw [exp_renders_inside (gate s true) hact k
      (by simpa [gate, begin_attack, init_ramp] using hk)]
    simp [gate, begin_attack, init_ramp]
  · rw [exp_sample_eq _ _ (by omega)]
    rw [hm] at hpow ⊢
    rw [hlast]
    simp only [gate, begin_attack, init_ramp, next_state, begin_decay, if_true, one_mul, hpow]
    field_simp
    ring
  · rw [hm, hlast]
    simp [gate, begin_attack, init_ramp, next_state, begin_decay]

/-- A call that does not reconfigure the attack segment leaves its length,
shape and coefficient as they are. -/
lemma step_keeps_attack (powf : ℝ → ℝ → ℝ) (s : ADSR_LogExp ℝ) (o : Op ℝ)
    (ho : o.keepsAttack = true) :
    (step powf s o).atk_len = s.atk_len ∧ (step powf s o).atk_eps = s.atk_eps ∧
    (step powf s o).atk_coeff = s.atk_coeff := by
  cases o with
  | gate b => cases b <;> simp [step, gate, begin_attack, begin_release, init_ramp]
  | render => simp [step, render_config]
  | set_attack e n => simp [Op.keepsAttack] at ho
  | set_decay e n => simp only [step, set_decay, init_ramp]; split_ifs <;> simp
  | set_sustain l => simp only [step, set_sustain, init_ramp]; split_ifs <;> simp
  | set_release e n => simp only [step, set_release, init_ramp]; split_ifs <;> simp
  | set_period p => simp [Op.keepsAttack] at ho
  | set_shape e => simp [Op.keepsAttack] at ho
  | write_sustain b => simp [step]
  | write_retrigger b => simp [step]

lemma run_keeps_attack (powf : ℝ → ℝ → ℝ) (ops : List (Op ℝ)) (s : ADSR_LogExp ℝ)
    (ho : ∀ o ∈ ops, o.keepsAttack = true) :
    (run powf s ops).atk_len = s.atk_len ∧ (run powf s ops).atk_eps = s.atk_eps ∧
    (run powf s ops).atk_coeff = s.atk_coeff := by
  induction ops generalizing s with
  | nil => simp [run]
  | cons o ops ih =>
    have h1 := step_keeps_attack powf s o (ho o (List.mem_cons_self _ _))
    have h2 := ih (step powf s o) (fun o' ho' => ho o' (List.mem_cons_of_mem _ ho'))
    simp only [run, List.foldl_cons] at h2 ⊢
    rw [h2.1, h2.2.1, h2.2.2]
    exact h1

/-- C11. Over the reals: after `set_attack(eps, n)` (`eps > 0`, `n ≥ 1`) called
while the generator is in Attack, at any phase, `attack_length() = n` and
`attack_shape() = eps`, the decay and release lengths and shapes are
unchanged, the stored attack coefficient is the one for the full `n` samples
while the live coefficient is the one for the remaining `max(n - phase, 1)`;
and after any further calls that do not reconfigure the attack, the Attack
entered by the next `gate(true)` lasts exactly `n` render calls, the `n`-th of
which returns 1 and leaves the generator in Decay. -/
theorem C11_live_change_keeps_config (s : ADSR_LogExp ℝ) (eps : ℝ) (n : Int)
    (heps : 0 < eps) (hn : 1 ≤ n) (hs : s.state = kADSRStateAttack)
    (ops : List (Op ℝ)) (hops : ∀ o ∈ ops, o.keepsAttack = true) :
    (attack_length (set_attack Real.rpow s eps n) = n ∧
      attack_shape (set_attack Real.rpow s eps n) = eps) ∧
    (decay_length (set_attack Real.rpow s eps n) = decay_length s ∧
      release_length (set_attack Real.rpow s eps n) = release_length s ∧
      decay_shape (set_attack Real.rpow s eps n) = decay_shape s ∧
      release_shape (set_attack Real.rpow s eps n) = release_shape s) ∧
    ((set_attack Real.rpow s eps n).atk_coeff = compute_coeff Real.rpow eps n ∧
      (set_attack Real.rpow s eps n).coeff =
        compute_coeff Real.rpow eps (remaining n s.phase)) ∧
    ((∀ k : Nat, (k : Int) < n →
        (renders (gate (run Real.rpow (set_attack Real.rpow s eps n) ops) true) k).state =
          kADSRStateAttack) ∧
      sample (gate (run Real.rpow (set_attack Real.rpow s eps n) ops) true) n.toNat = 1 ∧
      (renders (gate (run Real.rpow (set_attack Real.rpow s eps n) ops) true) n.toNat).state =
        kADSRStateDecay) := by
  have hset : (set_attack Real.rpow s eps n).atk_len = n ∧
      (set_attack Real.rpow s eps n).atk_eps = eps ∧
      (set_attack Real.rpow s eps n).atk_coeff = compute_coeff Real.rpow eps n := by
    simp [set_attack, init_ramp, hs]
  have hrun := run_keeps_attack Real.rpow ops (set_attack Real.rpow s eps n) hops
  rw [hset.1, hset.2.1, hset.2.2] at hrun
  have hseg := attack_segment (run Real.rpow (set_attack Real.rpow s eps n) ops)
    (by rw [hrun.1, hrun.2.1, hrun.2.2]) (by rw [hrun.2.1]; exact heps)
    (by rw [hrun.1]; exact hn)
  rw [hrun.1] at hseg
  refine ⟨⟨hset.1, hset.2.1⟩, ?_, ⟨hset.2.2, ?_⟩, hseg⟩
  · simp [decay_length, release_length, decay_shape, release_shape, set_attack, init_ramp, hs]
  · simp [set_attack, init_ramp, hs]

/-- Instance of C11: `set_attack(1, 3)` in Attack at phase 2, then a render and
a forced release before the next `gate(true)`. -/
theorem C11_live_change_keeps_config_witness :
    sample (gate (run Real.rpow (set_attack Real.rpow attackingLogExpReal 1 3)
      [Op.render, Op.gate false, Op.render]) true) (3 : Int).toNat = 1 ∧
    (renders (gate (run Real.rpow (set_attack Real.rpow attackingLogExpReal 1 3)
      [Op.render, Op.gate false, Op.render]) true) (3 : Int).toNat).state =
      kADSRStateDecay :=
  (C11_live_change_keeps_config attackingLogExpReal 1 3 (by norm_num) (by decide) rfl
    [Op.render, Op.gate false, Op.render] (by simp [Op.keepsAttack])).2.2.2.2

end ADSR_LogExp

end ADSR

/-! ## Live reparameterization of the linear generator -/

namespace ADSR

open State

namespace ADSR_Linear

variable {F : Type} [LinearOrderedField F] [FloorRing F]

lemma set_attack_length_liveLength (s : ADSR_Linear F) (n : Int) (h : LiveLength s) :
    LiveLength (set_attack_length s n) := by
  obtain ⟨ha, hd, hr⟩ := h
  simp only [set_attack_length, LiveLength]
  split_ifs with hs
  · simp [hs]
  · exact ⟨fun h' => absurd h' hs, hd, hr⟩

lemma set_decay_length_liveLength (s : ADSR_Linear F) (n : Int) (h : LiveLength s) :
    LiveLength (set_decay_length s n) := by
  obtain ⟨ha, hd, hr⟩ := h
  simp only [set_decay_length, LiveLength]
  split_ifs with hs
  · simp [hs]
  · exact ⟨ha, fun h' => absurd h' hs, hr⟩

lemma set_release_length_liveLength (s : ADSR_Linear F) (n : Int) (h : LiveLength s) :
    LiveLength (set_release_length s n) := by
  obtain ⟨ha, hd, hr⟩ := h
  simp only [set_release_length, LiveLength]
  split_ifs with hs
  · simp [hs]
  · exact ⟨ha, hd, fun h' => absurd h' hs⟩

lemma next_state_liveLength (s : ADSR_Linear F) (h : LiveLength s) :
    LiveLength (next_state s) := by
  simp only [next_state]
  split
  · simp [begin_decay, LiveLength]
  · split_ifs <;> simp [begin_sustain, begin_release, LiveLength]
  · split_ifs <;> simp [begin_attack, begin_idle, LiveLength]
  · exact h

/-- Every public call keeps the live length equal to the configured length of
the active segment. -/
lemma step_liveLength (s : ADSR_Linear F) (o : Op F) (h : LiveLength s) :
    LiveLength (step s o) := by
  cases o with
  | gate b => cases b <;> simp [step, gate, begin_attack, begin_release, LiveLength]
  | render =>
    simp only [step, render]
    split_ifs
    · exact h
    · exact next_state_liveLength _ h
    · exact h
  | set_attack_length n => exact set_attack_length_liveLength s n h
  | set_decay_length n => exact set_decay_length_liveLength s n h
  | set_sustain_level l =>
    simp only [step, set_sustain_level]
    split_ifs <;> exact h
  | set_release_length n => exact set_release_length_liveLength s n h
  | set_period p =>
    exact set_release_length_liveLength _ _
      (set_decay_length_liveLength _ _ (set_attack_length_liveLength _ _ h))
  | write_sustain b => exact h
  | write_retrigger b => exact h

lemma run_liveLength (ops : List (Op F)) (s : ADSR_Linear F) (h : LiveLength s) :
    LiveLength (run s ops) := by
  induction ops generalizing s with
  | nil => exact h
  | cons o ops ih => exact ih (step s o) (step_liveLength s o h)

lemma reachable_liveLength (s : ADSR_Linear F) (h : Reachable s) : LiveLength s := by
  obtain ⟨raw, a, d, l, r, ops, rfl⟩ := h
  refine run_liveLength ops _ ?_
  have hc := (construct_idle raw a d l r).1
  simp [LiveLength, hc]

/-- From an active state, the state is kept for fewer than
`max(length - phase, 1)` renders, and that many renders end in `next_state` on
the ramp advanced by that many slopes. -/
lemma renders_remaining (t : ADSR_Linear F) (hact : active t) :
    (∀ k : Nat, (k : Int) < remaining t.length t.phase → (renders t k).state = t.state) ∧
    renders t (remaining t.length t.phase).toNat =
      next_state { t with
        x := t.x + (remaining t.length t.phase : F) * t.slope
        phase := t.phase + remaining t.length t.phase } := by
  by_cases h : t.length - t.phase > 1
  · have hr : remaining t.length t.phase = t.length - t.phase := by simp [remaining, h]
    rw [hr]
    obtain ⟨m, hm⟩ : ∃ m : Nat, t.length - t.phase = (m : Int) + 1 :=
      ⟨(t.length - t.phase - 1).toNat, by omega⟩
    refine ⟨fun k hk => ?_, ?_⟩
    · rw [renders_inside t hact k (by omega)]
    · have hn : (t.length - t.phase).toNat = m + 1 := by omega
      rw [hn, renders_last t hact m (by omega) (by omega), hm]
      congr 1
      simp only [mk.injEq, true_and, and_true]
      refine ⟨by omega, ?_⟩
      push_cast; ring
  · have hr : remaining t.length t.phase = 1 := by simp [remaining, h]
    rw [hr]
    refine ⟨fun k hk => ?_, ?_⟩
    · have : k = 0 := by omega
      subst this; rfl
    · have h1 : renders t (1 : Int).toNat = (render t).1 := rfl
      rw [h1, render_last t hact (by omega)]
      congr 1
      simp

/-- C12. If a reachable generator is in Decay at a phase below the decay
length and `set_sustain_level(l)` is called, the generator stays in Decay for
the next `dec_len - phase - 1` renders, leaves Decay on the
`(dec_len - phase)`-th render, and that render returns exactly the new level
`l`, whatever the output and the old level were. -/
theorem C12_decay_lands_on_new_level (s : ADSR_Linear F) (hs : Reachable s)
    (hst : s.state = kADSRStateDecay) (hd : s.phase < s.dec_len) (l : F) :
    (∀ k : Nat, (k : Int) < s.dec_len - s.phase →
      (renders (set_sustain_level s l) k).state = kADSRStateDecay) ∧
    (renders (set_sustain_level s l) (s.dec_len - s.phase).toNat).state ≠ kADSRStateDecay ∧
    sample (set_sustain_level s l) (s.dec_len - s.phase).toNat = l := by
  have hlen : s.length = s.dec_len := (reachable_liveLength s hs).2.1 hst
  have hrem : remaining s.dec_len s.phase = s.dec_len - s.phase := by
    unfold remaining; split_ifs <;> omega
  have hne : ((s.dec_len - s.phase : Int) : F) ≠ 0 := by
    have : (0 : Int) < s.dec_len - s.phase := by omega
    exact_mod_cast this.ne'
  have hact : active (set_sustain_level s l) := by simp [active, set_sustain_level, hst]
  have hR := renders_remaining (set_sustain_level s l) hact
  have hl' : (set_sustain_level s l).length = s.dec_len := by
    simp [set_sustain_level, hst, hlen]
  have hp' : (set_sustain_level s l).phase = s.phase := by simp [set_sustain_level, hst]
  have hs' : (set_sustain_level s l).state = kADSRStateDecay := by
    simp [set_sustain_level, hst]
  rw [hl', hp', hrem, hs'] at hR
  have hx : s.x + ((s.dec_len - s.phase : Int) : F) *
      compute_slope s.x l (s.dec_len - s.phase) = l := by
    have hne' : (s.dec_len : F) - (s.phase : F) ≠ 0 := by
      intro h0; apply hne; push_cast; exact h0
    unfold compute_slope; push_cast; field_simp
  refine ⟨hR.1, ?_, ?_⟩
  · rw [hR.2]
    simp only [next_state, set_sustain_level, hst, if_true]
    split_ifs <;> simp [begin_sustain, begin_release]
  · rw [sample_eq _ _ (by omega), hR.2]
    simp only [next_state, set_sustain_level, hst, if_true, hrem]
    split_ifs
    · simp [begin_sustain]
    · simpa [begin_release] using hx

/-- Instance of C12: a Decay entered through the public calls (lengths 1, 4,
1), one render into it, then the level moved from 1/2 to 1/4. -/
theorem C12_decay_lands_on_new_level_witness :
    sample (set_sustain_level (run (construct rawLinear 1 4 (1 / 2) 1)
        [Op.gate true, Op.render, Op.render]) (1 / 4))
      ((run (construct rawLinear 1 4 (1 / 2) 1) [Op.gate true, Op.render, Op.render]).dec_len -
        (run (construct rawLinear 1 4 (1 / 2) 1)
          [Op.gate true, Op.render, Op.render]).phase).toNat = 1 / 4 :=
  (C12_decay_lands_on_new_level
    (run (construct rawLinear 1 4 (1 / 2) 1) [Op.gate true, Op.render, Op.render])
    ⟨rawLinear, 1, 4, 1 / 2, 1, _, rfl⟩
    (by simp [run, step, construct, begin_idle, set_attack_length, set_decay_length,
      set_release_length, gate, begin_attack, render, next_state, begin_decay])
    (by simp [run, step, construct, begin_idle, set_attack_length, set_decay_length,
      set_release_length, gate, begin_attack, render, next_state, begin_decay])
    (1 / 4)).2.2

end ADSR_Linear

end ADSR

/-! ## The held output in Sustain -/

namespace ADSR

open State

/-- The claim C13 fails: a generator driven into Sustain at level 1/2 through
the public calls keeps the output 1/2 after `set_sustain_level(1/4)` (linear)
or `set_sustain(1/4)` (exponential); the configured level is then 1/4 and the
next `render()` still returns 1/2. -/
theorem C13_held_output_not_moved :
    ((ADSR_Linear.set_sustain_level (ADSR_Linear.run (ADSR_Linear.construct rawLinear 1 1 (1 / 2) 1)
        [.write_sustain true, .gate true, .render, .render]) (1 / 4)).state = kADSRStateSustain ∧
      (ADSR_Linear.set_sustain_level (ADSR_Linear.run (ADSR_Linear.construct rawLinear 1 1 (1 / 2) 1)
        [.write_sustain true, .gate true, .render, .render]) (1 / 4)).x_sus = 1 / 4 ∧
      ADSR_Linear.get_output (ADSR_Linear.set_sustain_level
        (ADSR_Linear.run (ADSR_Linear.construct rawLinear 1 1 (1 / 2) 1)
        [.write_sustain true, .gate true, .render, .render]) (1 / 4)) = 1 / 2 ∧
      (ADSR_Linear.render (ADSR_Linear.set_sustain_level
        (ADSR_Linear.run (ADSR_Linear.construct rawLinear 1 1 (1 / 2) 1)
        [.write_sustain true, .gate true, .render, .render]) (1 / 4))).2 = 1 / 2) ∧
    ((ADSR_LogExp.set_sustain powfQ (ADSR_LogExp.run powfQ
        (ADSR_LogExp.construct powfQ rawLogExp 1 1 (1 / 2) 1 1)
        [.write_sustain true, .gate true, .render, .render]) (1 / 4)).state = kADSRStateSustain ∧
      (ADSR_LogExp.set_sustain powfQ (ADSR_LogExp.run powfQ
        (ADSR_LogExp.construct powfQ rawLogExp 1 1 (1 / 2) 1 1)
        [.write_sustain true, .gate true, .render, .render]) (1 / 4)).v_sus = 1 / 4 ∧
      ADSR_LogExp.get_output (ADSR_LogExp.set_sustain powfQ (ADSR_LogExp.run powfQ
        (ADSR_LogExp.construct powfQ rawLogExp 1 1 (1 / 2) 1 1)
        [.write_sustain true, .gate true, .render, .render]) (1 / 4)) = 1 / 2 ∧
      (ADSR_LogExp.render (ADSR_LogExp.set_sustain powfQ (ADSR_LogExp.run powfQ
        (ADSR_LogExp.construct powfQ rawLogExp 1 1 (1 / 2) 1 1)
        [.write_sustain true, .gate true, .render, .render]) (1 / 4))).2 = 1 / 2) := by
  constructor
  · simp [ADSR_Linear.run, ADSR_Linear.step, ADSR_Linear.construct, ADSR_Linear.begin_idle,
      ADSR_Linear.set_attack_length, ADSR_Linear.set_decay_length,
      ADSR_Linear.set_release_length, ADSR_Linear.gate, ADSR_Linear.begin_attack,
      ADSR_Linear.render, ADSR_Linear.next_state, ADSR_Linear.begin_decay,
      ADSR_Linear.begin_sustain, ADSR_Linear.set_sustain_level, ADSR_Linear.get_output,
      ADSR_Linear.compute_slope, rawLinear]
  · simp [ADSR_LogExp.run, ADSR_LogExp.step, ADSR_LogExp.construct, ADSR_LogExp.begin_idle,
      ADSR_LogExp.set_attack, ADSR_LogExp.set_decay, ADSR_LogExp.set_release,
      ADSR_LogExp.gate, ADSR_LogExp.begin_attack, ADSR_LogExp.init_ramp, ADSR_LogExp.render,
      ADSR_LogExp.next_state, ADSR_LogExp.begin_decay, ADSR_LogExp.begin_sustain,
      ADSR_LogExp.set_sustain, ADSR_LogExp.get_output, ADSR_LogExp.compute_coeff, powfQ,
      rawLogExp]

section held

variable {F : Type} [LinearOrderedField F] [FloorRing F]

/-- A linear length setter leaves the configured sustain level alone. -/
lemma ADSR_Linear.length_setters_keep_level (s : ADSR_Linear F) (n : Int) :
    (ADSR_Linear.set_attack_length s n).x_sus = s.x_sus ∧
    (ADSR_Linear.set_decay_length s n).x_sus = s.x_sus ∧
    (ADSR_Linear.set_release_length s n).x_sus = s.x_sus := by
  simp only [ADSR_Linear.set_attack_length, ADSR_Linear.set_decay_length,
    ADSR_Linear.set_release_length]
  refine ⟨?_, ?_, ?_⟩ <;> split_ifs <;> rfl

/-- In Sustain, a linear call that is neither `gate()` nor the level setter
keeps the state, the output and the configured level. -/
lemma ADSR_Linear.step_sustain (s : ADSR_Linear F) (o : ADSR_Linear.Op F)
    (hs : s.state = kADSRStateSustain) (hg : o.isGate = false)
    (hl : o.isLevelSetter = false) :
    (ADSR_Linear.step s o).state = kADSRStateSustain ∧
    (ADSR_Linear.step s o).x = s.x ∧ (ADSR_Linear.step s o).x_sus = s.x_sus := by
  cases o with
  | gate b => simp [ADSR_Linear.Op.isGate] at hg
  | render => simp [ADSR_Linear.step, ADSR_Linear.render_sustain s hs, hs]
  | set_attack_length n =>
    simp [ADSR_Linear.step, ADSR_Linear.set_attack_length_frame,
      ADSR_Linear.length_setters_keep_level, hs]
  | set_decay_length n =>
    simp [ADSR_Linear.step, ADSR_Linear.set_decay_length_frame,
      ADSR_Linear.length_setters_keep_level, hs]
  | set_sustain_level l => simp [ADSR_Linear.Op.isLevelSetter] at hl
  | set_release_length n =>
    simp [ADSR_Linear.step, ADSR_Linear.set_release_length_frame,
      ADSR_Linear.length_setters_keep_level, hs]
  | set_period p =>
    have hf := ADSR_Linear.set_period_frame s p
    refine ⟨by simp only [ADSR_Linear.step]; rw [hf.1, hs],
      by simp only [ADSR_Linear.step]; exact hf.2.2, ?_⟩
    simp [ADSR_Linear.step, ADSR_Linear.set_period, ADSR_Linear.length_setters_keep_level]
  | write_sustain b => simp [ADSR_Linear.step, hs]
  | write_retrigger b => simp [ADSR_Linear.step, hs]

/-- An exponential shape/length setter leaves the configured sustain level
alone. -/
lemma ADSR_LogExp.exp_length_setters_keep_level (powf : F → F → F) (t : ADSR_LogExp F) (e : F)
    (n : Int) :
    (ADSR_LogExp.set_attack powf t e n).v_sus = t.v_sus ∧
    (ADSR_LogExp.set_decay powf t e n).v_sus = t.v_sus ∧
    (ADSR_LogExp.set_release powf t e n).v_sus = t.v_sus := by
  simp only [ADSR_LogExp.set_attack, ADSR_LogExp.set_decay, ADSR_LogExp.set_release,
    ADSR_LogExp.init_ramp]
  refine ⟨?_, ?_, ?_⟩ <;> split_ifs <;> rfl

/-- In Sustain, an exponential call that is neither `gate()` nor the level
setter keeps the state, the output and the configured level. -/
lemma ADSR_LogExp.exp_step_sustain (powf : F → F → F) (t : ADSR_LogExp F) (o : ADSR_LogExp.Op F)
    (hs : t.state = kADSRStateSustain) (hg : o.isGate = false)
    (hl : o.isLevelSetter = false) :
    (ADSR_LogExp.step powf t o).state = kADSRStateSustain ∧
    (ADSR_LogExp.step powf t o).v_c = t.v_c ∧ (ADSR_LogExp.step powf t o).v_sus = t.v_sus := by
  cases o with
  | gate b => simp [ADSR_LogExp.Op.isGate] at hg
  | render => simp [ADSR_LogExp.step, ADSR_LogExp.render, hs]
  | set_attack e n =>
    simp [ADSR_LogExp.step, ADSR_LogExp.set_attack_frame,
      ADSR_LogExp.exp_length_setters_keep_level, hs]
  | set_decay e n =>
    simp [ADSR_LogExp.step, ADSR_LogExp.set_decay_frame,
      ADSR_LogExp.exp_length_setters_keep_level, hs]
  | set_sustain l => simp [ADSR_LogExp.Op.isLevelSetter] at hl
  | set_release e n =>
    simp [ADSR_LogExp.step, ADSR_LogExp.set_release_frame,
      ADSR_LogExp.exp_length_setters_keep_level, hs]
  | set_period p =>
    have hf := ADSR_LogExp.exp_set_period_frame powf t p
    refine ⟨by simp only [ADSR_LogExp.step]; rw [hf.1, hs],
      by simp only [ADSR_LogExp.step]; exact hf.2.2, ?_⟩
    simp [ADSR_LogExp.step, ADSR_LogExp.set_period, ADSR_LogExp.exp_length_setters_keep_level]
  | set_shape e =>
    have hf := ADSR_LogExp.set_shape_frame powf t e
    refine ⟨by simp only [ADSR_LogExp.step]; rw [hf.1, hs],
      by simp only [ADSR_LogExp.step]; exact hf.2.2, ?_⟩
    simp [ADSR_LogExp.step, ADSR_LogExp.set_shape, ADSR_LogExp.exp_length_setters_keep_level]
  | write_sustain b => simp [ADSR_LogExp.step, hs]
  | write_retrigger b => simp [ADSR_LogExp.step, hs]

/-- C13, amended. In both variants: the `render()` that completes Decay with
`sustain = true` enters Sustain with the output equal to the configured
sustain level and returns that level; while in Sustain, every call other than
`gate()` and the level setter keeps the state, the output and the configured
level, so the output stays equal to the level; the level setter
(`set_sustain_level` / `set_sustain`) called in Sustain stores the new level
and keeps the state but leaves the held output where it was. -/
theorem C13_sustain_output (powf : F → F → F) (s : ADSR_Linear F) (t : ADSR_LogExp F)
    (l : F) :
    ((s.state = kADSRStateDecay → s.length ≤ s.phase + 1 → s.sustain = true →
        (ADSR_Linear.render s).1.state = kADSRStateSustain ∧
        ADSR_Linear.get_output (ADSR_Linear.render s).1 = (ADSR_Linear.render s).1.x_sus ∧
        (ADSR_Linear.render s).2 = s.x_sus) ∧
     (s.state = kADSRStateSustain → ADSR_Linear.get_output s = s.x_sus →
        ∀ o : ADSR_Linear.Op F, o.isGate = false → o.isLevelSetter = false →
          (ADSR_Linear.step s o).state = kADSRStateSustain ∧
          ADSR_Linear.get_output (ADSR_Linear.step s o) = (ADSR_Linear.step s o).x_sus ∧
          (ADSR_Linear.render s).2 = s.x_sus) ∧
     (s.state = kADSRStateSustain →
        (ADSR_Linear.set_sustain_level s l).state = kADSRStateSustain ∧
        ADSR_Linear.get_output (ADSR_Linear.set_sustain_level s l) =
          ADSR_Linear.get_output s ∧
        (ADSR_Linear.render (ADSR_Linear.set_sustain_level s l)).2 =
          ADSR_Linear.get_output s ∧
        (ADSR_Linear.set_sustain_level s l).x_sus = l)) ∧
    ((t.state = kADSRStateDecay → t.length ≤ t.phase + 1 → t.sustain = true →
        (ADSR_LogExp.render t).1.state = kADSRStateSustain ∧
        ADSR_LogExp.get_output (ADSR_LogExp.render t).1 = (ADSR_LogExp.render t).1.v_sus ∧
        (ADSR_LogExp.render t).2 = t.v_sus) ∧
     (t.state = kADSRStateSustain → ADSR_LogExp.get_output t = t.v_sus →
        ∀ o : ADSR_LogExp.Op F, o.isGate = false → o.isLevelSetter = false →
          (ADSR_LogExp.step powf t o).state = kADSRStateSustain ∧
          ADSR_LogExp.get_output (ADSR_LogExp.step powf t o) =
            (ADSR_LogExp.step powf t o).v_sus ∧
          (ADSR_LogExp.render t).2 = t.v_sus) ∧
     (t.state = kADSRStateSustain →
        (ADSR_LogExp.set_sustain powf t l).state = kADSRStateSustain ∧
        ADSR_LogExp.get_output (ADSR_LogExp.set_sustain powf t l) =
          ADSR_LogExp.get_output t ∧
        (ADSR_LogExp.render (ADSR_LogExp.set_sustain powf t l)).2 =
          ADSR_LogExp.get_output t ∧
        (ADSR_LogExp.set_sustain powf t l).v_sus = l)) := by
  refine ⟨⟨?_, ?_, ?_⟩, ⟨?_, ?_, ?_⟩⟩
  · intro hs hl hf
    rw [ADSR_Linear.render_snd,
      ADSR_Linear.render_last s (by simp [ADSR_Linear.active, hs]) hl]
    simp [ADSR_Linear.next_state, hs, hf, ADSR_Linear.begin_sustain, ADSR_Linear.get_output]
  · intro hs hx o hg hl
    have h := ADSR_Linear.step_sustain s o hs hg hl
    refine ⟨h.1, ?_, ?_⟩
    · simp only [ADSR_Linear.get_output] at hx ⊢
      rw [h.2.1, h.2.2, hx]
    · rw [ADSR_Linear.render_sustain s hs]; exact hx
  · intro hs
    have hs' : (ADSR_Linear.set_sustain_level s l).state = kADSRStateSustain := by
      rw [(ADSR_Linear.set_sustain_level_frame s l).1, hs]
    refine ⟨hs', ?_, ?_, ?_⟩
    · simp [ADSR_Linear.get_output, ADSR_Linear.set_sustain_level_frame]
    · rw [ADSR_Linear.render_sustain _ hs']
      simp [ADSR_Linear.get_output, ADSR_Linear.set_sustain_level_frame]
    · simp [ADSR_Linear.set_sustain_level, hs]
  · intro hs hl hf
    rw [ADSR_LogExp.exp_render_snd,
      ADSR_LogExp.exp_render_last t (by simp [ADSR_LogExp.active, hs]) hl]
    simp [ADSR_LogExp.next_state, hs, hf, ADSR_LogExp.begin_sustain, ADSR_LogExp.get_output]
  · intro hs hx o hg hl
    have h := ADSR_LogExp.exp_step_sustain powf t o hs hg hl
    refine ⟨h.1, ?_, ?_⟩
    · simp only [ADSR_LogExp.get_output] at hx ⊢
      rw [h.2.1, h.2.2, hx]
    · simpa [ADSR_LogExp.render, hs] using hx
  · intro hs
    have hs' : (ADSR_LogExp.set_sustain powf t l).state = kADSRStateSustain := by
      rw [(ADSR_LogExp.set_sustain_frame powf t l).1, hs]
    refine ⟨hs', ?_, ?_, ?_⟩
    · simp [ADSR_LogExp.get_output, ADSR_LogExp.set_sustain_frame]
    · simp [ADSR_LogExp.render, hs', ADSR_LogExp.get_output, ADSR_LogExp.set_sustain_frame]
    · simp [ADSR_LogExp.set_sustain, hs]

/-- Instance of C13: the level setter on a generator holding in Sustain at
1/2. -/
theorem C13_sustain_output_witness :
    (ADSR_Linear.set_sustain_level heldLinear (1 / 4)).state = kADSRStateSustain ∧
    ADSR_Linear.get_output (ADSR_Linear.set_sustain_level heldLinear (1 / 4)) =
      ADSR_Linear.get_output heldLinear ∧
    (ADSR_Linear.render (ADSR_Linear.set_sustain_level heldLinear (1 / 4))).2 =
      ADSR_Linear.get_output heldLinear ∧
    (ADSR_Linear.set_sustain_level heldLinear (1 / 4)).x_sus = 1 / 4 :=
  (C13_sustain_output powfQ heldLinear decayingLogExp (1 / 4)).1.2.2 rfl

end held

end ADSR

/-! ## Auto-advance after a live length change -/

namespace ADSR

open State

namespace ADSR_Linear

variable {F : Type} [LinearOrderedField F] [FloorRing F]

lemma remaining_eq_max (length phase : Int) : remaining length phase = max (length - phase) 1 := by
  unfold remaining
  split_ifs with h
  · exact (max_eq_left (by omega)).symm
  · exact (max_eq_right (by omega)).symm

/-- A ramp aimed at its target, `x + max(length - phase, 1) * slope = target`,
keeps its state for fewer than `max(length - phase, 1)` renders and completes
on that render, which returns exactly the target. -/
lemma ramp_lands (t : ADSR_Linear F) (hact : active t)
    (haim : t.x + (remaining t.length t.phase : F) * t.slope = target t) :
    (∀ k : Nat, (k : Int) < remaining t.length t.phase → (renders t k).state = t.state) ∧
    (renders t (remaining t.length t.phase).toNat).state ≠ t.state ∧
    sample t (remaining t.length t.phase).toNat = target t := by
  have hR := renders_remaining t hact
  have h1 := one_le_remaining t.length t.phase
  refine ⟨hR.1, ?_, ?_⟩
  · rw [hR.2]
    rcases hs : t.state with _ | _ | _ | _ | _
    · exact absurd hs hact.1
    · simp [next_state, hs, begin_decay]
    · simp only [next_state, hs]; split_ifs <;> simp [begin_sustain, begin_release]
    · exact absurd hs hact.2
    · simp only [next_state, hs]; split_ifs <;> simp [begin_attack, begin_idle]
  · rw [sample_eq _ _ (by omega), hR.2]
    rcases hs : t.state with _ | _ | _ | _ | _
    · exact absurd hs hact.1
    · simpa [next_state, hs, begin_decay, target] using haim
    · simp only [target, hs] at haim
      simp only [next_state, hs, target]
      split_ifs
      · simp [begin_sustain]
      · simpa [begin_release] using haim
    · exact absurd hs hact.2
    · simp only [target, hs] at haim
      simp only [next_state, hs, target]
      split_ifs
      · simpa [begin_attack] using haim
      · simp [begin_idle]

/-- The slope for `m ≥ 1` remaining samples, taken `m` times, leads from `x0`
to `x1`. -/
lemma compute_slope_aims (x0 x1 : F) (length phase : Int) :
    x0 + (remaining length phase : F) * compute_slope x0 x1 (remaining length phase) = x1 := by
  have h1 := one_le_remaining length phase
  have hne : ((remaining length phase : Int) : F) ≠ 0 := by
    have : (0 : Int) < remaining length phase := by omega
    exact_mod_cast this.ne'
  unfold compute_slope
  field_simp

/-- After the length setter of the active segment, the segment keeps its state
for fewer than `max(n - phase, 1)` renders, completes on that render, and that
render returns the nominal target of the segment. -/
lemma active_length_lands (s : ADSR_Linear F) (n : Int) (hact : active s) :
    (set_active_length s n).length = n ∧ (set_active_length s n).phase = s.phase ∧
    (∀ k : Nat, (k : Int) < remaining n s.phase →
      (renders (set_active_length s n) k).state = s.state) ∧
    (renders (set_active_length s n) (remaining n s.phase).toNat).state ≠ s.state ∧
    sample (set_active_length s n) (remaining n s.phase).toNat = target s := by
  rcases hs : s.state with _ | _ | _ | _ | _
  · exact absurd hs hact.1
  · have ht : set_active_length s n = set_attack_length s n := by simp [set_active_length, hs]
    have hl : (set_attack_length s n).length = n := by simp [set_attack_length, hs]
    have hp : (set_attack_length s n).phase = s.phase := by simp [set_attack_length, hs]
    have hst : (set_attack_length s n).state = kADSRStateAttack := by
      simp [set_attack_length, hs]
    have hT : target (set_attack_length s n) = target s := by
      simp [target, set_attack_length, hs]
    have := ramp_lands (set_attack_length s n) (by simp [active, hst])
      (by rw [hl, hp, hT]; simpa [set_attack_length, hs, target] using
        compute_slope_aims s.x 1 n s.phase)
    rw [hl, hp, hst, hT] at this
    rw [ht]
    exact ⟨hl, hp, this⟩
  · have ht : set_active_length s n = set_decay_length s n := by simp [set_active_length, hs]
    have hl : (set_decay_length s n).length = n := by simp [set_decay_length, hs]
    have hp : (set_decay_length s n).phase = s.phase := by simp [set_decay_length, hs]
    have hst : (set_decay_length s n).state = kADSRStateDecay := by
      simp [set_decay_length, hs]
    have hT : target (set_decay_length s n) = target s := by
      simp [target, set_decay_length, hs]
    have := ramp_lands (set_decay_length s n) (by simp [active, hst])
      (by rw [hl, hp, hT]; simpa [set_decay_length, hs, target] using
        compute_slope_aims s.x s.x_sus n s.phase)
    rw [hl, hp, hst, hT] at this
    rw [ht]
    exact ⟨hl, hp, this⟩
  · exact absurd hs hact.2
  · have ht : set_active_length s n = set_release_length s n := by
      simp [set_active_length, hs]
    have hl : (set_release_length s n).length = n := by simp [set_release_length, hs]
    have hp : (set_release_length s n).phase = s.phase := by simp [set_release_length, hs]
    have hst : (set_release_length s n).state = kADSRStateRelease := by
      simp [set_release_length, hs]
    have hT : target (set_release_length s n) = target s := by
      simp [target, set_release_length, hs]
    have := ramp_lands (set_release_length s n) (by simp [active, hst])
      (by rw [hl, hp, hT]; simpa [set_release_length, hs, target] using
        compute_slope_aims s.x 0 n s.phase)
    rw [hl, hp, hst, hT] at this
    rw [ht]
    exact ⟨hl, hp, this⟩

/-- C16. If the generator is in Attack at phase `p` and `set_attack_length(n)`
is called, for any integer `n`, the live segment length becomes `n`, the phase
stays `p`, the generator is still in Attack after fewer than `max(n - p, 1)`
following renders and is in Decay after the `max(n - p, 1)`-th; likewise
`set_decay_length` in Decay and `set_release_length` in Release, after which
the generator leaves Decay, respectively Release, on exactly the
`max(n - p, 1)`-th following render. -/
theorem C16_live_length_governs (s : ADSR_Linear F) (n : Int) :
    remaining n s.phase = max (n - s.phase) 1 ∧
    (s.state = kADSRStateAttack →
      (set_attack_length s n).length = n ∧ (set_attack_length s n).phase = s.phase ∧
      (∀ k : Nat, (k : Int) < remaining n s.phase →
        (renders (set_attack_length s n) k).state = kADSRStateAttack) ∧
      (renders (set_attack_length s n) (remaining n s.phase).toNat).state = kADSRStateDecay) ∧
    (s.state = kADSRStateDecay →
      (set_decay_length s n).length = n ∧ (set_decay_length s n).phase = s.phase ∧
      (∀ k : Nat, (k : Int) < remaining n s.phase →
        (renders (set_decay_length s n) k).state = kADSRStateDecay) ∧
      (renders (set_decay_length s n) (remaining n s.phase).toNat).state ≠ kADSRStateDecay) ∧
    (s.state = kADSRStateRelease →
      (set_release_length s n).length = n ∧ (set_release_length s n).phase = s.phase ∧
      (∀ k : Nat, (k : Int) < remaining n s.phase →
        (renders (set_release_length s n) k).state = kADSRStateRelease) ∧
      (renders (set_release_length s n) (remaining n s.phase).toNat).state ≠
        kADSRStateRelease) := by
  refine ⟨remaining_eq_max _ _, fun hs => ?_, fun hs => ?_, fun hs => ?_⟩
  · have h := active_length_lands s n (by simp [active, hs])
    have ht : set_active_length s n = set_attack_length s n := by simp [set_active_length, hs]
    rw [ht, hs] at h
    refine ⟨h.1, h.2.1, h.2.2.1, ?_⟩
    have hR := (renders_remaining (set_attack_length s n)
      (by simp [active, set_attack_length, hs])).2
    rw [h.1, h.2.1] at hR
    rw [hR]
    simp [next_state, set_attack_length, hs, begin_decay]
  · have h := active_length_lands s n (by simp [active, hs])
    have ht : set_active_length s n = set_decay_length s n := by simp [set_active_length, hs]
    rw [ht, hs] at h
    exact ⟨h.1, h.2.1, h.2.2.1, h.2.2.2.1⟩
  · have h := active_length_lands s n (by simp [active, hs])
    have ht : set_active_length s n = set_release_length s n := by
      simp [set_active_length, hs]
    rw [ht, hs] at h
    exact ⟨h.1, h.2.1, h.2.2.1, h.2.2.2.1⟩

/-- Instance of C16: a Decay at phase 1 whose length is set to 3 is left on the
second following render. -/
theorem C16_live_length_governs_witness :
    (set_decay_length midDecayLinear 3).length = 3 ∧
    (set_decay_length midDecayLinear 3).phase = midDecayLinear.phase ∧
    (∀ k : Nat, (k : Int) < remaining 3 midDecayLinear.phase →
      (renders (set_decay_length midDecayLinear 3) k).state = kADSRStateDecay) ∧
    (renders (set_decay_length midDecayLinear 3) (remaining 3 midDecayLinear.phase).toNat).state ≠
      kADSRStateDecay :=
  (C16_live_length_governs midDecayLinear 3).2.2.1 rfl

end ADSR_Linear

end ADSR

/-! ## The flags -/

namespace ADSR

open State

section flags

variable {F : Type} [LinearOrderedField F] [FloorRing F]

/-- Agreement up to the flags, spelled out: the second generator is the first
with its flags replaced. -/
lemma ADSR_Linear.eq_of_clearFlags (s1 s2 : ADSR_Linear F)
    (h : ADSR_Linear.clearFlags s1 = ADSR_Linear.clearFlags s2) :
    s2 = { s1 with sustain := s2.sustain, retrigger := s2.retrigger } := by
  cases s1; cases s2
  simp only [ADSR_Linear.clearFlags, ADSR_Linear.mk.injEq, true_and] at h
  simp only [ADSR_Linear.mk.injEq, true_and]
  tauto

lemma ADSR_LogExp.exp_eq_of_clearFlags (t1 t2 : ADSR_LogExp F)
    (h : ADSR_LogExp.clearFlags t1 = ADSR_LogExp.clearFlags t2) :
    t2 = { t1 with sustain := t2.sustain, retrigger := t2.retrigger } := by
  cases t1; cases t2
  simp only [ADSR_LogExp.clearFlags, ADSR_LogExp.mk.injEq, true_and] at h
  simp only [ADSR_LogExp.mk.injEq, true_and]
  tauto

/-- A linear `render()` that completes no Decay and no Release does not read
the flags. -/
lemma ADSR_Linear.render_flagFree (s : ADSR_Linear F) (a b : Bool)
    (h : ADSR_Linear.flagFree s) :
    ADSR_Linear.clearFlags (ADSR_Linear.render { s with sustain := a, retrigger := b }).1 =
      ADSR_Linear.clearFlags (ADSR_Linear.render s).1 ∧
    (ADSR_Linear.render { s with sustain := a, retrigger := b }).2 =
      (ADSR_Linear.render s).2 := by
  simp only [ADSR_Linear.flagFree] at h
  simp only [ADSR_Linear.render, ADSR_Linear.next_state, ADSR_Linear.clearFlags]
  rcases hs : s.state with _ | _ | _ | _ | _ <;> simp [hs] at h ⊢
  · split_ifs <;> simp [ADSR_Linear.begin_decay]
  · have h' : ¬ (s.length ≤ s.phase + 1) := not_le.mpr h
    simp [h']
  · have h' : ¬ (s.length ≤ s.phase + 1) := not_le.mpr h
    simp [h']

/-- An exponential `render()` that completes no Decay and no Release does not
read the flags. -/
lemma ADSR_LogExp.exp_render_flagFree (t : ADSR_LogExp F) (a b : Bool)
    (h : ADSR_LogExp.flagFree t) :
    ADSR_LogExp.clearFlags (ADSR_LogExp.render { t with sustain := a, retrigger := b }).1 =
      ADSR_LogExp.clearFlags (ADSR_LogExp.render t).1 ∧
    (ADSR_LogExp.render { t with sustain := a, retrigger := b }).2 =
      (ADSR_LogExp.render t).2 := by
  simp only [ADSR_LogExp.flagFree] at h
  simp only [ADSR_LogExp.render, ADSR_LogExp.next_state, ADSR_LogExp.clearFlags]
  rcases hs : t.state with _ | _ | _ | _ | _ <;> simp [hs] at h ⊢
  · split_ifs <;> simp [ADSR_LogExp.begin_decay, ADSR_LogExp.init_ramp]
  · have h' : ¬ (t.length ≤ t.phase + 1) := not_le.mpr h
    simp [h']
  · have h' : ¬ (t.length ≤ t.phase + 1) := not_le.mpr h
    simp [h']

/-- A linear call other than `render()` does not read the flags. -/
lemma ADSR_Linear.step_flagFree (s : ADSR_Linear F) (a b : Bool) (o : ADSR_Linear.Op F)
    (ho : o ≠ ADSR_Linear.Op.render) :
    ADSR_Linear.clearFlags (ADSR_Linear.step { s with sustain := a, retrigger := b } o) =
      ADSR_Linear.clearFlags (ADSR_Linear.step s o) := by
  cases o with
  | gate g =>
    cases g <;> simp [ADSR_Linear.step, ADSR_Linear.gate, ADSR_Linear.begin_attack,
      ADSR_Linear.begin_release, ADSR_Linear.clearFlags]
  | render => exact absurd rfl ho
  | set_attack_length n =>
    simp only [ADSR_Linear.step, ADSR_Linear.set_attack_length, ADSR_Linear.clearFlags]
    split_ifs <;> rfl
  | set_decay_length n =>
    simp only [ADSR_Linear.step, ADSR_Linear.set_decay_length, ADSR_Linear.clearFlags]
    split_ifs <;> rfl
  | set_sustain_level l =>
    simp only [ADSR_Linear.step, ADSR_Linear.set_sustain_level, ADSR_Linear.clearFlags]
    split_ifs <;> rfl
  | set_release_length n =>
    simp only [ADSR_Linear.step, ADSR_Linear.set_release_length, ADSR_Linear.clearFlags]
    split_ifs <;> rfl
  | set_period p =>
    simp only [ADSR_Linear.step, ADSR_Linear.set_period, ADSR_Linear.set_attack_length,
      ADSR_Linear.set_decay_length, ADSR_Linear.set_release_length, ADSR_Linear.clearFlags]
    split_ifs <;> rfl
  | write_sustain c => rfl
  | write_retrigger c => rfl

/-- An exponential call other than `render()` does not read the flags. -/
lemma ADSR_LogExp.exp_step_flagFree (powf : F → F → F) (t : ADSR_LogExp F) (a b : Bool)
    (o : ADSR_LogExp.Op F) (ho : o ≠ ADSR_LogExp.Op.render) :
    ADSR_LogExp.clearFlags
        (ADSR_LogExp.step powf { t with sustain := a, retrigger := b } o) =
      ADSR_LogExp.clearFlags (ADSR_LogExp.step powf t o) := by
  cases o with
  | gate g =>
    cases g <;> simp [ADSR_LogExp.step, ADSR_LogExp.gate, ADSR_LogExp.begin_attack,
      ADSR_LogExp.begin_release, ADSR_LogExp.init_ramp, ADSR_LogExp.clearFlags]
  | render => exact absurd rfl ho
  | set_attack e n =>
    simp only [ADSR_LogExp.step, ADSR_LogExp.set_attack, ADSR_LogExp.init_ramp,
      ADSR_LogExp.clearFlags]
    split_ifs <;> rfl
  | set_decay e n =>
    simp only [ADSR_LogExp.step, ADSR_LogExp.set_decay, ADSR_LogExp.init_ramp,
      ADSR_LogExp.clearFlags]
    split_ifs <;> rfl
  | set_sustain l =>
    simp only [ADSR_LogExp.step, ADSR_LogExp.set_sustain, ADSR_LogExp.init_ramp,
      ADSR_LogExp.clearFlags]
    split_ifs <;> rfl
  | set_release e n =>
    simp only [ADSR_LogExp.step, ADSR_LogExp.set_release, ADSR_LogExp.init_ramp,
      ADSR_LogExp.clearFlags]
    split_ifs <;> rfl
  | set_period p =>
    simp only [ADSR_LogExp.step, ADSR_LogExp.set_period, ADSR_LogExp.set_attack,
      ADSR_LogExp.set_decay, ADSR_LogExp.set_release, ADSR_LogExp.init_ramp,
      ADSR_LogExp.clearFlags]
    split_ifs <;> rfl
  | set_shape e =>
    simp only [ADSR_LogExp.step, ADSR_LogExp.set_shape, ADSR_LogExp.set_attack,
      ADSR_LogExp.set_decay, ADSR_LogExp.set_release, ADSR_LogExp.init_ramp,
      ADSR_LogExp.clearFlags]
    split_ifs <;> rfl
  | write_sustain c => rfl
  | write_retrigger c => rfl

/-- C18. For two generators that agree on every member except the flags
`sustain` and `retrigger` (either variant): every call other than `render()`
(`gate(b)`, every setter, a flag write) leaves them agreeing on every member
except the flags; and a `render()` in Idle, Sustain or Attack (also when it
completes the Attack), or in Decay or Release with `phase + 1 < length`,
returns the same value in both and leaves them agreeing on every member except
the flags. -/
theorem C18_flags_only_at_completion (powf : F → F → F) (s1 s2 : ADSR_Linear F)
    (t1 t2 : ADSR_LogExp F)
    (hs : ADSR_Linear.clearFlags s1 = ADSR_Linear.clearFlags s2)
    (ht : ADSR_LogExp.clearFlags t1 = ADSR_LogExp.clearFlags t2) :
    ((∀ o : ADSR_Linear.Op F, o ≠ ADSR_Linear.Op.render →
        ADSR_Linear.clearFlags (ADSR_Linear.step s1 o) =
          ADSR_Linear.clearFlags (ADSR_Linear.step s2 o)) ∧
     (ADSR_Linear.flagFree s1 →
        (ADSR_Linear.render s1).2 = (ADSR_Linear.render s2).2 ∧
        ADSR_Linear.clearFlags (ADSR_Linear.render s1).1 =
          ADSR_Linear.clearFlags (ADSR_Linear.render s2).1)) ∧
    ((∀ o : ADSR_LogExp.Op F, o ≠ ADSR_LogExp.Op.render →
        ADSR_LogExp.clearFlags (ADSR_LogExp.step powf t1 o) =
          ADSR_LogExp.clearFlags (ADSR_LogExp.step powf t2 o)) ∧
     (ADSR_LogExp.flagFree t1 →
        (ADSR_LogExp.render t1).2 = (ADSR_LogExp.render t2).2 ∧
        ADSR_LogExp.clearFlags (ADSR_LogExp.render t1).1 =
          ADSR_LogExp.clearFlags (ADSR_LogExp.render t2).1)) := by
  have e1 := ADSR_Linear.eq_of_clearFlags s1 s2 hs
  have e2 := ADSR_LogExp.exp_eq_of_clearFlags t1 t2 ht
  refine ⟨⟨fun o ho => ?_, fun hf => ?_⟩, ⟨fun o ho => ?_, fun hf => ?_⟩⟩
  · rw [e1]; exact (ADSR_Linear.step_flagFree s1 _ _ o ho).symm
  · rw [e1]
    have := ADSR_Linear.render_flagFree s1 s2.sustain s2.retrigger hf
    exact ⟨this.2.symm, this.1.symm⟩
  · rw [e2]; exact (ADSR_LogExp.exp_step_flagFree powf t1 _ _ o ho).symm
  · rw [e2]
    have := ADSR_LogExp.exp_render_flagFree t1 t2.sustain t2.retrigger hf
    exact ⟨this.2.symm, this.1.symm⟩

/-- Instance of C18: the same Decay, mid-segment, under different flag
values, before a `gate(false)`. -/
theorem C18_flags_only_at_completion_witness :
    ADSR_Linear.clearFlags (ADSR_Linear.step midDecayLinear (ADSR_Linear.Op.gate false)) =
      ADSR_Linear.clearFlags
        (ADSR_Linear.step { midDecayLinear with sustain := false, retrigger := true }
          (ADSR_Linear.Op.gate false)) :=
  (C18_flags_only_at_completion powfQ midDecayLinear
    { midDecayLinear with sustain := false, retrigger := true }
    decayingLogExp { decayingLogExp with sustain := true } rfl rfl).1.1
    (ADSR_Linear.Op.gate false) (by simp)

end flags

end ADSR

/-! ## One state machine, two ramps -/

namespace ADSR

open State

section shared

variable {F : Type} [LinearOrderedField F] [FloorRing F]

/-- The linear generator runs the common state machine. -/
lemma ADSR_Linear.control_step (s : ADSR_Linear F) (c : SharedCall F) :
    ADSR_Linear.control (ADSR_Linear.step s c.linear) = Control.step (ADSR_Linear.control s) c := by
  obtain ⟨su, re, st, ph, le, sl, x, al, dl, rl, xs⟩ := s
  cases c <;> cases st <;>
    simp only [SharedCall.linear, ADSR_Linear.step, Control.step, ADSR_Linear.control,
      ADSR_Linear.gate, ADSR_Linear.begin_attack, ADSR_Linear.begin_release,
      ADSR_Linear.render, ADSR_Linear.next_state, ADSR_Linear.begin_decay,
      ADSR_Linear.begin_sustain, ADSR_Linear.begin_idle, ADSR_Linear.set_attack_length,
      ADSR_Linear.set_decay_length, ADSR_Linear.set_release_length, ADSR_Linear.set_period,
      Control.enter, Control.render, Control.next_state, Control.set_attack,
      Control.set_decay, Control.set_release] <;>
    split_ifs <;> simp_all

/-- The exponential generator runs the common state machine. -/
lemma ADSR_LogExp.exp_control_step (powf : F → F → F) (t : ADSR_LogExp F) (c : SharedCall F) :
    ADSR_LogExp.control (ADSR_LogExp.step powf t c.logExp) =
      Control.step (ADSR_LogExp.control t) c := by
  obtain ⟨su, re, ph, le, co, ve, v0, vT, vc, st, al, dl, rl, ac, dc, rc, ae, de, ree, vs⟩ := t
  cases c <;> cases st <;>
    simp only [SharedCall.logExp, ADSR_LogExp.step, Control.step, ADSR_LogExp.control,
      ADSR_LogExp.gate, ADSR_LogExp.begin_attack, ADSR_LogExp.begin_release,
      ADSR_LogExp.init_ramp, ADSR_LogExp.render, ADSR_LogExp.next_state,
      ADSR_LogExp.begin_decay, ADSR_LogExp.begin_sustain, ADSR_LogExp.begin_idle,
      ADSR_LogExp.set_attack, ADSR_LogExp.set_decay, ADSR_LogExp.set_release,
      ADSR_LogExp.set_period, Control.enter, Control.render, Control.next_state,
      Control.set_attack, Control.set_decay, Control.set_release] <;>
    split_ifs <;> simp_all

/-- What a resting state holds as phase and live length does not influence a
length setter, up to what a resting state holds afterwards. -/
lemma Control.settle_setters (c : Control) (n : Int) :
    Control.settle (Control.set_attack (Control.settle c) n) =
      Control.settle (Control.set_attack c n) ∧
    Control.settle (Control.set_decay (Control.settle c) n) =
      Control.settle (Control.set_decay c n) ∧
    Control.settle (Control.set_release (Control.settle c) n) =
      Control.settle (Control.set_release c n) := by
  obtain ⟨st, ph, le, al, dl, rl, su, re⟩ := c
  refine ⟨?_, ?_, ?_⟩ <;> cases st <;>
    simp [Control.settle, Control.set_attack, Control.set_decay, Control.set_release]

/-- What a resting state holds as phase and live length does not influence a
call, up to what a resting state holds afterwards. -/
lemma Control.settle_step (c : Control) (x : SharedCall F) :
    Control.settle (Control.step (Control.settle c) x) = Control.settle (Control.step c x) := by
  cases x with
  | gate b =>
    obtain ⟨st, ph, le, al, dl, rl, su, re⟩ := c
    cases b <;> cases st <;> simp [Control.step, Control.settle, Control.enter]
  | render =>
    obtain ⟨st, ph, le, al, dl, rl, su, re⟩ := c
    cases st <;> simp [Control.step, Control.settle, Control.render]
  | attack e n => exact (Control.settle_setters c n).1
  | decay e n => exact (Control.settle_setters c n).2.1
  | release e n => exact (Control.settle_setters c n).2.2
  | period p =>
    simp only [Control.step]
    rw [← (Control.settle_setters (Control.set_decay _ _) _).2.2,
      ← (Control.settle_setters (Control.set_attack (Control.settle c) _) _).2.1,
      (Control.settle_setters c _).1,
      (Control.settle_setters (Control.set_attack c _) _).2.1,
      (Control.settle_setters (Control.set_decay _ _) _).2.2]
  | write_sustain b =>
    obtain ⟨st, ph, le, al, dl, rl, su, re⟩ := c
    cases st <;> simp [Control.step, Control.settle]
  | write_retrigger b =>
    obtain ⟨st, ph, le, al, dl, rl, su, re⟩ := c
    cases st <;> simp [Control.step, Control.settle]

/-- A `gate()` call overwrites phase and live length. -/
lemma Control.gate_settle (c : Control) (b : Bool) :
    Control.step (Control.settle c) (SharedCall.gate b : SharedCall F) =
      Control.step c (SharedCall.gate b : SharedCall F) := by
  obtain ⟨st, ph, le, al, dl, rl, su, re⟩ := c
  cases b <;> cases st <;> simp [Control.step, Control.settle, Control.enter]

/-- Paired calls keep the common members equal. -/
lemma run_control (powf : F → F → F) (calls : List (SharedCall F)) (s : ADSR_Linear F)
    (t : ADSR_LogExp F) (h : ADSR_Linear.control s = ADSR_LogExp.control t) :
    ADSR_Linear.control (ADSR_Linear.run s (calls.map SharedCall.linear)) =
      ADSR_LogExp.control (ADSR_LogExp.run powf t (calls.map SharedCall.logExp)) := by
  induction calls generalizing s t with
  | nil => exact h
  | cons c calls ih =>
    simp only [List.map_cons, ADSR_Linear.run, ADSR_LogExp.run, List.foldl_cons]
    exact ih _ _ (by rw [ADSR_Linear.control_step, ADSR_LogExp.exp_control_step, h])

/-- Paired calls keep the common members equal up to what a resting state
holds as phase and live length. -/
lemma run_settle (powf : F → F → F) (calls : List (SharedCall F)) (s : ADSR_Linear F)
    (t : ADSR_LogExp F)
    (h : Control.settle (ADSR_Linear.control s) = Control.settle (ADSR_LogExp.control t)) :
    Control.settle (ADSR_Linear.control (ADSR_Linear.run s (calls.map SharedCall.linear))) =
      Control.settle
        (ADSR_LogExp.control (ADSR_LogExp.run powf t (calls.map SharedCall.logExp))) := by
  induction calls generalizing s t with
  | nil => exact h
  | cons c calls ih =>
    simp only [List.map_cons, ADSR_Linear.run, ADSR_LogExp.run, List.foldl_cons]
    refine ih _ _ ?_
    rw [ADSR_Linear.control_step, ADSR_LogExp.exp_control_step, ← Control.settle_step, h,
      Control.settle_step]

/-- Right after construction the common members agree, up to the phase and
live length the storage held. -/
lemma construct_settle (powf : F → F → F) (rawL : ADSR_Linear F) (rawE : ADSR_LogExp F)
    (a d r : Int) (l e : F) :
    Control.settle (ADSR_Linear.control (ADSR_Linear.construct rawL a d l r)) =
      Control.settle (ADSR_LogExp.control (ADSR_LogExp.construct powf rawE a d l r e)) := by
  simp [ADSR_Linear.construct, ADSR_LogExp.construct, ADSR_Linear.begin_idle,
    ADSR_LogExp.begin_idle, ADSR_Linear.set_attack_length, ADSR_Linear.set_decay_length,
    ADSR_Linear.set_release_length, ADSR_LogExp.set_attack, ADSR_LogExp.set_decay,
    ADSR_LogExp.set_release, ADSR_Linear.control, ADSR_LogExp.control, Control.settle]

/-- Equality up to the resting phase and live length, spelled out. -/
lemma Control.settle_eq (c1 c2 : Control) (h : Control.settle c1 = Control.settle c2) :
    (c1.state = c2.state ∧ c1.atk_len = c2.atk_len ∧ c1.dec_len = c2.dec_len ∧
      c1.rel_len = c2.rel_len ∧ c1.sustain = c2.sustain ∧ c1.retrigger = c2.retrigger) ∧
    (c1.state ≠ kADSRStateIdle ∧ c1.state ≠ kADSRStateSustain →
      c1.phase = c2.phase ∧ c1.length = c2.length) := by
  obtain ⟨st, ph, le, al, dl, rl, su, re⟩ := c1
  obtain ⟨st', ph', le', al', dl', rl', su', re'⟩ := c2
  cases st <;> cases st' <;> simp [Control.settle] at h ⊢ <;> tauto

/-- After the first `gate()` call the common members are equal. -/
lemma run_after_gate (powf : F → F → F) (pre post : List (SharedCall F)) (b : Bool)
    (s : ADSR_Linear F) (t : ADSR_LogExp F)
    (h : Control.settle (ADSR_Linear.control s) = Control.settle (ADSR_LogExp.control t)) :
    ADSR_Linear.control
        (ADSR_Linear.run s ((pre ++ SharedCall.gate b :: post).map SharedCall.linear)) =
      ADSR_LogExp.control
        (ADSR_LogExp.run powf t ((pre ++ SharedCall.gate b :: post).map SharedCall.logExp)) := by
  have hpre := run_settle powf pre s t h
  simp only [List.map_append, List.map_cons, ADSR_Linear.run, ADSR_LogExp.run,
    List.foldl_append, List.foldl_cons]
  refine run_control powf post _ _ ?_
  simp only [ADSR_Linear.run, ADSR_LogExp.run] at hpre
  rw [ADSR_Linear.control_step, ADSR_LogExp.exp_control_step, ← Control.gate_settle, hpre,
    Control.gate_settle]

/-- C19. The linear and the exponential generator share one state machine: on
the members the two classes have in common (state, phase, live segment length,
configured lengths, flags) every paired call (`gate(b)`, `render()`, a length
setter, `set_period(p)`, a flag write) acts by one and the same function,
`Control.step`. Hence, for the same constructor lengths and the same sequence
of paired calls, `ADSR_Linear` and `ADSR_LogExp` have the same state,
configured lengths and flags after every call, and the same phase and live
segment length whenever a segment is active, after every call from the first
`gate()` on, and from construction on when the two objects are built in storage
holding the same phase and length: the constructors do not assign these two
members, and no call reads them before a `gate()` assigns them. -/
theorem C19_shared_state_machine (powf : F → F → F) (rawL : ADSR_Linear F)
    (rawE : ADSR_LogExp F) (a d r : Int) (l e : F) (calls : List (SharedCall F)) :
    (∀ (s : ADSR_Linear F) (t : ADSR_LogExp F) (c : SharedCall F),
      ADSR_Linear.control (ADSR_Linear.step s c.linear) =
        Control.step (ADSR_Linear.control s) c ∧
      ADSR_LogExp.control (ADSR_LogExp.step powf t c.logExp) =
        Control.step (ADSR_LogExp.control t) c) ∧
    ((ADSR_Linear.run (ADSR_Linear.construct rawL a d l r) (calls.map SharedCall.linear)).state =
        (ADSR_LogExp.run powf (ADSR_LogExp.construct powf rawE a d l r e)
          (calls.map SharedCall.logExp)).state ∧
      (ADSR_Linear.run (ADSR_Linear.construct rawL a d l r) (calls.map SharedCall.linear)).atk_len =
        (ADSR_LogExp.run powf (ADSR_LogExp.construct powf rawE a d l r e)
          (calls.map SharedCall.logExp)).atk_len ∧
      (ADSR_Linear.run (ADSR_Linear.construct rawL a d l r) (calls.map SharedCall.linear)).dec_len =
        (ADSR_LogExp.run powf (ADSR_LogExp.construct powf rawE a d l r e)
          (calls.map SharedCall.logExp)).dec_len ∧
      (ADSR_Linear.run (ADSR_Linear.construct rawL a d l r) (calls.map SharedCall.linear)).rel_len =
        (ADSR_LogExp.run powf (ADSR_LogExp.construct powf rawE a d l r e)
          (calls.map SharedCall.logExp)).rel_len ∧
      (ADSR_Linear.run (ADSR_Linear.construct rawL a d l r) (calls.map SharedCall.linear)).sustain =
        (ADSR_LogExp.run powf (ADSR_LogExp.construct powf rawE a d l r e)
          (calls.map SharedCall.logExp)).sustain ∧
      (ADSR_Linear.run (ADSR_Linear.construct rawL a d l r)
          (calls.map SharedCall.linear)).retrigger =
        (ADSR_LogExp.run powf (ADSR_LogExp.construct powf rawE a d l r e)
          (calls.map SharedCall.logExp)).retrigger) ∧
    (ADSR_Linear.active
        (ADSR_Linear.run (ADSR_Linear.construct rawL a d l r) (calls.map SharedCall.linear)) →
      (ADSR_Linear.run (ADSR_Linear.construct rawL a d l r) (calls.map SharedCall.linear)).phase =
        (ADSR_LogExp.run powf (ADSR_LogExp.construct powf rawE a d l r e)
          (calls.map SharedCall.logExp)).phase ∧
      (ADSR_Linear.run (ADSR_Linear.construct rawL a d l r) (calls.map SharedCall.linear)).length =
        (ADSR_LogExp.run powf (ADSR_LogExp.construct powf rawE a d l r e)
          (calls.map SharedCall.logExp)).length) ∧
    (((∃ c ∈ calls, c.isGate = true) ∨ (rawL.phase = rawE.phase ∧ rawL.length = rawE.length)) →
      (ADSR_Linear.run (ADSR_Linear.construct rawL a d l r) (calls.map SharedCall.linear)).phase =
        (ADSR_LogExp.run powf (ADSR_LogExp.construct powf rawE a d l r e)
          (calls.map SharedCall.logExp)).phase ∧
      (ADSR_Linear.run (ADSR_Linear.construct rawL a d l r) (calls.map SharedCall.linear)).length =
        (ADSR_LogExp.run powf (ADSR_LogExp.construct powf rawE a d l r e)
          (calls.map SharedCall.logExp)).length) := by
  have h0 := construct_settle powf rawL rawE a d r l e
  have hW := Control.settle_eq _ _ (run_settle powf calls _ _ h0)
  refine ⟨fun s t c => ⟨ADSR_Linear.control_step s c, ADSR_LogExp.exp_control_step powf t c⟩,
    hW.1, hW.2, ?_⟩
  rintro (⟨c, hc, hg⟩ | ⟨hp, hl⟩)
  · obtain ⟨pre, post, rfl⟩ := List.append_of_mem hc
    cases c with
    | gate b =>
      have := run_after_gate powf pre post b _ _ h0
      simp only [ADSR_Linear.control, ADSR_LogExp.control, Control.mk.injEq] at this
      exact ⟨this.2.1, this.2.2.1⟩
    | _ => simp [SharedCall.isGate] at hg
  · have hc : ADSR_Linear.control (ADSR_Linear.construct rawL a d l r) =
        ADSR_LogExp.control (ADSR_LogExp.construct powf rawE a d l r e) := by
      simp [ADSR_Linear.construct, ADSR_LogExp.construct, ADSR_Linear.begin_idle,
        ADSR_LogExp.begin_idle, ADSR_Linear.set_attack_length, ADSR_Linear.set_decay_length,
        ADSR_Linear.set_release_length, ADSR_LogExp.set_attack, ADSR_LogExp.set_decay,
        ADSR_LogExp.set_release, ADSR_Linear.control, ADSR_LogExp.control, hp, hl]
    have := run_control powf calls _ _ hc
    simp only [ADSR_Linear.control, ADSR_LogExp.control, Control.mk.injEq] at this
    exact ⟨this.2.1, this.2.2.1⟩

/-- Instance of C19: lengths 3, 2, 4; after a setter, a `gate(true)` and two
renders the two generators have the same phase and live segment length. -/
theorem C19_shared_state_machine_witness :
    (ADSR_Linear.run (ADSR_Linear.construct rawLinear 3 2 (1 / 2) 4)
      ([SharedCall.attack 1 2, SharedCall.gate true, SharedCall.render,
        SharedCall.render].map SharedCall.linear)).phase =
    (ADSR_LogExp.run powfQ (ADSR_LogExp.construct powfQ rawLogExp 3 2 (1 / 2) 4 1)
      ([SharedCall.attack 1 2, SharedCall.gate true, SharedCall.render,
        SharedCall.render].map SharedCall.logExp)).phase ∧
    (ADSR_Linear.run (ADSR_Linear.construct rawLinear 3 2 (1 / 2) 4)
      ([SharedCall.attack 1 2, SharedCall.gate true, SharedCall.render,
        SharedCall.render].map SharedCall.linear)).length =
    (ADSR_LogExp.run powfQ (ADSR_LogExp.construct powfQ rawLogExp 3 2 (1 / 2) 4 1)
      ([SharedCall.attack 1 2, SharedCall.gate true, SharedCall.render,
        SharedCall.render].map SharedCall.logExp)).length :=
  (C19_shared_state_machine powfQ rawLinear rawLogExp 3 2 4 (1 / 2) 1
    [SharedCall.attack 1 2, SharedCall.gate true, SharedCall.render, SharedCall.render]).2.2.2
    (Or.inl ⟨SharedCall.gate true, by simp, rfl⟩)

end shared

end ADSR

/-! ## The output range of the linear generator -/

namespace ADSR

open State

namespace ADSR_Linear

variable {F : Type} [LinearOrderedField F] [FloorRing F]

lemma remaining_zero (n : Int) (h : 1 ≤ n) : remaining n 0 = n := by
  unfold remaining
  split_ifs <;> omega

/-- Entering a segment from a state in range gives the invariant. -/
lemma begin_bounded (s : ADSR_Linear F) (h : InRange s) :
    Bounded (begin_attack s) ∧ Bounded (begin_decay s) ∧ Bounded (begin_release s) := by
  obtain ⟨h1, h2, h3, h4, h5, h6, h7⟩ := h
  have ha := compute_slope_aims s.x 1 s.atk_len 0
  have hd := compute_slope_aims s.x s.x_sus s.dec_len 0
  have hr := compute_slope_aims s.x 0 s.rel_len 0
  rw [remaining_zero _ h5] at ha
  rw [remaining_zero _ h6] at hd
  rw [remaining_zero _ h7] at hr
  refine ⟨⟨?_, ?_, ?_⟩, ⟨?_, ?_, ?_⟩, ⟨?_, ?_, ?_⟩⟩
  · exact ⟨h1, h2, h3, h4, h5, h6, h7⟩
  · simp [LiveLength, begin_attack]
  · intro _
    simpa [begin_attack, target, remaining_zero _ h5] using ha
  · exact ⟨h1, h2, h3, h4, h5, h6, h7⟩
  · simp [LiveLength, begin_decay]
  · intro _
    simpa [begin_decay, target, remaining_zero _ h6] using hd
  · exact ⟨h1, h2, h3, h4, h5, h6, h7⟩
  · simp [LiveLength, begin_release]
  · intro _
    simpa [begin_release, target, remaining_zero _ h7] using hr

/-- The target of an active segment lies in `[0, 1]`. -/
lemma target_range (s : ADSR_Linear F) (h : InRange s) (hact : active s) :
    0 ≤ target s ∧ target s ≤ 1 := by
  obtain ⟨h1, h2, h3, h4, -⟩ := h
  rcases hs : s.state with _ | _ | _ | _ | _
  · exact absurd hs hact.1
  · simp [target, hs]
  · simp [target, hs, h3, h4]
  · exact absurd hs hact.2
  · simp [target, hs]

/-- The state transition at segment completion keeps the invariant when the
output is in range. -/
lemma next_state_bounded (s : ADSR_Linear F) (h : InRange s) (hact : active s) :
    Bounded (next_state s) := by
  have hb := begin_bounded s h
  rcases hs : s.state with _ | _ | _ | _ | _
  · exact absurd hs hact.1
  · simpa [next_state, hs] using hb.2.1
  · simp only [next_state, hs]
    split_ifs
    · obtain ⟨h1, h2, h3, h4, h5, h6, h7⟩ := h
      exact ⟨⟨h3, h4, h3, h4, h5, h6, h7⟩, by simp [LiveLength, begin_sustain],
        fun ha => absurd rfl ha.2⟩
    · exact hb.2.2
  · exact absurd hs hact.2
  · simp only [next_state, hs]
    split_ifs
    · exact hb.1
    · obtain ⟨h1, h2, h3, h4, h5, h6, h7⟩ := h
      exact ⟨⟨le_refl _, zero_le_one, h3, h4, h5, h6, h7⟩, by simp [LiveLength, begin_idle],
        fun ha => absurd rfl ha.1⟩

/-- In an active segment the target does not depend on output and phase. -/
lemma target_update (s : ADSR_Linear F) (x' : F) (p' : Int) (hact : active s) :
    target { s with x := x', phase := p' } = target s := by
  rcases hs : s.state with _ | _ | _ | _ | _
  · exact absurd hs hact.1
  · simp [target, hs]
  · simp [target, hs]
  · exact absurd hs hact.2
  · simp [target, hs]

/-- `render()` keeps the invariant. -/
lemma render_bounded (s : ADSR_Linear F) (h : Bounded s) : Bounded (render s).1 := by
  by_cases hrest : s.state = kADSRStateIdle ∨ s.state = kADSRStateSustain
  · simpa [render, hrest] using h
  · have hact : active s := by
      simp only [not_or] at hrest
      exact hrest
    obtain ⟨hi, hl, ha⟩ := h
    have haim := ha hact
    have hT := target_range s hi hact
    obtain ⟨h1, h2, h3, h4, h5, h6, h7⟩ := hi
    by_cases hlt : s.phase + 1 < s.length
    · -- inside the segment
      rw [render_inside s hact hlt]
      have hr : remaining s.length s.phase = s.length - s.phase := by
        unfold remaining; split_ifs <;> omega
      have hr' : remaining s.length (s.phase + 1) = s.length - s.phase - 1 := by
        unfold remaining; split_ifs <;> omega
      rw [hr] at haim
      have hm : (2 : F) ≤ ((s.length - s.phase : Int) : F) := by
        have : (2 : Int) ≤ s.length - s.phase := by omega
        exact_mod_cast this
      set m : F := ((s.length - s.phase : Int) : F) with hmdef
      have hkey : m * (s.x + s.slope) = (m - 1) * s.x + target s := by
        rw [← haim]; ring
      have hm0 : (0 : F) < m := by linarith
      refine ⟨⟨?_, ?_, h3, h4, h5, h6, h7⟩, hl, ?_⟩
      · have : 0 ≤ m * (s.x + s.slope) := by
          rw [hkey]
          have : 0 ≤ (m - 1) * s.x := mul_nonneg (by linarith) h1
          linarith [hT.1]
        exact nonneg_of_mul_nonneg_right this hm0
      · have : m * (s.x + s.slope) ≤ m * 1 := by
          rw [hkey]
          have : (m - 1) * s.x ≤ (m - 1) * 1 := mul_le_mul_of_nonneg_left h2 (by linarith)
          linarith [hT.2]
        exact le_of_mul_le_mul_left this hm0
      · intro _
        have hcast : ((s.length - s.phase - 1 : Int) : F) = m - 1 := by
          rw [hmdef]; push_cast; ring
        have hTu := target_update s (s.x + s.slope) (s.phase + 1) hact
        simp only [hr', hcast]
        rw [hTu, ← haim]; ring
    · -- the completing render
      have hle : s.length ≤ s.phase + 1 := not_lt.mp hlt
      rw [render_last s hact hle]
      have hr : remaining s.length s.phase = 1 := by
        unfold remaining; split_ifs <;> omega
      rw [hr] at haim
      have hx : s.x + s.slope = target s := by simpa using haim
      refine next_state_bounded _ ⟨?_, ?_, h3, h4, h5, h6, h7⟩ hact
      · show 0 ≤ s.x + s.slope
        rw [hx]; exact hT.1
      · show s.x + s.slope ≤ 1
        rw [hx]; exact hT.2

/-- A length setter with an argument of at least 1 keeps the invariant. -/
lemma set_attack_length_bounded (s : ADSR_Linear F) (n : Int) (hn : 1 ≤ n)
    (h : Bounded s) : Bounded (set_attack_length s n) := by
  obtain ⟨⟨h1, h2, h3, h4, h5, h6, h7⟩, ⟨la, ld, lr⟩, ha⟩ := h
  by_cases hs : s.state = kADSRStateAttack
  · refine ⟨?_, ?_, ?_⟩
    · simpa [set_attack_length, hs, InRange] using ⟨h1, h2, h3, h4, hn, h6, h7⟩
    · simp [set_attack_length, hs, LiveLength]
    · intro _
      simpa [set_attack_length, hs, target] using compute_slope_aims s.x 1 n s.phase
  · refine ⟨?_, ?_, ?_⟩
    · simpa [set_attack_length, hs, InRange] using ⟨h1, h2, h3, h4, hn, h6, h7⟩
    · simpa [set_attack_length, hs, LiveLength] using ⟨ld, lr⟩
    · intro hact
      have hact' : active s := by simpa [set_attack_length, hs, active] using hact
      simpa [set_attack_length, hs, target] using ha hact'

lemma set_decay_length_bounded (s : ADSR_Linear F) (n : Int) (hn : 1 ≤ n)
    (h : Bounded s) : Bounded (set_decay_length s n) := by
  obtain ⟨⟨h1, h2, h3, h4, h5, h6, h7⟩, ⟨la, ld, lr⟩, ha⟩ := h
  by_cases hs : s.state = kADSRStateDecay
  · refine ⟨?_, ?_, ?_⟩
    · simpa [set_decay_length, hs, InRange] using ⟨h1, h2, h3, h4, h5, hn, h7⟩
    · simp [set_decay_length, hs, LiveLength]
    · intro _
      simpa [set_decay_length, hs, target] using compute_slope_aims s.x s.x_sus n s.phase
  · refine ⟨?_, ?_, ?_⟩
    · simpa [set_decay_length, hs, InRange] using ⟨h1, h2, h3, h4, h5, hn, h7⟩
    · simpa [set_decay_length, hs, LiveLength] using ⟨la, lr⟩
    · intro hact
      have hact' : active s := by simpa [set_decay_length, hs, active] using hact
      simpa [set_decay_length, hs, target] using ha hact'

lemma set_release_length_bounded (s : ADSR_Linear F) (n : Int) (hn : 1 ≤ n)
    (h : Bounded s) : Bounded (set_release_length s n) := by
  obtain ⟨⟨h1, h2, h3, h4, h5, h6, h7⟩, ⟨la, ld, lr⟩, ha⟩ := h
  by_cases hs : s.state = kADSRStateRelease
  · refine ⟨?_, ?_, ?_⟩
    · simpa [set_release_length, hs, InRange] using ⟨h1, h2, h3, h4, h5, h6, hn⟩
    · simp [set_release_length, hs, LiveLength]
    · intro _
      simpa [set_release_length, hs, target] using compute_slope_aims s.x 0 n s.phase
  · refine ⟨?_, ?_, ?_⟩
    · simpa [set_release_length, hs, InRange] using ⟨h1, h2, h3, h4, h5, h6, hn⟩
    · simpa [set_release_length, hs, LiveLength] using ⟨la, ld⟩
    · intro hact
      have hact' : active s := by simpa [set_release_length, hs, active] using hact
      simpa [set_release_length, hs, target] using ha hact'

/-- The level setter with a level in `[0, 1]` keeps the invariant. -/
lemma set_sustain_level_bounded (s : ADSR_Linear F) (l : F) (hl0 : 0 ≤ l) (hl1 : l ≤ 1)
    (h : Bounded s) : Bounded (set_sustain_level s l) := by
  obtain ⟨⟨h1, h2, h3, h4, h5, h6, h7⟩, ⟨la, ld, lr⟩, ha⟩ := h
  by_cases hs : s.state = kADSRStateDecay
  · refine ⟨?_, ?_, ?_⟩
    · simpa [set_sustain_level, hs, InRange] using ⟨h1, h2, hl0, hl1, h5, h6, h7⟩
    · simpa [set_sustain_level, hs, LiveLength] using ld hs
    · intro _
      simpa [set_sustain_level, hs, target, ld hs] using
        compute_slope_aims s.x l s.dec_len s.phase
  · refine ⟨?_, ?_, ?_⟩
    · simpa [set_sustain_level, hs, InRange] using ⟨h1, h2, hl0, hl1, h5, h6, h7⟩
    · simpa [set_sustain_level, hs, LiveLength] using ⟨la, lr⟩
    · intro hact
      have hact' : active s := by simpa [set_sustain_level, hs, active] using hact
      have := ha hact'
      rcases hst : s.state with _ | _ | _ | _ | _
      · exact absurd hst hact'.1
      · simpa [set_sustain_level, hs, target, hst] using this
      · exact absurd hst hs
      · exact absurd hst hact'.2
      · simpa [set_sustain_level, hs, target, hst] using this

/-- A period of at least 3 gives three lengths of at least 1. -/
lemma period_lengths_pos (p : F) (hp : 3 ≤ p) :
    1 ≤ float_to_int (floorf (p / 3)) ∧ 1 ≤ float_to_int (roundf (p / 3)) ∧
    1 ≤ float_to_int (ceilf (p / 3)) := by
  have hq : (1 : F) ≤ p / 3 := by rw [le_div_iff₀ (by norm_num)]; linarith
  have hf : (1 : Int) ≤ ⌊p / 3⌋ := Int.le_floor.mpr (by exact_mod_cast hq)
  have hq0 : (0 : F) ≤ p / 3 := by linarith
  refine ⟨?_, ?_, ?_⟩
  · rw [floorf, float_to_int_intCast]; exact hf
  · rw [float_to_int_roundf, roundAway, if_pos hq0]
    exact Int.le_floor.mpr (by push_cast; linarith)
  · rw [ceilf, float_to_int_intCast]
    exact le_trans hf (Int.floor_le_ceil _)

/-- Every admissible call keeps the invariant. -/
lemma step_bounded (s : ADSR_Linear F) (o : Op F) (ho : o.admissible) (h : Bounded s) :
    Bounded (step s o) := by
  cases o with
  | gate b =>
    cases b
    · exact (begin_bounded s h.1).2.2
    · exact (begin_bounded s h.1).1
  | render => exact render_bounded s h
  | set_attack_length n => exact set_attack_length_bounded s n ho h
  | set_decay_length n => exact set_decay_length_bounded s n ho h
  | set_sustain_level l => exact set_sustain_level_bounded s l ho.1 ho.2 h
  | set_release_length n => exact set_release_length_bounded s n ho h
  | set_period p =>
    have hp := period_lengths_pos p ho
    exact set_release_length_bounded _ _ hp.2.2
      (set_decay_length_bounded _ _ hp.2.1 (set_attack_length_bounded _ _ hp.1 h))
  | write_sustain b => exact h
  | write_retrigger b => exact h

lemma run_bounded (ops : List (Op F)) (s : ADSR_Linear F) (ho : ∀ o ∈ ops, o.admissible)
    (h : Bounded s) : Bounded (run s ops) := by
  induction ops generalizing s with
  | nil => exact h
  | cons o ops ih =>
    exact ih (step s o) (fun o' ho' => ho o' (List.mem_cons_of_mem _ ho'))
      (step_bounded s o (ho o (List.mem_cons_self _ _)) h)

/-- A generator constructed with lengths of at least 1 and a level in `[0, 1]`
satisfies the invariant. -/
lemma construct_bounded (raw : ADSR_Linear F) (a d : Int) (l : F) (r : Int)
    (ha : 1 ≤ a) (hd : 1 ≤ d) (hr : 1 ≤ r) (hl0 : 0 ≤ l) (hl1 : l ≤ 1) :
    Bounded (construct raw a d l r) := by
  have hc : construct raw a d l r =
      { raw with sustain := false, retrigger := false, state := kADSRStateIdle, x := 0,
                 atk_len := a, dec_len := d, rel_len := r, x_sus := l } := by
    simp [construct, begin_idle, set_attack_length, set_decay_length, set_release_length]
  rw [hc]
  exact ⟨⟨le_refl _, zero_le_one, hl0, hl1, ha, hd, hr⟩, by simp [LiveLength],
    fun hact => absurd rfl hact.1⟩

/-- C20. If the generator is constructed with lengths of at least 1 and a
sustain level in `[0, 1]`, and afterwards receives only `gate(b)`, `render()`,
flag writes, length setters with arguments of at least 1, `set_period(p)` with
`p ≥ 3` and `set_sustain_level(l)` with `l` in `[0, 1]`, in any order, then
after every call `0 ≤ get_output() ≤ 1`, every sample returned by `render()`
lies in `[0, 1]`, and the live ramp of an active segment satisfies
`output + max(length - phase, 1) * slope = target`. -/
theorem C20_output_in_unit_interval (raw : ADSR_Linear F) (a d : Int) (l : F) (r : Int)
    (ha : 1 ≤ a) (hd : 1 ≤ d) (hr : 1 ≤ r) (hl0 : 0 ≤ l) (hl1 : l ≤ 1)
    (ops : List (Op F)) (ho : ∀ o ∈ ops, o.admissible) :
    (0 ≤ get_output (run (construct raw a d l r) ops) ∧
      get_output (run (construct raw a d l r) ops) ≤ 1) ∧
    (0 ≤ (render (run (construct raw a d l r) ops)).2 ∧
      (render (run (construct raw a d l r) ops)).2 ≤ 1) ∧
    (active (run (construct raw a d l r) ops) →
      (run (construct raw a d l r) ops).x +
        (remaining (run (construct raw a d l r) ops).length
          (run (construct raw a d l r) ops).phase : F) *
          (run (construct raw a d l r) ops).slope =
        target (run (construct raw a d l r) ops)) := by
  have hb := run_bounded ops _ ho (construct_bounded raw a d l r ha hd hr hl0 hl1)
  have hb' := render_bounded _ hb
  refine ⟨⟨hb.1.1, hb.1.2.1⟩, ?_, hb.2.2⟩
  rw [render_snd]
  exact ⟨hb'.1.1, hb'.1.2.1⟩

/-- Instance of C20: lengths 3, 2, 4, level 1/2, and a mix of admissible
calls. -/
theorem C20_output_in_unit_interval_witness :
    0 ≤ get_output (run (construct rawLinear 3 2 (1 / 2) 4)
      [Op.gate true, Op.render, Op.set_attack_length 1, Op.render, Op.set_period 10,
        Op.set_sustain_level (3 / 4), Op.render, Op.gate false, Op.render]) ∧
    get_output (run (construct rawLinear 3 2 (1 / 2) 4)
      [Op.gate true, Op.render, Op.set_attack_length 1, Op.render, Op.set_period 10,
        Op.set_sustain_level (3 / 4), Op.render, Op.gate false, Op.render]) ≤ 1 :=
  (C20_output_in_unit_interval rawLinear 3 2 (1 / 2) 4 (by decide) (by decide) (by decide)
    (by norm_num) (by norm_num)
    [Op.gate true, Op.render, Op.set_attack_length 1, Op.render, Op.set_period 10,
      Op.set_sustain_level (3 / 4), Op.render, Op.gate false, Op.render]
    (by
      intro o ho
      simp only [List.mem_cons, List.mem_singleton, List.not_mem_nil, or_false] at ho
      rcases ho with rfl | rfl | rfl | rfl | rfl | rfl | rfl | rfl | rfl <;>
        simp [Op.admissible] <;> norm_num)).1

end ADSR_Linear

end ADSR

/-! ## The shape of the exponential ramp -/

namespace ADSR

open State

namespace ADSR_LogExp

/-- Over the reals the coefficient lies strictly between 0 and 1. -/
lemma coeff_range (eps : ℝ) (heps : 0 < eps) (L : Int) (hL : 1 ≤ L) :
    0 < compute_coeff Real.rpow eps L ∧ compute_coeff Real.rpow eps L < 1 := by
  have hb0 : 0 < eps / (1 + eps) := by positivity
  have hb1 : eps / (1 + eps) < 1 := by
    rw [div_lt_one (by positivity)]; linarith
  have hL0 : (0 : ℝ) < (L : ℝ) := by exact_mod_cast (by omega : (0 : Int) < L)
  have he : (0 : ℝ) < 1 / (L : ℝ) := by positivity
  simp only [compute_coeff, Real.rpow_eq_pow]
  exact ⟨Real.rpow_pos_of_pos hb0 _, Real.rpow_lt_one hb0.le hb1 he⟩

/-- Over the reals the coefficient grows with the shape. -/
lemma coeff_mono (e1 e2 : ℝ) (h1 : 0 < e1) (h12 : e1 ≤ e2) (L : Int) (hL : 1 ≤ L) :
    compute_coeff Real.rpow e1 L ≤ compute_coeff Real.rpow e2 L := by
  have hL0 : (0 : ℝ) < (L : ℝ) := by exact_mod_cast (by omega : (0 : Int) < L)
  have he : (0 : ℝ) ≤ 1 / (L : ℝ) := by positivity
  have hb : e1 / (1 + e1) ≤ e2 / (1 + e2) := by
    rw [div_le_div_iff₀ (by positivity) (by linarith)]
    nlinarith
  simp only [compute_coeff, Real.rpow_eq_pow]
  exact Real.rpow_le_rpow (by positivity) hb he

/-- The first sample of an Attack of length at least 2 started on a freshly
constructed generator. -/
lemma first_sample (raw : ADSR_LogExp ℝ) (L d r : Int) (l eps : ℝ) (hL : 2 ≤ L) :
    sample (gate (construct Real.rpow raw L d l r eps) true) 1 =
      (1 + eps) * (1 - compute_coeff Real.rpow eps L) := by
  have hc : construct Real.rpow raw L d l r eps =
      { raw with sustain := false, retrigger := false, state := kADSRStateIdle, v_c := 0,
                 v_sus := l, atk_len := L, dec_len := d, rel_len := r,
                 atk_eps := eps, dec_eps := eps, rel_eps := eps,
                 atk_coeff := compute_coeff Real.rpow eps L,
                 dec_coeff := compute_coeff Real.rpow eps d,
                 rel_coeff := compute_coeff Real.rpow eps r } := by
    simp [construct, begin_idle, set_attack, set_decay, set_release]
  rw [exp_sample_eq _ _ le_rfl]
  have hin := exp_renders_inside (gate (construct Real.rpow raw L d l r eps) true)
    (by simp [active, gate, begin_attack, init_ramp]) 1
    (by simp [gate, begin_attack, init_ramp, hc]; omega)
  rw [hin]
  simp [gate, begin_attack, init_ramp, hc]

/-- The first sample times the geometric sum of the coefficient is 1. -/
lemma first_sample_geom (eps : ℝ) (heps : 0 < eps) (L : Int) (hL : 1 ≤ L) :
    (1 + eps) * (1 - compute_coeff Real.rpow eps L) *
      (∑ i ∈ Finset.range L.toNat, compute_coeff Real.rpow eps L ^ i) = 1 := by
  have hpow := compute_coeff_pow eps heps L L.toNat (by omega) hL
  have hg := mul_neg_geom_sum (compute_coeff Real.rpow eps L) L.toNat
  rw [mul_assoc, hg, hpow]
  field_simp

/-- The geometric sum is positive and grows with the coefficient. -/
lemma geom_sum_mono (c1 c2 : ℝ) (h0 : 0 ≤ c1) (h : c1 ≤ c2) (n : Nat) :
    (∑ i ∈ Finset.range n, c1 ^ i) ≤ ∑ i ∈ Finset.range n, c2 ^ i :=
  Finset.sum_le_sum (fun i _ => pow_le_pow_left₀ h0 h i)

lemma geom_sum_pos (c : ℝ) (h0 : 0 < c) (n : Nat) (hn : 1 ≤ n) :
    0 < ∑ i ∈ Finset.range n, c ^ i :=
  Finset.sum_pos (fun i _ => pow_pos h0 i) ⟨0, Finset.mem_range.mpr (by omega)⟩

/-- The first sample as the inverse of the geometric sum. -/
lemma first_sample_inv (eps : ℝ) (heps : 0 < eps) (L : Int) (hL : 1 ≤ L) :
    (1 + eps) * (1 - compute_coeff Real.rpow eps L) =
      (∑ i ∈ Finset.range L.toNat, compute_coeff Real.rpow eps L ^ i)⁻¹ := by
  have hs := geom_sum_pos _ (coeff_range eps heps L hL).1 L.toNat (by omega)
  exact eq_inv_of_mul_eq_one_left (first_sample_geom eps heps L hL)

/-- A larger shape gives a smaller first sample. -/
lemma first_sample_antitone (e1 e2 : ℝ) (h1 : 0 < e1) (h12 : e1 ≤ e2) (L : Int)
    (hL : 1 ≤ L) :
    (1 + e2) * (1 - compute_coeff Real.rpow e2 L) ≤
      (1 + e1) * (1 - compute_coeff Real.rpow e1 L) := by
  rw [first_sample_inv e1 h1 L hL, first_sample_inv e2 (lt_of_lt_of_le h1 h12) L hL]
  have hm := geom_sum_mono _ _ (coeff_range e1 h1 L hL).1.le (coeff_mono e1 e2 h1 h12 L hL)
    L.toNat
  have hp := geom_sum_pos _ (coeff_range e1 h1 L hL).1 L.toNat (by omega)
  exact inv_anti₀ hp hm

/-- The first sample lies strictly between the linear value `1 / L` and 1.
-/
lemma first_sample_bounds (eps : ℝ) (heps : 0 < eps) (L : Int) (hL : 2 ≤ L) :
    1 / (L : ℝ) < (1 + eps) * (1 - compute_coeff Real.rpow eps L) ∧
    (1 + eps) * (1 - compute_coeff Real.rpow eps L) < 1 := by
  obtain ⟨hc0, hc1⟩ := coeff_range eps heps L (by omega)
  have hpow := compute_coeff_pow eps heps L L.toNat (by omega) (by omega)
  set c := compute_coeff Real.rpow eps L with hcdef
  obtain ⟨m, hm⟩ : ∃ m : Nat, L.toNat = m + 2 := ⟨L.toNat - 2, by omega⟩
  have hLn : (L : ℝ) = ((L.toNat : Nat) : ℝ) := by
    have : ((L.toNat : Nat) : Int) = L := by omega
    exact_mod_cast this.symm
  constructor
  · rw [first_sample_inv eps heps L (by omega), one_div]
    have hp := geom_sum_pos c hc0 L.toNat (by omega)
    refine inv_strictAnti₀ hp ?_
    rw [hLn]
    calc ∑ i ∈ Finset.range L.toNat, c ^ i
        < ∑ _i ∈ Finset.range L.toNat, (1 : ℝ) := by
          refine Finset.sum_lt_sum (fun i _ => pow_le_one₀ hc0.le hc1.le)
            ⟨1, Finset.mem_range.mpr (by omega), ?_⟩
          simpa using hc1
      _ = ((L.toNat : Nat) : ℝ) := by simp
  · have h1e : (0 : ℝ) < 1 + eps := by positivity
    have hlt : c ^ L.toNat < c := by
      rw [hm, pow_succ]
      have : c ^ (m + 1) < 1 := pow_lt_one₀ hc0.le hc1 (by omega)
      nlinarith
    rw [hpow] at hlt
    have : eps < (1 + eps) * c := by
      have := (div_lt_iff₀ h1e).mp hlt
      linarith
    nlinarith

/-- As the shape grows without bound the first sample tends to the linear
value `1 / L`. -/
lemma first_sample_tendsto_atTop (L : Int) (hL : 1 ≤ L) :
    Filter.Tendsto (fun eps : ℝ => (1 + eps) * (1 - compute_coeff Real.rpow eps L))
      Filter.atTop (nhds (1 / (L : ℝ))) := by
  have hLn : (L : ℝ) = ((L.toNat : Nat) : ℝ) := by
    have : ((L.toNat : Nat) : Int) = L := by omega
    exact_mod_cast this.symm
  have hbase : Filter.Tendsto (fun e : ℝ => e / (1 + e)) Filter.atTop (nhds 1) := by
    have h1 : Filter.Tendsto (fun e : ℝ => (1 + e)⁻¹) Filter.atTop (nhds 0) :=
      tendsto_inv_atTop_zero.comp (Filter.tendsto_atTop_add_const_left _ 1 Filter.tendsto_id)
    have h2 : Filter.Tendsto (fun e : ℝ => 1 - (1 + e)⁻¹) Filter.atTop (nhds (1 - 0)) :=
      tendsto_const_nhds.sub h1
    rw [sub_zero] at h2
    refine h2.congr' ?_
    filter_upwards [Filter.eventually_gt_atTop (0 : ℝ)] with e he
    have : (1 + e) ≠ 0 := by positivity
    field_simp
  have hcoeff : Filter.Tendsto (fun e : ℝ => compute_coeff Real.rpow e L) Filter.atTop
      (nhds 1) := by
    have := (Real.continuousAt_rpow_const 1 (1 / (L : ℝ)) (Or.inl one_ne_zero)).tendsto.comp
      hbase
    simpa [compute_coeff, Function.comp_def] using this
  have hsum : Filter.Tendsto
      (fun e : ℝ => ∑ i ∈ Finset.range L.toNat, compute_coeff Real.rpow e L ^ i)
      Filter.atTop (nhds (∑ i ∈ Finset.range L.toNat, (1 : ℝ) ^ i)) := by
    have hcont : Continuous (fun x : ℝ => ∑ i ∈ Finset.range L.toNat, x ^ i) :=
      continuous_finset_sum _ (fun i _ => continuous_pow i)
    exact (hcont.tendsto 1).comp hcoeff
  have hone : (∑ i ∈ Finset.range L.toNat, (1 : ℝ) ^ i) = (L : ℝ) := by
    simp [hLn]
  rw [hone] at hsum
  have hL0 : (L : ℝ) ≠ 0 := by
    have : (0 : Int) < L := by omega
    exact_mod_cast this.ne'
  have hinv := hsum.inv₀ hL0
  rw [one_div]
  refine hinv.congr' ?_
  filter_upwards [Filter.eventually_gt_atTop (0 : ℝ)] with e he
  exact (first_sample_inv e he L hL).symm

/-- As the shape tends to 0 the first sample tends to 1, the value of a
step. -/
lemma first_sample_tendsto_zero (L : Int) (hL : 1 ≤ L) :
    Filter.Tendsto (fun eps : ℝ => (1 + eps) * (1 - compute_coeff Real.rpow eps L))
      (nhdsWithin 0 (Set.Ioi 0)) (nhds 1) := by
  have hL0 : (0 : ℝ) < (L : ℝ) := by exact_mod_cast (by omega : (0 : Int) < L)
  have h1 : ContinuousAt (fun e : ℝ => e / (1 + e)) 0 :=
    continuousAt_id.div (continuousAt_const.add continuousAt_id) (by norm_num)
  have h2 : ContinuousAt (fun e : ℝ => (e / (1 + e)) ^ (1 / (L : ℝ))) 0 :=
    ContinuousAt.comp (g := fun x : ℝ => x ^ (1 / (L : ℝ)))
      (Real.continuousAt_rpow_const _ _ (Or.inr (by positivity))) h1
  have h3 : ContinuousAt (fun e : ℝ => (1 + e) * (1 - (e / (1 + e)) ^ (1 / (L : ℝ)))) 0 :=
    (continuousAt_const.add continuousAt_id).mul (continuousAt_const.sub h2)
  have h4 := h3.tendsto
  have hval : (1 + (0 : ℝ)) * (1 - ((0 : ℝ) / (1 + 0)) ^ (1 / (L : ℝ))) = 1 := by
    have hne : (1 / (L : ℝ)) ≠ 0 := by positivity
    rw [zero_div, Real.zero_rpow hne]
    norm_num
  rw [hval] at h4
  have h5 := h4.mono_left (nhdsWithin_le_nhds (s := Set.Ioi (0 : ℝ)))
  simpa [compute_coeff] using h5

/-- The coefficient for length 2 is the square root of `eps / (1 + eps)`. -/
lemma coeff_two (eps b : ℝ) (heps : 0 < eps) (hb : 0 < b) (h : eps / (1 + eps) = b ^ 2) :
    compute_coeff Real.rpow eps 2 = b := by
  have hp := compute_coeff_pow eps heps 2 2 rfl (by norm_num)
  have h0 := (coeff_range eps heps 2 (by norm_num)).1
  rw [h] at hp
  have hz : (compute_coeff Real.rpow eps 2 - b) * (compute_coeff Real.rpow eps 2 + b) = 0 := by
    ring_nf; ring_nf at hp; linarith
  rcases mul_eq_zero.mp hz with h1 | h1
  · linarith
  · linarith

/-- The claim C14 fails: with attack length 2 on a fresh generator, the shape
9/7 gives the first sample 4/7 and the smaller shape 1/3 gives the larger
first sample 2/3. -/
theorem C14_larger_shape_smaller_sample :
    (0 : ℝ) < 1 / 3 ∧ (1 / 3 : ℝ) ≤ 9 / 7 ∧
    sample (gate (construct Real.rpow rawLogExpReal 2 1 0 1 (1 / 3)) true) 1 = 2 / 3 ∧
    sample (gate (construct Real.rpow rawLogExpReal 2 1 0 1 (9 / 7)) true) 1 = 4 / 7 ∧
    ¬ (sample (gate (construct Real.rpow rawLogExpReal 2 1 0 1 (1 / 3)) true) 1 ≤
      sample (gate (construct Real.rpow rawLogExpReal 2 1 0 1 (9 / 7)) true) 1) := by
  have h1 : sample (gate (construct Real.rpow rawLogExpReal 2 1 0 1 (1 / 3)) true) 1 = 2 / 3 := by
    rw [first_sample _ _ _ _ _ _ le_rfl,
      coeff_two (1 / 3) (1 / 2) (by norm_num) (by norm_num) (by norm_num)]
    norm_num
  have h2 : sample (gate (construct Real.rpow rawLogExpReal 2 1 0 1 (9 / 7)) true) 1 = 4 / 7 := by
    rw [first_sample _ _ _ _ _ _ le_rfl,
      coeff_two (9 / 7) (3 / 4) (by norm_num) (by norm_num) (by norm_num)]
    norm_num
  refine ⟨by norm_num, by norm_num, h1, h2, ?_⟩
  rw [h1, h2]
  norm_num

/-- C14, amended. Over the reals: a larger shape gives a more linear ramp and
a smaller shape a more step-like one. For every attack length `L ≥ 2` and
shapes `0 < eps1 ≤ eps2`, the first sample of an Attack started on a fresh
generator (start 0, target 1) with shape `eps2` is at most the first sample
with shape `eps1`; the first sample always lies strictly between the linear
value `1 / L` and 1; as the shape grows without bound it tends to `1 / L`, and
as the shape goes to 0 it tends to 1. -/
theorem C14_shape_direction (raw : ADSR_LogExp ℝ) (L d r : Int) (l : ℝ) (hL : 2 ≤ L) :
    (∀ e1 e2 : ℝ, 0 < e1 → e1 ≤ e2 →
      sample (gate (construct Real.rpow raw L d l r e2) true) 1 ≤
        sample (gate (construct Real.rpow raw L d l r e1) true) 1) ∧
    (∀ e : ℝ, 0 < e →
      1 / (L : ℝ) < sample (gate (construct Real.rpow raw L d l r e) true) 1 ∧
        sample (gate (construct Real.rpow raw L d l r e) true) 1 < 1) ∧
    Filter.Tendsto (fun e : ℝ => sample (gate (construct Real.rpow raw L d l r e) true) 1)
      Filter.atTop (nhds (1 / (L : ℝ))) ∧
    Filter.Tendsto (fun e : ℝ => sample (gate (construct Real.rpow raw L d l r e) true) 1)
      (nhdsWithin 0 (Set.Ioi 0)) (nhds 1) := by
  have hf : (fun e : ℝ => sample (gate (construct Real.rpow raw L d l r e) true) 1) =
      fun e : ℝ => (1 + e) * (1 - compute_coeff Real.rpow e L) :=
    funext (fun e => first_sample raw L d r l e hL)
  refine ⟨fun e1 e2 h1 h12 => ?_, fun e he => ?_, ?_, ?_⟩
  · rw [first_sample raw L d r l e1 hL, first_sample raw L d r l e2 hL]
    exact first_sample_antitone e1 e2 h1 h12 L (by omega)
  · rw [first_sample raw L d r l e hL]
    exact first_sample_bounds e he L hL
  · rw [hf]; exact first_sample_tendsto_atTop L (by omega)
  · rw [hf]; exact first_sample_tendsto_zero L (by omega)

/-- Instance of C14: attack length 3, shapes 1 and 2. -/
theorem C14_shape_direction_witness :
    sample (gate (construct Real.rpow rawLogExpReal 3 1 0 1 2) true) 1 ≤
      sample (gate (construct Real.rpow rawLogExpReal 3 1 0 1 1) true) 1 :=
  (C14_shape_direction rawLogExpReal 3 1 1 0 (by decide)).1 1 2 (by norm_num) (by norm_num)

end ADSR_LogExp

end ADSR

/-! ## Monotonicity of the exponential ramp -/

namespace ADSR

open State

namespace ADSR_LogExp

/-- The samples of a freshly initialised ramp of length `L` with the
coefficient for `L` samples: `v0 + (v1 - v0) * (1 + eps) * (1 - coeff ^ k)`.
The hypothesis `hfin` says that the state transition at completion leaves an
output that is on the target where it is. -/
lemma ramp_samples (t : ADSR_LogExp ℝ) (eps v1 : ℝ) (L : Int) (heps : 0 < eps)
    (hL : 1 ≤ L) (hact : active t) (hp : t.phase = 0) (hl : t.length = L)
    (he : t.v_exp = 1) (hc : t.coeff = compute_coeff Real.rpow eps L)
    (hT : t.v_T = v1 + (v1 - t.v_0) * eps)
    (hfin : ∀ u : ADSR_LogExp ℝ, u.state = t.state → u.sustain = t.sustain →
      u.retrigger = t.retrigger → u.v_sus = t.v_sus → u.v_c = v1 → (next_state u).v_c = v1)
    (k : Nat) (hk1 : 1 ≤ k) (hk : (k : Int) ≤ L) :
    sample t k = t.v_0 + (v1 - t.v_0) * (1 + eps) * (1 - t.coeff ^ k) := by
  have h1e : (1 : ℝ) + eps ≠ 0 := by positivity
  rw [exp_sample_eq _ _ hk1]
  by_cases hlt : (k : Int) < L
  · rw [exp_renders_inside t hact k (by rw [hp, hl]; omega)]
    have hk0 : k ≠ 0 := by omega
    simp only [hk0, if_false, he, hT, one_mul]
    ring
  · have hkL : (k : Int) = L := le_antisymm hk (not_lt.mp hlt)
    obtain ⟨m, rfl⟩ : ∃ m, k = m + 1 := ⟨k - 1, by omega⟩
    have hpow : t.coeff ^ (m + 1) = eps / (1 + eps) := by
      rw [hc]; exact compute_coeff_pow eps heps L (m + 1) hkL hL
    rw [exp_renders_last t hact m (by rw [hp, hl]; omega) (by rw [hp, hl]; omega)]
    have hv : t.v_T * (1 - t.v_exp * t.coeff ^ (m + 1)) +
        t.v_0 * (t.v_exp * t.coeff ^ (m + 1)) = v1 := by
      rw [he, hT, one_mul, hpow]; field_simp; ring
    refine Eq.trans (hfin _ rfl rfl rfl rfl hv) ?_
    rw [hpow]
    field_simp

/-- The closed form of the samples is monotonic and stays on the near side of
the target. -/
lemma ramp_monotone (t : ADSR_LogExp ℝ) (eps v1 : ℝ) (L : Int) (heps : 0 < eps)
    (hL : 1 ≤ L) (hc : t.coeff = compute_coeff Real.rpow eps L)
    (hT : t.v_T = v1 + (v1 - t.v_0) * eps)
    (hs : ∀ k : Nat, 1 ≤ k → (k : Int) ≤ L →
      sample t k = t.v_0 + (v1 - t.v_0) * (1 + eps) * (1 - t.coeff ^ k)) :
    RampMonotone t t.v_0 v1 L := by
  obtain ⟨hc0, hc1⟩ := coeff_range eps heps L hL
  rw [← hc] at hc0 hc1
  have hpow : t.coeff ^ L.toNat = eps / (1 + eps) := by
    rw [hc]; exact compute_coeff_pow eps heps L L.toNat (by omega) hL
  have h1e : (0 : ℝ) < 1 + eps := by positivity
  -- the factor `(1 + eps) * (1 - coeff ^ k)` lies in `(0, 1]` for `1 ≤ k ≤ L`
  have hfac : ∀ k : Nat, 1 ≤ k → (k : Int) ≤ L →
      0 < (1 + eps) * (1 - t.coeff ^ k) ∧ (1 + eps) * (1 - t.coeff ^ k) ≤ 1 := by
    intro k hk1 hk
    have hlt1 : t.coeff ^ k < 1 := pow_lt_one₀ hc0.le hc1 (by omega)
    have hge : t.coeff ^ L.toNat ≤ t.coeff ^ k :=
      pow_le_pow_of_le_one hc0.le hc1.le (by omega)
    rw [hpow] at hge
    constructor
    · exact mul_pos h1e (by linarith)
    · have : eps ≤ (1 + eps) * t.coeff ^ k := by
        have := (div_le_iff₀ h1e).mp hge
        linarith
      nlinarith
  -- and it grows strictly with `k`
  have hstep : ∀ j k : Nat, j < k →
      (1 + eps) * (1 - t.coeff ^ j) < (1 + eps) * (1 - t.coeff ^ k) := by
    intro j k hjk
    have := pow_lt_pow_right_of_lt_one₀ hc0 hc1 hjk
    exact mul_lt_mul_of_pos_left (by linarith) h1e
  have hlast : sample t L.toNat = v1 := by
    rw [hs L.toNat (by omega) (by omega), hpow]
    field_simp
  refine ⟨hlast, fun hv => ⟨?_, fun k hk1 hk => ?_, fun j k hj hjk hk => ?_⟩,
    fun hv => ⟨?_, fun k hk1 hk => ?_, fun j k hj hjk hk => ?_⟩⟩
  · rw [hT]; nlinarith
  · obtain ⟨f0, f1⟩ := hfac k hk1 hk
    rw [hs k hk1 hk]
    constructor
    · nlinarith
    · nlinarith
  · rw [hs j hj (by omega), hs k (by omega) hk]
    have := hstep j k hjk
    nlinarith
  · rw [hT]; nlinarith
  · obtain ⟨f0, f1⟩ := hfac k hk1 hk
    rw [hs k hk1 hk]
    constructor
    · nlinarith
    · nlinarith
  · rw [hs j hj (by omega), hs k (by omega) hk]
    have := hstep j k hjk
    nlinarith

/-- C15. Over the reals, for every generator state whose stored coefficients
are the configured ones (every reachable state is one), and for each of the
three segments entered from it, Attack by `gate(true)` towards 1, Decay by
`begin_decay` towards the sustain level, Release by `gate(false)` towards 0,
with a positive shape and a length `L ≥ 1`: rendered without other calls, the
`L`-th sample is the nominal target; when the start level `v_c` is below the
target, the asymptote `v_T` lies above the target, the samples `1 .. L` lie in
`(v_c, target]` and increase strictly; when it is above, the asymptote lies
below the target, the samples lie in `[target, v_c)` and decrease strictly. -/
theorem C15_ramp_monotone (s : ADSR_LogExp ℝ) (hs : CoeffsConfigured Real.rpow s) :
    (0 < s.atk_eps → 1 ≤ s.atk_len → RampMonotone (gate s true) s.v_c 1 s.atk_len) ∧
    (0 < s.dec_eps → 1 ≤ s.dec_len →
      RampMonotone (begin_decay s) s.v_c s.v_sus s.dec_len) ∧
    (0 < s.rel_eps → 1 ≤ s.rel_len → RampMonotone (gate s false) s.v_c 0 s.rel_len) := by
  obtain ⟨ha, hd, hr⟩ := hs
  refine ⟨fun heps hL => ?_, fun heps hL => ?_, fun heps hL => ?_⟩
  · have hcf : (gate s true).coeff = compute_coeff Real.rpow s.atk_eps s.atk_len := by
      simpa [gate, begin_attack, init_ramp] using ha
    have hT : (gate s true).v_T = 1 + (1 - (gate s true).v_0) * s.atk_eps := by
      simp [gate, begin_attack, init_ramp]
    have h0 : (gate s true).v_0 = s.v_c := by simp [gate, begin_attack, init_ramp]
    have := ramp_monotone (gate s true) s.atk_eps 1 s.atk_len heps hL hcf hT
      (ramp_samples (gate s true) s.atk_eps 1 s.atk_len heps hL
        (by simp [active, gate, begin_attack, init_ramp])
        (by simp [gate, begin_attack, init_ramp]) (by simp [gate, begin_attack, init_ramp])
        (by simp [gate, begin_attack, init_ramp]) hcf hT
        (by
          intro u hu _ _ _ hv
          have hu' : u.state = kADSRStateAttack := by
            simpa [gate, begin_attack, init_ramp] using hu
          simpa [next_state, hu', begin_decay, init_ramp] using hv))
    rwa [h0] at this
  · have hcf : (begin_decay s).coeff = compute_coeff Real.rpow s.dec_eps s.dec_len := by
      simpa [begin_decay, init_ramp] using hd
    have hT : (begin_decay s).v_T = s.v_sus + (s.v_sus - (begin_decay s).v_0) * s.dec_eps := by
      simp [begin_decay, init_ramp]
    have h0 : (begin_decay s).v_0 = s.v_c := by simp [begin_decay, init_ramp]
    have := ramp_monotone (begin_decay s) s.dec_eps s.v_sus s.dec_len heps hL hcf hT
      (ramp_samples (begin_decay s) s.dec_eps s.v_sus s.dec_len heps hL
        (by simp [active, begin_decay, init_ramp])
        (by simp [begin_decay, init_ramp]) (by simp [begin_decay, init_ramp])
        (by simp [begin_decay, init_ramp]) hcf hT
        (by
          intro u hu _ _ hsus hv
          have hu' : u.state = kADSRStateDecay := by
            simpa [begin_decay, init_ramp] using hu
          have hsus' : u.v_sus = s.v_sus := by simpa [begin_decay, init_ramp] using hsus
          simp only [next_state, hu']
          split_ifs
          · simpa [begin_sustain] using hsus'
          · simpa [begin_release, init_ramp] using hv))
    rwa [h0] at this
  · have hcf : (gate s false).coeff = compute_coeff Real.rpow s.rel_eps s.rel_len := by
      simpa [gate, begin_release, init_ramp] using hr
    have hT : (gate s false).v_T = 0 + (0 - (gate s false).v_0) * s.rel_eps := by
      simp [gate, begin_release, init_ramp]
    have h0 : (gate s false).v_0 = s.v_c := by simp [gate, begin_release, init_ramp]
    have := ramp_monotone (gate s false) s.rel_eps 0 s.rel_len heps hL hcf hT
      (ramp_samples (gate s false) s.rel_eps 0 s.rel_len heps hL
        (by simp [active, gate, begin_release, init_ramp])
        (by simp [gate, begin_release, init_ramp]) (by simp [gate, begin_release, init_ramp])
        (by simp [gate, begin_release, init_ramp]) hcf hT
        (by
          intro u hu _ _ _ hv
          have hu' : u.state = kADSRStateRelease := by
            simpa [gate, begin_release, init_ramp] using hu
          simp only [next_state, hu']
          split_ifs
          · simpa [begin_attack, init_ramp] using hv
          · simp [begin_idle]))
    rwa [h0] at this

/-- Instance of C15: the Attack of a freshly constructed generator with length
2 and shape 1. -/
theorem C15_ramp_monotone_witness :
    RampMonotone (gate (construct Real.rpow rawLogExpReal 2 2 0 2 1) true)
      (construct Real.rpow rawLogExpReal 2 2 0 2 1).v_c 1
      (construct Real.rpow rawLogExpReal 2 2 0 2 1).atk_len :=
  (C15_ramp_monotone (construct Real.rpow rawLogExpReal 2 2 0 2 1)
    (construct_coeffs Real.rpow rawLogExpReal 2 2 0 2 1)).1
    (by simp [construct, begin_idle, set_attack, set_decay, set_release])
    (by simp [construct, begin_idle, set_attack, set_decay, set_release])

end ADSR_LogExp

end ADSR

/-! ## The free-running oscillator -/

namespace ADSR

open State

namespace ADSR_Linear

variable {F : Type} [LinearOrderedField F] [FloorRing F]

/-- A whole segment rendered from its entry, with the slope computed for its
length: `length` renders end in `next_state` with the output on the target
`T`. -/
lemma renders_full_segment (t : ADSR_Linear F) (T : F) (hact : active t) (hp : t.phase = 0)
    (hl : 1 ≤ t.length) (hs : t.slope = compute_slope t.x T t.length) :
    renders t t.length.toNat = next_state { t with x := T, phase := t.length } := by
  have hne : (t.length : F) ≠ 0 := by
    have : (0 : Int) < t.length := by omega
    exact_mod_cast this.ne'
  have hx : t.x + (t.length : F) * t.slope = T := by
    rw [hs]; unfold compute_slope; field_simp
  rw [renders_segment t hact hp hl, hx]

/-- With `sustain = false` and `retrigger = true`, `render()` keeps the flags
and never leaves the active states. -/
lemma render_oscillating (s : ADSR_Linear F)
    (h : s.sustain = false ∧ s.retrigger = true ∧ active s) :
    (render s).1.sustain = false ∧ (render s).1.retrigger = true ∧ active (render s).1 := by
  obtain ⟨hsu, hre, hact⟩ := h
  by_cases hlt : s.phase + 1 < s.length
  · rw [render_inside s hact hlt]
    exact ⟨hsu, hre, hact⟩
  · rw [render_last s hact (not_lt.mp hlt)]
    rcases hs : s.state with _ | _ | _ | _ | _
    · exact absurd hs hact.1
    · simp [next_state, hs, begin_decay, active, hsu, hre]
    · simp [next_state, hs, begin_release, active, hsu, hre]
    · exact absurd hs hact.2
    · simp [next_state, hs, begin_attack, active, hsu, hre]

lemma renders_oscillating (s : ADSR_Linear F)
    (h : s.sustain = false ∧ s.retrigger = true ∧ active s) (n : Nat) :
    (renders s n).sustain = false ∧ (renders s n).retrigger = true ∧ active (renders s n) := by
  induction n with
  | zero => exact h
  | succ n ih => exact render_oscillating _ ih

/-- After one period, attack, decay and release length together, the
generator started by `gate(true)` with `sustain = false` and
`retrigger = true` is back in the state it started the Attack in. -/
lemma renders_period (a d r : Int) (l : F) (ha : 1 ≤ a) (hd : 1 ≤ d) (hr : 1 ≤ r) :
    renders (⟨false, true, kADSRStateAttack, 0, a, compute_slope 0 1 a, 0, a, d, r, l⟩ :
        ADSR_Linear F) (a + d + r).toNat =
      ⟨false, true, kADSRStateAttack, 0, a, compute_slope 0 1 a, 0, a, d, r, l⟩ := by
  have hP : (a + d + r).toNat = a.toNat + d.toNat + r.toNat := by omega
  have h1 := renders_full_segment
    (⟨false, true, kADSRStateAttack, 0, a, compute_slope 0 1 a, 0, a, d, r, l⟩ :
      ADSR_Linear F) 1 (by simp [active]) rfl ha rfl
  have h2 := renders_full_segment
    (⟨false, true, kADSRStateDecay, 0, d, compute_slope 1 l d, 1, a, d, r, l⟩ :
      ADSR_Linear F) l (by simp [active]) rfl hd rfl
  have h3 := renders_full_segment
    (⟨false, true, kADSRStateRelease, 0, r, compute_slope l 0 r, l, a, d, r, l⟩ :
      ADSR_Linear F) 0 (by simp [active]) rfl hr rfl
  simp only [next_state, begin_decay, begin_release, begin_attack, Bool.false_eq_true,
    if_false, if_true] at h1 h2 h3
  rw [hP, renders_add, renders_add, h1, h2, h3]

/-- C21. With `sustain = false` and `retrigger = true`, attack, decay and
release lengths `a, d, r ≥ 1` and any sustain level, starting from a fresh
generator and calling `gate(true)` followed only by `render()` calls: after
`a + d + r` renders the generator is again in the state `gate(true)` left it
in, the value returned by the `(n + a + d + r)`-th call equals the value
returned by the `n`-th call for every `n ≥ 1`, and the generator is never in
Idle or Sustain. -/
theorem C21_free_running_oscillator (raw : ADSR_Linear F) (a d : Int) (l : F) (r : Int)
    (ha : 1 ≤ a) (hd : 1 ≤ d) (hr : 1 ≤ r) (n : Nat) :
    renders (gate { construct raw a d l r with sustain := false, retrigger := true } true)
        (a + d + r).toNat =
      gate { construct raw a d l r with sustain := false, retrigger := true } true ∧
    (1 ≤ n →
      sample (gate { construct raw a d l r with sustain := false, retrigger := true } true)
          (n + (a + d + r).toNat) =
        sample (gate { construct raw a d l r with sustain := false, retrigger := true } true)
          n) ∧
    (renders (gate { construct raw a d l r with sustain := false, retrigger := true } true)
        n).state ≠ kADSRStateIdle ∧
    (renders (gate { construct raw a d l r with sustain := false, retrigger := true } true)
        n).state ≠ kADSRStateSustain := by
  have hg : gate { construct raw a d l r with sustain := false, retrigger := true } true =
      ⟨false, true, kADSRStateAttack, 0, a, compute_slope 0 1 a, 0, a, d, r, l⟩ := by
    simp [construct, begin_idle, set_attack_length, set_decay_length, set_release_length,
      gate, begin_attack]
  rw [hg]
  have hper := renders_period (F := F) a d r l ha hd hr
  have hosc := renders_oscillating
    (⟨false, true, kADSRStateAttack, 0, a, compute_slope 0 1 a, 0, a, d, r, l⟩ :
      ADSR_Linear F) ⟨rfl, rfl, by simp [active]⟩ n
  refine ⟨hper, fun hn => ?_, hosc.2.2.1, hosc.2.2.2⟩
  rw [sample_eq _ _ (by omega), sample_eq _ _ hn, Nat.add_comm, renders_add, hper]

/-- Instance of C21: lengths 3, 2, 4 and level 1/2; the eleventh sample equals
the second. -/
theorem C21_free_running_oscillator_witness :
    sample (gate { construct rawLinear 3 2 (1 / 2) 4 with sustain := false, retrigger := true }
        true) (2 + ((3 : Int) + 2 + 4).toNat) =
      sample (gate { construct rawLinear 3 2 (1 / 2) 4 with sustain := false, retrigger := true }
        true) 2 :=
  (C21_free_running_oscillator rawLinear 3 2 (1 / 2) 4 (by decide) (by decide) (by decide)
    2).2.1 (by decide)

end ADSR_Linear

end ADSR
